import Mathlib

/-!
The go-vite chain coordinator

A shallow embedding of the chain coordinator of go-vite
(`chain/delete.go`, `pmchain/insert.go`): snapshot deletion, account block
deletion, account block insertion and snapshot insertion, over abstract
Block Log, Index Store, State Store and Unconfirmed Cache collaborators.

Conventions of the embedding

* Go `uint64` heights are `Nat`; the only subtraction (`toHeight - 1`) is
  guarded by `toHeight > 1`, so no wrap-around can occur.
* A Go `(value, error)` result is a pair whose second component is
  `Option GoError` (`none` is the `nil` error); both components are always
  present, exactly as in Go.
* A Go pointer that the code tests against `nil` is an `Option`.
* A Go slice argument is a `List` (`nil` and the empty slice are both `[]`);
  the slice *returned* by an operation is an `Option (List _)` so that a
  returned `nil` is visible.
* The stores are explicit state; every state-changing collaborator call and
  every Event Hub trigger is appended to `Chain.trace` in program order.
  Read-only queries (`GetUnconfirmedBlocks`, `HasRedo`, location lookups) are
  functions of the store state and are not recorded in the trace.  Logger
  output is recorded separately in `Chain.logs`.
-/

namespace GoVite

/-- A block hash (`types.Hash`), kept as an identifier. -/
abbrev Hash := Nat

/-- An account address (`types.Address`), kept as an identifier. -/
abbrev Address := Nat

/-- A cursor into the block log (`chain_file_manager.Location`). -/
structure Location where
  fileId : Nat
  offset : Nat
deriving DecidableEq, Repr

/-- The fields of `ledger.AccountBlock` the coordinator looks at. -/
structure AccountBlock where
  accountAddress : Address
  height : Nat
  hash : Hash
  fromBlockHash : Hash
deriving DecidableEq, Repr

/-- The fields of `ledger.SnapshotBlock` the coordinator looks at. -/
structure SnapshotBlock where
  hash : Hash
  height : Nat
deriving DecidableEq, Repr

/-- The type `ledger.SnapshotChunk`: an optional snapshot block with account blocks. -/
structure SnapshotChunk where
  snapshotBlock : Option SnapshotBlock
  accountBlocks : List AccountBlock
deriving DecidableEq, Repr

/-- The type `chain_block.SnapshotSegment`, the record appended to the block log. -/
structure SnapshotSegment where
  snapshotBlock : SnapshotBlock
  accountBlocks : List AccountBlock
deriving DecidableEq, Repr

/-- The type `vm_db.VmAccountBlock`: an account block with the handle of its vm db. -/
structure VmAccountBlock where
  accountBlock : AccountBlock
  vmDb : Nat
deriving DecidableEq, Repr

/-- A Go `map[types.Address][]*ledger.AccountBlock`, as an association list. -/
abbrev SubLedger := List (Address × List AccountBlock)

/-- The places of the coordinator that build an error value. -/
inductive Site where
  | getSnapshotBlockHeight
  | heightLeOne
  | heightRange
  | getSnapshotBlockLocation
  | getNextLocation
  | locationNil
  | blockDBRollback
  | hasRedo
  | indexRollbackSnapshotBlocks
  | cacheRollbackSnapshotBlocks
  | stateRollbackSnapshotBlocks
  | notUnconfirmed
  | planDeleteEmpty
  | indexRollbackAccountBlocks
  | cacheRollbackAccountBlocks
  | stateRollbackAccountBlocks
  | indexInsertAccountBlock
  | stateWrite
  | blockDBWrite
  | indexInsertSnapshotBlock
  | stateFlush
  | indexLoad
deriving DecidableEq, Repr

/-- Go `error` values: `store n` comes from a collaborator, `wrapped s e` is
`errors.New(fmt.Sprintf(".. Error: %s", e.Error()))` built at site `s`, and
`invalid s` is an `errors.New` of a validation message built at site `s`. -/
inductive GoError where
  | store (code : Nat)
  | wrapped (site : Site) (cause : GoError)
  | invalid (site : Site)
deriving DecidableEq, Repr

/-- Why a call did not return. -/
inductive PanicReason where
  | nilErrorDereference
  | nilPointerDereference
  | sliceBoundsOutOfRange
  | dealWithErr
deriving DecidableEq, Repr

/-- The result of running a Go function: it returns a value or panics. -/
inductive Outcome (α : Type) where
  | returned (value : α)
  | panicked (reason : PanicReason)
deriving DecidableEq, Repr

/-- The event kinds of the Event Hub used by the coordinator. -/
inductive EventKind where
  | prepareInsertAbsEvent
  | insertAbsEvent
  | prepareInsertSbsEvent
  | InsertSbsEvent
  | prepareDeleteAbsEvent
  | DeleteAbsEvent
  | prepareDeleteSbsEvent
  | DeleteSbsEvent
deriving DecidableEq, Repr

/-- The state-changing collaborator calls and Event Hub triggers, with their arguments. -/
inductive Effect where
  | emTrigger (ev : EventKind) (vmAbList : List VmAccountBlock)
      (abList : List AccountBlock) (sbList : List SnapshotBlock)
      (chunks : List SnapshotChunk)
  | pmTrigger (ev : EventKind) (vmAbList : List VmAccountBlock)
      (abList : List AccountBlock) (sbList : List SnapshotBlock)
  | blockDBRollback (location : Location)
  | blockDBWrite (segment : SnapshotSegment)
  | indexRollbackSnapshotBlocks (chunks : List SnapshotChunk)
      (newUnconfirmedBlocks : List AccountBlock)
  | cacheRollbackSnapshotBlocks (chunks : List SnapshotChunk)
      (newUnconfirmedBlocks : List AccountBlock)
  | stateRollbackSnapshotBlocks (chunks : List SnapshotChunk)
      (newUnconfirmedBlocks : List AccountBlock)
  | indexRollbackAccountBlocks (blocks : List AccountBlock)
  | cacheRollbackAccountBlocks (blocks : List AccountBlock)
  | stateRollbackAccountBlocks (blocks : List AccountBlock)
  | flusherFlush (force : Bool)
  | cacheInsertAccountBlock (block : AccountBlock)
  | indexInsertAccountBlock (block : VmAccountBlock)
  | stateWrite (block : VmAccountBlock)
  | indexInsertSnapshotBlock (snapshotBlock : SnapshotBlock) (subLedger : SubLedger)
      (location : Option Location)
  | stateFlush (snapshotHash : Hash) (blocks : List AccountBlock)
  | stateDeleteInvalidAccountBlocks (subLedger : SubLedger)
  | indexDeleteInvalidAccountBlocks (subLedger : SubLedger)
  | cacheDeleteUnconfirmedAccountBlocks (blocks : List AccountBlock)
  | cacheInsertSnapshotBlock (snapshotBlock : SnapshotBlock)
deriving DecidableEq, Repr

/-- Severity of a logger call. -/
inductive LogLevel where
  | error
  | crit
deriving DecidableEq, Repr

/-- The coordinator: the four stores, the trace of effects and the log. -/
structure Chain (B I S C : Type) where
  blockDB : B
  indexDB : I
  stateDB : S
  cache : C
  trace : List Effect
  logs : List (LogLevel × GoError)

/-- The collaborators the coordinator calls; none of them is under `src/`, so
they are parameters.  Every store operation acts on the state of its own
store; the chain's own helpers `filterCanBeSnapped` and `computeDependencies`
may read all four stores. -/
structure Collab (B I S C : Type) where
  blockDBGetNextLocation : B → Option Location → Option Location × Option GoError
  blockDBRollback : B → Location → B × List SnapshotChunk × Option GoError
  blockDBWrite : B → SnapshotSegment → B × List Location × Option Location × Option GoError
  indexGetSnapshotBlockHeight : I → Hash → Nat × Option GoError
  indexGetSnapshotBlockLocation : I → Nat → Option Location × Option GoError
  indexRollbackSnapshotBlocks : I → List SnapshotChunk → List AccountBlock → I × Option GoError
  indexRollbackAccountBlocks : I → List AccountBlock → I × Option GoError
  indexInsertAccountBlock : I → VmAccountBlock → I × Option GoError
  indexInsertSnapshotBlock : I → SnapshotBlock → SubLedger → Option Location → I × Option GoError
  indexDeleteInvalidAccountBlocks : I → SubLedger → I
  stateHasRedo : S → Nat → Bool × Option GoError
  stateRollbackSnapshotBlocks : S → List SnapshotChunk → List AccountBlock → S × Option GoError
  stateRollbackAccountBlocks : S → List AccountBlock → S × Option GoError
  stateWrite : S → VmAccountBlock → S × Option GoError
  stateFlush : S → Hash → List AccountBlock → S × Option GoError
  stateDeleteInvalidAccountBlocks : S → SubLedger → S
  cacheGetUnconfirmedBlocks : C → List AccountBlock
  cacheGetLatestSnapshotBlock : C → SnapshotBlock
  cacheRollbackSnapshotBlocks : C → List SnapshotChunk → List AccountBlock → C × Option GoError
  cacheRollbackAccountBlocks : C → List AccountBlock → C × Option GoError
  cacheInsertAccountBlock : C → AccountBlock → C
  cacheDeleteUnconfirmedAccountBlocks : C → List AccountBlock → C
  cacheInsertSnapshotBlock : C → SnapshotBlock → C
  flusherFlush : Bool → B → I → S → B × I × S
  filterCanBeSnapped : B → I → S → C → List AccountBlock →
    List AccountBlock × SubLedger × List AccountBlock
  blocksToMap : List AccountBlock → SubLedger
  computeDependencies : B → I → S → C → List AccountBlock → List AccountBlock

variable {B I S C : Type}

/-- Append an effect to the trace. -/
def Chain.emit (c : Chain B I S C) (e : Effect) : Chain B I S C :=
  { c with trace := c.trace ++ [e] }

/-- The call `c.log.Error(cErr.Error(), ..)`: writes a log line and returns. -/
def Chain.logError (c : Chain B I S C) (cErr : GoError) : Chain B I S C :=
  { c with logs := c.logs ++ [(LogLevel.error, cErr)] }

/-- Modelled from the spec: the logger is not under `src/`; section 9 describes
`c.log.Crit` as "logging at critical severity without halting", so the call
writes a log line and returns to its caller. -/
def Chain.logCrit (c : Chain B I S C) (cErr : GoError) : Chain B I S C :=
  { c with logs := c.logs ++ [(LogLevel.crit, cErr)] }

/-- The statement `if err != nil { cErr := errors.New(..err.Error()); c.log.Crit(cErr.Error(), ..) }`
with no `return` in its body: execution continues after it in both cases. -/
def Chain.critOnError (c : Chain B I S C) (site : Site) (err : Option GoError) : Chain B I S C :=
  match err with
  | some e => c.logCrit (GoError.wrapped site e)
  | none => c

/-- What the two snapshot deletion entry points return: `([]*SnapshotChunk, error)`. -/
structure DeleteResult where
  chunks : Option (List SnapshotChunk)
  err : Option GoError
deriving DecidableEq, Repr

/-- The method `c.GetLatestSnapshotBlock()`.
Modelled from the spec: the method is not under `src/`; the spec reads the
latest snapshot block from the cache's latest-snapshot pointer. -/
def GetLatestSnapshotBlock (k : Collab B I S C) (c : Chain B I S C) : SnapshotBlock :=
  k.cacheGetLatestSnapshotBlock c.cache

/-- `chain.DeleteSnapshotBlocksToHeight` of `chain/delete.go`. -/
def DeleteSnapshotBlocksToHeight (k : Collab B I S C) (c : Chain B I S C) (toHeight : Nat) :
    Chain B I S C × DeleteResult :=
  let latestHeight := (GetLatestSnapshotBlock k c).height
  if toHeight > latestHeight ∨ toHeight ≤ 1 then
    let cErr := GoError.invalid Site.heightRange
    (c.logError cErr, ⟨none, some cErr⟩)
  else
    match k.indexGetSnapshotBlockLocation c.indexDB (toHeight - 1) with
    | (_, some err) =>
      let cErr := GoError.wrapped Site.getSnapshotBlockLocation err
      (c.logError cErr, ⟨none, some cErr⟩)
    | (tmpLocation, none) =>
      match k.blockDBGetNextLocation c.blockDB tmpLocation with
      | (_, some err) =>
        let cErr := GoError.wrapped Site.getNextLocation err
        (c.logError cErr, ⟨none, some cErr⟩)
      | (none, none) =>
        let cErr := GoError.invalid Site.locationNil
        (c.logError cErr, ⟨none, some cErr⟩)
      | (some location, none) =>
        -- block db rollback
        match k.blockDBRollback c.blockDB location with
        | (blockDB1, snapshotChunks, err) =>
          let c1 := ({ c with blockDB := blockDB1 }).emit (Effect.blockDBRollback location)
          let c2 := c1.critOnError Site.blockDBRollback err
          match snapshotChunks with
          | [] => (c2, ⟨none, none⟩)
          | firstChunk :: restChunks =>
            match k.stateHasRedo c2.stateDB toHeight with
            | (_, some err) =>
              let cErr := GoError.wrapped Site.hasRedo err
              (c2.logError cErr, ⟨none, some cErr⟩)
            | (hasStorageRedoLog, none) =>
              let newUnconfirmedBlocks : List AccountBlock :=
                if hasStorageRedoLog then firstChunk.accountBlocks else []
              -- append old unconfirmed blocks
              let snapshotChunks1 := (firstChunk :: restChunks) ++
                [{ snapshotBlock := none,
                   accountBlocks := k.cacheGetUnconfirmedBlocks c2.cache }]
              let c3 := c2.emit
                (Effect.emTrigger EventKind.prepareDeleteSbsEvent [] [] [] snapshotChunks1)
              -- rollback index db
              let ri := k.indexRollbackSnapshotBlocks c3.indexDB snapshotChunks1 newUnconfirmedBlocks
              let c4 := ({ c3 with indexDB := ri.1 }).emit
                (Effect.indexRollbackSnapshotBlocks snapshotChunks1 newUnconfirmedBlocks)
              let c5 := c4.critOnError Site.indexRollbackSnapshotBlocks ri.2
              -- rollback cache
              let rc := k.cacheRollbackSnapshotBlocks c5.cache snapshotChunks1 newUnconfirmedBlocks
              let c6 := ({ c5 with cache := rc.1 }).emit
                (Effect.cacheRollbackSnapshotBlocks snapshotChunks1 newUnconfirmedBlocks)
              let c7 := c6.critOnError Site.cacheRollbackSnapshotBlocks rc.2
              -- rollback state db
              let rs := k.stateRollbackSnapshotBlocks c7.stateDB snapshotChunks1 newUnconfirmedBlocks
              let c8 := ({ c7 with stateDB := rs.1 }).emit
                (Effect.stateRollbackSnapshotBlocks snapshotChunks1 newUnconfirmedBlocks)
              let c9 := c8.critOnError Site.stateRollbackSnapshotBlocks rs.2
              let rf := k.flusherFlush true c9.blockDB c9.indexDB c9.stateDB
              let c10 := ({ c9 with blockDB := rf.1, indexDB := rf.2.1, stateDB := rf.2.2 }).emit
                (Effect.flusherFlush true)
              let c11 := c10.emit
                (Effect.emTrigger EventKind.DeleteSbsEvent [] [] [] snapshotChunks1)
              (c11, ⟨some snapshotChunks1, none⟩)

/-- `chain.DeleteSnapshotBlocks` of `chain/delete.go`.  In the `height <= 1`
branch the message is built with `err.Error()` where `err` is the `nil` error
that passed the preceding `err != nil` test: the method call on a nil
interface value panics before the log line and the `return`. -/
def DeleteSnapshotBlocks (k : Collab B I S C) (c : Chain B I S C) (toHash : Hash) :
    Chain B I S C × Outcome DeleteResult :=
  match k.indexGetSnapshotBlockHeight c.indexDB toHash with
  | (_, some err) =>
    let cErr := GoError.wrapped Site.getSnapshotBlockHeight err
    (c.logError cErr, Outcome.returned ⟨none, some cErr⟩)
  | (height, none) =>
    if height ≤ 1 then
      (c, Outcome.panicked PanicReason.nilErrorDereference)
    else
      let r := DeleteSnapshotBlocksToHeight k c height
      (r.1, Outcome.returned r.2)

/-- What the two account block deletion entry points return: `([]*AccountBlock, error)`. -/
structure DeleteAbsResult where
  blocks : Option (List AccountBlock)
  err : Option GoError
deriving DecidableEq, Repr

/-- `chain.deleteAccountBlocks` of `chain/delete.go`. -/
def deleteAccountBlocks (k : Collab B I S C) (c : Chain B I S C) (blocks : List AccountBlock) :
    Chain B I S C :=
  let c1 := c.emit (Effect.emTrigger EventKind.prepareDeleteAbsEvent [] blocks [] [])
  -- rollback index db
  let ri := k.indexRollbackAccountBlocks c1.indexDB blocks
  let c2 := ({ c1 with indexDB := ri.1 }).emit (Effect.indexRollbackAccountBlocks blocks)
  let c3 := c2.critOnError Site.indexRollbackAccountBlocks ri.2
  -- rollback cache
  let rc := k.cacheRollbackAccountBlocks c3.cache blocks
  let c4 := ({ c3 with cache := rc.1 }).emit (Effect.cacheRollbackAccountBlocks blocks)
  let c5 := c4.critOnError Site.cacheRollbackAccountBlocks rc.2
  -- rollback state db
  let rs := k.stateRollbackAccountBlocks c5.stateDB blocks
  let c6 := ({ c5 with stateDB := rs.1 }).emit (Effect.stateRollbackAccountBlocks blocks)
  let c7 := c6.critOnError Site.stateRollbackAccountBlocks rs.2
  c7.emit (Effect.emTrigger EventKind.DeleteAbsEvent [] blocks [] [])

/-- The scan of `deleteAccountBlockByHeightOrHash`: `unconfirmedBlocks[i:]` for
the first index `i` whose block has the target hash (when a hash is given) or
the target height (when `toHeight > 0`), and the nil slice when there is none. -/
def planDeleteBlocks (toHeight : Nat) (toHash : Option Hash) :
    List AccountBlock → List AccountBlock
  | [] => []
  | unconfirmedBlock :: rest =>
    if toHash = some unconfirmedBlock.hash ∨
        (toHeight > 0 ∧ unconfirmedBlock.height = toHeight) then
      unconfirmedBlock :: rest
    else
      planDeleteBlocks toHeight toHash rest

/-- `chain.deleteAccountBlockByHeightOrHash` of `chain/delete.go`. -/
def deleteAccountBlockByHeightOrHash (k : Collab B I S C) (c : Chain B I S C)
    (_addr : Address) (toHeight : Nat) (toHash : Option Hash) :
    Chain B I S C × DeleteAbsResult :=
  let unconfirmedBlocks := k.cacheGetUnconfirmedBlocks c.cache
  if unconfirmedBlocks.length ≤ 0 then
    let cErr := GoError.invalid Site.notUnconfirmed
    (c.logError cErr, ⟨none, some cErr⟩)
  else
    let plan := planDeleteBlocks toHeight toHash unconfirmedBlocks
    if plan.length ≤ 0 then
      let cErr := GoError.invalid Site.planDeleteEmpty
      (c.logError cErr, ⟨none, some cErr⟩)
    else
      let needDeleteBlocks :=
        k.computeDependencies c.blockDB c.indexDB c.stateDB c.cache plan
      (deleteAccountBlocks k c needDeleteBlocks, ⟨some needDeleteBlocks, none⟩)

/-- `chain.DeleteAccountBlocks` of `chain/delete.go`. -/
def DeleteAccountBlocks (k : Collab B I S C) (c : Chain B I S C) (addr : Address)
    (toHash : Hash) : Chain B I S C × DeleteAbsResult :=
  deleteAccountBlockByHeightOrHash k c addr 0 (some toHash)

/-- `chain.DeleteAccountBlocksToHeight` of `chain/delete.go`. -/
def DeleteAccountBlocksToHeight (k : Collab B I S C) (c : Chain B I S C) (addr : Address)
    (toHeight : Nat) : Chain B I S C × DeleteAbsResult :=
  deleteAccountBlockByHeightOrHash k c addr toHeight none

/-- `chain.InsertAccountBlock` of `pmchain/insert.go`; the result is the returned `error`. -/
def InsertAccountBlock (k : Collab B I S C) (c : Chain B I S C)
    (vmAccountBlock : VmAccountBlock) : Chain B I S C × Option GoError :=
  let vmAbList := [vmAccountBlock]
  let c1 := c.emit (Effect.pmTrigger EventKind.prepareInsertAbsEvent vmAbList [] [])
  let accountBlock := vmAccountBlock.accountBlock
  -- write unconfirmed pool
  let c2 := ({ c1 with cache := k.cacheInsertAccountBlock c1.cache accountBlock }).emit
    (Effect.cacheInsertAccountBlock accountBlock)
  -- write index database
  let ri := k.indexInsertAccountBlock c2.indexDB vmAccountBlock
  let c3 := ({ c2 with indexDB := ri.1 }).emit (Effect.indexInsertAccountBlock vmAccountBlock)
  match ri.2 with
  | some err =>
    let cErr := GoError.wrapped Site.indexInsertAccountBlock err
    (c3.logError cErr, some cErr)
  | none =>
    -- write state db
    let rs := k.stateWrite c3.stateDB vmAccountBlock
    let c4 := ({ c3 with stateDB := rs.1 }).emit (Effect.stateWrite vmAccountBlock)
    match rs.2 with
    | some err =>
      let cErr := GoError.wrapped Site.stateWrite err
      (c4.logError cErr, some cErr)
    | none =>
      (c4.emit (Effect.pmTrigger EventKind.insertAbsEvent vmAbList [] []), none)

/-- What `InsertSnapshotBlock` returns: `(map[Address][]*AccountBlock, error)`. -/
structure InsertSbResult where
  invalidSubLedger : Option SubLedger
  err : Option GoError
deriving DecidableEq, Repr

/-- `chain.InsertSnapshotBlock` of `pmchain/insert.go`. -/
def InsertSnapshotBlock (k : Collab B I S C) (c : Chain B I S C)
    (snapshotBlock : SnapshotBlock) : Chain B I S C × InsertSbResult :=
  let sbList := [snapshotBlock]
  let c1 := c.emit (Effect.pmTrigger EventKind.prepareInsertSbsEvent [] [] sbList)
  let unconfirmedBlocks := k.cacheGetUnconfirmedBlocks c1.cache
  match k.filterCanBeSnapped c1.blockDB c1.indexDB c1.stateDB c1.cache unconfirmedBlocks with
  | (canBeSnappedBlocks, invalidSubLedger, needDeletedAccountBlocks) =>
    let canBeSnappedSubLedger := k.blocksToMap canBeSnappedBlocks
    -- write block db
    let segment : SnapshotSegment :=
      { snapshotBlock := snapshotBlock, accountBlocks := canBeSnappedBlocks }
    match k.blockDBWrite c1.blockDB segment with
    | (blockDB1, _, snapshotBlockLocation, err) =>
      let c2 := ({ c1 with blockDB := blockDB1 }).emit (Effect.blockDBWrite segment)
      match err with
      | some e =>
        let cErr := GoError.wrapped Site.blockDBWrite e
        (c2.logError cErr, ⟨none, some cErr⟩)
      | none =>
        -- insert index
        let ri := k.indexInsertSnapshotBlock c2.indexDB snapshotBlock canBeSnappedSubLedger
          snapshotBlockLocation
        let c3 := ({ c2 with indexDB := ri.1 }).emit
          (Effect.indexInsertSnapshotBlock snapshotBlock canBeSnappedSubLedger
            snapshotBlockLocation)
        match ri.2 with
        | some e =>
          let cErr := GoError.wrapped Site.indexInsertSnapshotBlock e
          (c3.logError cErr, ⟨none, some cErr⟩)
        | none =>
          -- flush state db
          let rs := k.stateFlush c3.stateDB snapshotBlock.hash canBeSnappedBlocks
          let c4 := ({ c3 with stateDB := rs.1 }).emit
            (Effect.stateFlush snapshotBlock.hash canBeSnappedBlocks)
          match rs.2 with
          | some e =>
            let cErr := GoError.wrapped Site.stateFlush e
            (c4.logError cErr, ⟨none, some cErr⟩)
          | none =>
            -- remove state db
            let c5 := ({ c4 with
                stateDB := k.stateDeleteInvalidAccountBlocks c4.stateDB invalidSubLedger }).emit
              (Effect.stateDeleteInvalidAccountBlocks invalidSubLedger)
            -- remove invalid subLedger index
            let c6 := ({ c5 with
                indexDB := k.indexDeleteInvalidAccountBlocks c5.indexDB invalidSubLedger }).emit
              (Effect.indexDeleteInvalidAccountBlocks invalidSubLedger)
            -- remove invalid subLedger cache
            let removed := canBeSnappedBlocks ++ needDeletedAccountBlocks
            let c7 := ({ c6 with
                cache := k.cacheDeleteUnconfirmedAccountBlocks c6.cache removed }).emit
              (Effect.cacheDeleteUnconfirmedAccountBlocks removed)
            -- update latest snapshot block cache
            let c8 := ({ c7 with cache := k.cacheInsertSnapshotBlock c7.cache snapshotBlock }).emit
              (Effect.cacheInsertSnapshotBlock snapshotBlock)
            let c9 := c8.emit (Effect.pmTrigger EventKind.InsertSbsEvent [] [] sbList)
            (c9, ⟨some invalidSubLedger, none⟩)

/-! ## The ledger reader (`chain/sync_ledger.go`) -/

/-- The `error` values of the ledger reader: its own validation errors, an
error handed through from a store, and `io.EOF`. -/
inductive ReaderError where
  | startHeightZero
  | startHeightAfterEnd
  | endHeightTooBig
  | snapshotNotExisted (height : Nat)
  | store (err : GoError)
  | EOF
deriving DecidableEq, Repr

/-- The struct `ledgerReader` without its `chain` pointer (the chain is passed
to the operations); `from` and `to` are `fromHeight` and `toHeight`.  The
constructor sets the three locations from non-nil pointers; the cursor is
later overwritten by what `ReadRaw` returns, which may be nil. -/
structure ledgerReader where
  fromHeight : Nat
  toHeight : Nat
  fromLocation : Location
  toLocation : Location
  currentLocation : Option Location
deriving DecidableEq, Repr

/-- The parts of the block log the reader uses; none of them is under `src/`:
`blockDB.FileSize()`, `blockDB.ReadRaw(location, buf)` (the buffer enters by its
length) and the method `Location.Distance(fileSize, toLocation)`. -/
structure ReaderStore (B : Type) where
  FileSize : B → Int
  ReadRaw : B → Location → Nat → Option Location × Int × Option GoError
  Distance : Int → Location → Location → Int

/-- The function `newLedgerReader` of `chain/sync_ledger.go`. -/
def newLedgerReader (k : Collab B I S C) (c : Chain B I S C) (fromHeight toHeight : Nat) :
    Option ledgerReader × Option ReaderError :=
  match k.indexGetSnapshotBlockLocation c.indexDB fromHeight with
  | (_, some err) => (none, some (ReaderError.store err))
  | (none, none) => (none, some (ReaderError.snapshotNotExisted fromHeight))
  | (some fromLocation, none) =>
    match k.indexGetSnapshotBlockLocation c.indexDB toHeight with
    | (_, some err) => (none, some (ReaderError.store err))
    | (none, none) => (none, some (ReaderError.snapshotNotExisted toHeight))
    | (some toLocation, none) =>
      (some
        { fromHeight := fromHeight, toHeight := toHeight, fromLocation := fromLocation,
          currentLocation := some fromLocation, toLocation := toLocation },
        none)

/-- `chain.GetLedgerReaderByHeight` of `chain/sync_ledger.go`. -/
def GetLedgerReaderByHeight (k : Collab B I S C) (c : Chain B I S C)
    (startHeight endHeight : Nat) : Option ledgerReader × Option ReaderError :=
  if startHeight ≤ 0 then (none, some ReaderError.startHeightZero)
  else if startHeight > endHeight then (none, some ReaderError.startHeightAfterEnd)
  else
    let latestSnapshotBlock := GetLatestSnapshotBlock k c
    if endHeight > latestSnapshotBlock.height then (none, some ReaderError.endHeightTooBig)
    else newLedgerReader k c startHeight endHeight

/-- `ledgerReader.Bound` of `chain/sync_ledger.go`. -/
def ledgerReader.Bound (reader : ledgerReader) : Nat × Nat :=
  (reader.fromHeight, reader.toHeight)

/-- `ledgerReader.Size` of `chain/sync_ledger.go`. -/
def ledgerReader.Size (s : ReaderStore B) (b : B) (reader : ledgerReader) : Int :=
  s.Distance (s.FileSize b) reader.fromLocation reader.toLocation

/-- What a `Read` call that returns leaves behind: the reader after the call,
the returned `(n, err)` and the one `ReadRaw` call it made on the block log
(start location and buffer length). -/
structure ReadResult where
  reader : ledgerReader
  n : Int
  err : Option ReaderError
  rawRead : Location × Nat
deriving DecidableEq, Repr

/-- `ledgerReader.Read` of `chain/sync_ledger.go`; the buffer `p` enters by its
length.  `Distance` is called on the cursor, which panics when the cursor is
nil, and `p[:readN]` panics when `readN` is negative. -/
def ledgerReader.Read (s : ReaderStore B) (b : B) (reader : ledgerReader) (lenP : Nat) :
    Outcome ReadResult :=
  match reader.currentLocation with
  | none => Outcome.panicked PanicReason.nilPointerDereference
  | some cursor =>
    let readN0 := s.Distance (s.FileSize b) cursor reader.toLocation
    let isEnd : Bool := decide (readN0 ≤ (lenP : Int))
    let readN : Int := if readN0 ≤ (lenP : Int) then readN0 else (lenP : Int)
    if readN < 0 then Outcome.panicked PanicReason.sliceBoundsOutOfRange
    else
      match s.ReadRaw b cursor readN.toNat with
      | (currentLocation, n, err) =>
        let reader1 : ledgerReader := { reader with currentLocation := currentLocation }
        match err with
        | some e =>
          Outcome.returned
            { reader := reader1, n := n, err := some (ReaderError.store e),
              rawRead := (cursor, readN.toNat) }
        | none =>
          Outcome.returned
            { reader := reader1, n := n,
              err := if isEnd then some ReaderError.EOF else none,
              rawRead := (cursor, readN.toNat) }

/-- `ledgerReader.Close` of `chain/sync_ledger.go`: the reader after the call and
the returned `error`.  The method calls nothing. -/
def ledgerReader.Close (reader : ledgerReader) : ledgerReader × Option ReaderError :=
  ({ reader with currentLocation := some reader.toLocation }, none)

/-- Consecutive `Read` calls with buffers of the given lengths, as a caller of
an `io.Reader` makes them: the calls stop after the first one that returns a
non-nil error (or panics); the results of the calls that returned, in order. -/
def readCalls (s : ReaderStore B) (b : B) : ledgerReader → List Nat → List ReadResult
  | _, [] => []
  | reader, lenP :: rest =>
    match reader.Read s b lenP with
    | Outcome.panicked _ => []
    | Outcome.returned res =>
      match res.err with
      | none => res :: readCalls s b res.reader rest
      | some _ => [res]

/-! ## On-road loading (`chain/onroad.go`) -/

/-- A contract group id (`types.Gid`), kept as an identifier. -/
abbrev Gid := Nat

/-- The on-road data `map[Address]map[Address][]ledger.HashHeight`, as
association lists of `(hash, height)` pairs. -/
abbrev OnRoadData := List (Address × List (Address × List (Hash × Nat)))

/-- The collaborators of `LoadOnRoad`, none under `src/`: the chain's own
`GetContractList`, which may read the four stores, and the index store's `Load`. -/
structure OnRoadCollab (B I S C : Type) where
  GetContractList : B → I → S → C → Gid → List Address × Option GoError
  indexLoad : I → List Address → Option OnRoadData × Option GoError

/-- `chain.LoadOnRoad` of `chain/onroad.go`. -/
def LoadOnRoad (o : OnRoadCollab B I S C) (c : Chain B I S C) (gid : Gid) :
    Chain B I S C × Option OnRoadData × Option GoError :=
  match o.GetContractList c.blockDB c.indexDB c.stateDB c.cache gid with
  | (_, some err) => (c, none, some err)
  | (addrList, none) =>
    match o.indexLoad c.indexDB addrList with
    | (onRoadData, some err) =>
      (c.logError (GoError.wrapped Site.indexLoad err), onRoadData, none)
    | (onRoadData, none) => (c, onRoadData, none)

/-! ## Contract addresses of a group (`onroad/model/access.go`) -/

/-- The loop body `addrList = append(addrList[0:k-1], addrList[k+1:]...)` for the
index `k` of the match: `addrList[0:k-1]` panics for `k = 0`. -/
def spliceAt (addrList : List Address) (k : Nat) : Outcome (List Address) :=
  if k = 0 then Outcome.panicked PanicReason.sliceBoundsOutOfRange
  else Outcome.returned (addrList.take (k - 1) ++ addrList.drop (k + 1))

/-- The `for k, v := range addrList` loop of `DeleteContractAddrFromGid`: the
list after the loop, spliced at the first index whose element is `address`
and unchanged when there is none. -/
def removeLoop (addrList : List Address) (address : Address) : Outcome (List Address) :=
  match addrList.indexOf? address with
  | some k => spliceAt addrList k
  | none => Outcome.returned addrList

/-- What `DeleteContractAddrFromGid` returns, with the list it handed to
`WriteGidAddrList` (`none` when it wrote nothing). -/
structure DeleteGidResult where
  written : Option (List Address)
  err : Option GoError
deriving DecidableEq, Repr

/-- `UAccess.DeleteContractAddrFromGid` of `onroad/model/access.go`.  `stored` is
what `GetContractAddrListByGid` returns (`none` is the nil slice) and
`WriteGidAddrList` is the store's write, returning its `error`. -/
def DeleteContractAddrFromGid (stored : Option (List Address) × Option GoError)
    (WriteGidAddrList : List Address → Option GoError) (address : Address) :
    Outcome DeleteGidResult :=
  match stored with
  | (none, err) => Outcome.returned ⟨none, err⟩
  | (some _, some err) => Outcome.returned ⟨none, some err⟩
  | (some addrList, none) =>
    match removeLoop addrList address with
    | Outcome.panicked r => Outcome.panicked r
    | Outcome.returned addrList1 =>
      Outcome.returned ⟨some addrList1, WriteGidAddrList addrList1⟩

/-- The removal in the words of the spec (section 9, "a standard
remove-by-index"): the stored list without the first element equal to the
address, all other elements kept in their order. -/
def specRemoveAddr (addrList : List Address) (address : Address) : List Address :=
  addrList.erase address

/-! ## Quota ratio of a send block (`vm/util/db_helper.go`) -/

/-- The parts of `ledger.ContractMeta` the quota helpers look at: the field
`QuotaRatio` and the answer of the method `IsDeleted()`. -/
structure ContractMeta where
  QuotaRatio : Nat
  IsDeleted : Bool
deriving DecidableEq, Repr

/-- The error values `ErrContractNotExists` and `ErrNoReliableStatus`. -/
inductive QuotaError where
  | ErrContractNotExists
  | ErrNoReliableStatus
deriving DecidableEq, Repr

/-- The calls on the `dbInterface`, with their arguments. -/
inductive DbCall where
  | GetConfirmSnapshotHeader (blockHash : Hash)
  | LatestSnapshotBlock
  | GetContractMetaInSnapshot (contractAddress : Address) (snapshotBlock : Option SnapshotBlock)
deriving DecidableEq, Repr

/-- The three methods of `dbInterface` that the quota helpers call. -/
structure QuotaDb where
  GetContractMetaInSnapshot :
    Address → Option SnapshotBlock → Option ContractMeta × Option GoError
  GetConfirmSnapshotHeader : Hash → Option SnapshotBlock × Option GoError
  LatestSnapshotBlock : Option SnapshotBlock × Option GoError

/-- What the quota helpers use and `src/` does not hold: `types.IsContractAddr`,
the constant `CommonQuotaRatio`, and whether `DealWithErr(err)` returns to its
caller when handed a non-nil error (when it does not, the call ends there). -/
structure QuotaEnv where
  IsContractAddr : Address → Bool
  CommonQuotaRatio : Nat
  DealWithErrReturns : GoError → Bool

/-- The call `DealWithErr(err)`: whether execution continues after it.  A nil
error leaves nothing to deal with. -/
def DealWithErr (env : QuotaEnv) (err : Option GoError) : Bool :=
  match err with
  | none => true
  | some e => env.DealWithErrReturns e

/-- A run of a quota helper: the db calls it made, in order, and its result
`(uint8, error)`. -/
structure QuotaRun where
  calls : List DbCall
  out : Outcome (Nat × Option QuotaError)
deriving DecidableEq, Repr

/-- `GetQuotaRatioBySnapshotBlock` of `vm/util/db_helper.go`. -/
def GetQuotaRatioBySnapshotBlock (env : QuotaEnv) (db : QuotaDb) (toAddr : Address)
    (snapshotBlock : Option SnapshotBlock) : QuotaRun :=
  match db.GetContractMetaInSnapshot toAddr snapshotBlock with
  | (meta, err) =>
    { calls := [DbCall.GetContractMetaInSnapshot toAddr snapshotBlock],
      out :=
        if DealWithErr env err then
          match meta with
          | none => Outcome.returned (0, some QuotaError.ErrContractNotExists)
          | some m =>
            if m.IsDeleted then Outcome.returned (0, some QuotaError.ErrContractNotExists)
            else Outcome.returned (m.QuotaRatio, none)
        else Outcome.panicked PanicReason.dealWithErr }

/-- `GetQuotaRatioForRS` of `vm/util/db_helper.go`.  The `status` argument is
`none` for a nil `GlobalStatus`, `some none` for a status whose
`SnapshotBlock()` is nil and `some (some sb)` otherwise. -/
def GetQuotaRatioForRS (env : QuotaEnv) (db : QuotaDb) (toAddr : Address) (fromHash : Hash)
    (status : Option (Option SnapshotBlock)) : QuotaRun :=
  if ¬ env.IsContractAddr toAddr then
    { calls := [], out := Outcome.returned (env.CommonQuotaRatio, none) }
  else
    match status with
    | some (some sb) => GetQuotaRatioBySnapshotBlock env db toAddr (some sb)
    | _ =>
      match db.GetConfirmSnapshotHeader fromHash with
      | (confirmSb, err) =>
        if ¬ DealWithErr env err then
          { calls := [DbCall.GetConfirmSnapshotHeader fromHash],
            out := Outcome.panicked PanicReason.dealWithErr }
        else
          match confirmSb with
          | some csb =>
            let run := GetQuotaRatioBySnapshotBlock env db toAddr (some csb)
            { calls := DbCall.GetConfirmSnapshotHeader fromHash :: run.calls, out := run.out }
          | none =>
            match db.LatestSnapshotBlock with
            | (sb, err1) =>
              if ¬ DealWithErr env err1 then
                { calls := [DbCall.GetConfirmSnapshotHeader fromHash, DbCall.LatestSnapshotBlock],
                  out := Outcome.panicked PanicReason.dealWithErr }
              else
                match db.GetContractMetaInSnapshot toAddr sb with
                | (meta, err2) =>
                  { calls :=
                      [DbCall.GetConfirmSnapshotHeader fromHash, DbCall.LatestSnapshotBlock,
                        DbCall.GetContractMetaInSnapshot toAddr sb],
                    out :=
                      if ¬ DealWithErr env err2 then Outcome.panicked PanicReason.dealWithErr
                      else
                        match meta with
                        | some m =>
                          if m.IsDeleted then
                            Outcome.returned (0, some QuotaError.ErrContractNotExists)
                          else Outcome.returned (m.QuotaRatio, none)
                        | none => Outcome.returned (0, some QuotaError.ErrNoReliableStatus) }

/-! ## Order ids and prices (`vm/contracts/dex/utils.go`)

Bytes are natural numbers below 256, byte slices and Go strings are lists of
bytes (the nil slice and the empty string are `[]`). -/

/-- The constant `PriceBytesLength`. -/
def PriceBytesLength : Nat := 10

/-- Modelled from the spec: the constant `OrderIdBytesLength` is not under
`src/`; the layout comment of `ComposeOrderId` ends with `= 22`. -/
def OrderIdBytesLength : Nat := 22

/-- The error value `DeComposeOrderIdFailErr`. -/
inductive DexError where
  | DeComposeOrderIdFailErr
deriving DecidableEq, Repr

/-- The helpers of `vm/contracts/common` that `DeComposeOrderId` calls; they are
not under `src/`.  `BitwiseNotBytes` works in place: the field is the content
of the slice after the call. -/
structure DexCommon where
  BytesToUint32 : List Nat → Nat
  BytesToUint64 : List Nat → Nat
  BitwiseNotBytes : List Nat → List Nat

/-- The big-endian value of a byte list. -/
def beValue (bs : List Nat) : Nat :=
  bs.foldl (fun acc x => acc * 256 + x) 0

/-- The Go builtin `copy(dst, src)`: the content of `dst` after the call. -/
def copyInto (dst src : List Nat) : List Nat :=
  src.take dst.length ++ dst.drop src.length

/-- The Go conversion `int32(v)` of a `uint32`. -/
def asInt32 (v : Nat) : Int :=
  if v % 2 ^ 32 < 2 ^ 31 then ((v % 2 ^ 32 : Nat) : Int) else ((v % 2 ^ 32 : Nat) : Int) - 2 ^ 32

/-- The Go conversion `int64(v)` of a `uint64`. -/
def asInt64 (v : Nat) : Int :=
  if v % 2 ^ 64 < 2 ^ 63 then ((v % 2 ^ 64 : Nat) : Int) else ((v % 2 ^ 64 : Nat) : Int) - 2 ^ 64

/-- The five results of `DeComposeOrderId`, with the content of the argument
slice after the call. -/
structure DeComposed where
  marketId : Int
  side : Bool
  price : List Nat
  timestamp : Int
  err : Option DexError
  idBytesAfter : List Nat
deriving DecidableEq, Repr

/-- `DeComposeOrderId` of `vm/contracts/dex/utils.go`. -/
def DeComposeOrderId (cm : DexCommon) (idBytes : List Nat) : DeComposed :=
  if idBytes.length ≠ OrderIdBytesLength then
    { marketId := 0, side := false, price := [], timestamp := 0,
      err := some DexError.DeComposeOrderIdFailErr, idBytesAfter := idBytes }
  else
    let marketIdBytes := [0] ++ copyInto [0, 0, 0] (idBytes.take 3)
    let marketId := asInt32 (cm.BytesToUint32 marketIdBytes)
    let side : Bool := decide (idBytes.getD 3 0 = 1)
    let price := copyInto (List.replicate 10 0) ((idBytes.drop 4).take 10)
    let price1 := if ¬ side then cm.BitwiseNotBytes price else price
    let timestampBytes := [0, 0, 0] ++ copyInto (List.replicate 5 0) ((idBytes.drop 14).take 5)
    let timestamp := asInt64 (cm.BytesToUint64 timestampBytes)
    { marketId := marketId, side := side, price := price1, timestamp := timestamp,
      err := none, idBytesAfter := idBytes }

/-- The function `strings.Split(s, ".")` of the Go library: the pieces of `s`
between the bytes `.` (46). -/
def splitDot : List Nat → List (List Nat)
  | [] => [[]]
  | c :: cs =>
    if c = 46 then [] :: splitDot cs
    else
      match splitDot cs with
      | [] => [[c]]
      | p :: ps => (c :: p) :: ps

/-- The two errors of `strconv.ParseUint`. -/
inductive NumError where
  | ErrSyntax
  | ErrRange
deriving DecidableEq, Repr

/-- The digit loop of `strconv.ParseUint(s, 10, 64)`, with the value `n` read
so far: a byte that is no decimal digit ends it with `(0, ErrSyntax)`, and a
value above `2^64 - 1` ends it with `(2^64 - 1, ErrRange)`. -/
def parseLoop : List Nat → Nat → Nat × Option NumError
  | [], n => (n, none)
  | c :: cs, n =>
    if c < 48 ∨ 57 < c then (0, some NumError.ErrSyntax)
    else if n ≥ (2 ^ 64 - 1) / 10 + 1 then (2 ^ 64 - 1, some NumError.ErrRange)
    else if n * 10 + (c - 48) > 2 ^ 64 - 1 then (2 ^ 64 - 1, some NumError.ErrRange)
    else parseLoop cs (n * 10 + (c - 48))

/-- The function `strconv.ParseUint(s, 10, 64)` of the Go library. -/
def ParseUint (s : List Nat) : Nat × Option NumError :=
  if s = [] then (0, some NumError.ErrSyntax) else parseLoop s 0

/-- The decimal digits of `v`, most significant first, in front of `acc`; `fuel`
bounds the number of digits. -/
def digitsFuel : Nat → Nat → List Nat → List Nat
  | 0, _, acc => acc
  | fuel + 1, v, acc =>
    if v < 10 then (v + 48) :: acc else digitsFuel fuel (v / 10) ((v % 10 + 48) :: acc)

/-- The function `strconv.FormatUint(v, 10)` of the Go library, for a `uint64`
(which has at most 20 decimal digits). -/
def FormatUint (v : Nat) : List Nat :=
  digitsFuel 20 v []

/-- The call `binary.BigEndian.PutUint64(bs, v)` on an 8-byte slice: its content
after the call. -/
def PutUint64 (v : Nat) : List Nat :=
  [v / 2 ^ 56 % 256, v / 2 ^ 48 % 256, v / 2 ^ 40 % 256, v / 2 ^ 32 % 256, v / 2 ^ 24 % 256,
    v / 2 ^ 16 % 256, v / 2 ^ 8 % 256, v % 256]

/-- The call `binary.BigEndian.Uint64(bs)` on an 8-byte slice. -/
def Uint64 (bs : List Nat) : Nat :=
  beValue (bs.take 8)

/-- `PriceToBytes` of `vm/contracts/dex/utils.go`; the constant
`priceDecimalMaxLen`, which is not under `src/`, is a parameter. -/
def PriceToBytes (priceDecimalMaxLen : Nat) (price : List Nat) : List Nat :=
  let parts := splitDot price
  let intPart := parts.headD []
  let decimalPart := if parts.length = 2 then parts.getD 1 [] else []
  let priceBytes := List.replicate PriceBytesLength 0
  let priceBytes1 :=
    if intPart.length > 0 then
      let intValue := (ParseUint intPart).1
      let bs := PutUint64 intValue
      copyInto (priceBytes.take 5) ((bs.drop 3).take 5) ++ priceBytes.drop 5
    else priceBytes
  let decimalLen := decimalPart.length
  if decimalLen > 0 then
    let decimalPart1 :=
      if decimalLen < priceDecimalMaxLen then
        -- right pad 0
        copyInto (List.replicate priceDecimalMaxLen 0) decimalPart |>.take decimalLen |>.append
          (List.replicate (priceDecimalMaxLen - decimalLen) 48)
      else decimalPart
    let decimalValue := (ParseUint decimalPart1).1
    let bs := PutUint64 decimalValue
    priceBytes1.take 5 ++ copyInto (priceBytes1.drop 5) ((bs.drop 3).take 5)
  else priceBytes1

/-- The loop of `BytesToPrice` that counts the bytes `0` (48) at the end of the
padded decimal part. -/
def rightTruncate (decimalPartArr : List Nat) : Nat :=
  (decimalPartArr.reverse.takeWhile fun c => decide (c = 48)).length

/-- `BytesToPrice` of `vm/contracts/dex/utils.go`; the constant
`priceDecimalMaxLen` is a parameter.  The slices `priceBytes[:5]` and
`priceBytes[5:]` panic on fewer than 5 bytes, and
`decimalPartArr[priceDecimalMaxLen-decimalLen:]` panics when the decimal value
has more than `priceDecimalMaxLen` digits. -/
def BytesToPrice (priceDecimalMaxLen : Nat) (priceBytes : List Nat) : Outcome (List Nat) :=
  if priceBytes.length < 5 then Outcome.panicked PanicReason.sliceBoundsOutOfRange
  else
    let intBytes := [0, 0, 0] ++ copyInto (List.replicate 5 0) (priceBytes.take 5)
    let intValue := Uint64 intBytes
    let decimalBytes := [0, 0, 0] ++ copyInto (List.replicate 5 0) (priceBytes.drop 5)
    let decimalValue := Uint64 decimalBytes
    let intStr := if intValue = 0 then [48] else FormatUint intValue
    if decimalValue = 0 then Outcome.returned intStr
    else
      let decimalStr := FormatUint decimalValue
      let decimalLen := decimalStr.length
      if decimalLen > priceDecimalMaxLen then
        Outcome.panicked PanicReason.sliceBoundsOutOfRange
      else
        -- left pad 0
        let decimalPartArr := List.replicate (priceDecimalMaxLen - decimalLen) 48 ++ decimalStr
        Outcome.returned
          (intStr ++ [46] ++
            decimalPartArr.take (priceDecimalMaxLen - rightTruncate decimalPartArr))

/-! ## Properties used to state the claims -/

/-- The call `DeleteSnapshotBlocksToHeight(toHeight)` passes its validation and
its two location lookups, so that it truncates the block log at `location`. -/
def TruncatesAt (k : Collab B I S C) (c : Chain B I S C) (toHeight : Nat)
    (location : Location) : Prop :=
  1 < toHeight ∧ toHeight ≤ (GetLatestSnapshotBlock k c).height ∧
    ∃ tmpLocation, k.indexGetSnapshotBlockLocation c.indexDB (toHeight - 1) = (tmpLocation, none) ∧
      k.blockDBGetNextLocation c.blockDB tmpLocation = (some location, none)

/-- The four stores of `c2` are those of `c1` and no effect was added to the trace. -/
def Untouched (c1 c2 : Chain B I S C) : Prop :=
  c2.blockDB = c1.blockDB ∧ c2.indexDB = c1.indexDB ∧ c2.stateDB = c1.stateDB ∧
    c2.cache = c1.cache ∧ c2.trace = c1.trace

/-- A snapshot deletion was refused: its result `r` is `(nil, error)`, the four
stores are those of the state `c` it was called in and no effect was added. -/
def RejectedCleanly (c : Chain B I S C) (r : Chain B I S C × DeleteResult) : Prop :=
  r.2.chunks = none ∧ r.2.err.isSome = true ∧ Untouched c r.1

/-- The stores a snapshot rollback is performed on. -/
inductive RolledBackStore where
  | index
  | cache
  | state
deriving DecidableEq, Repr

/-- The newly-unconfirmed sets handed to the snapshot rollbacks of a trace, in
order, each with the store it was handed to. -/
def newUnconfirmedPassed : List Effect → List (RolledBackStore × List AccountBlock)
  | [] => []
  | Effect.indexRollbackSnapshotBlocks _ nu :: rest =>
    (RolledBackStore.index, nu) :: newUnconfirmedPassed rest
  | Effect.cacheRollbackSnapshotBlocks _ nu :: rest =>
    (RolledBackStore.cache, nu) :: newUnconfirmedPassed rest
  | Effect.stateRollbackSnapshotBlocks _ nu :: rest =>
    (RolledBackStore.state, nu) :: newUnconfirmedPassed rest
  | _ :: rest => newUnconfirmedPassed rest

/-- The newly-unconfirmed sets passed to the cache's `RollbackSnapshotBlocks` in a trace. -/
def cacheRollbackNewUnconfirmed : List Effect → List (List AccountBlock)
  | [] => []
  | Effect.cacheRollbackSnapshotBlocks _ nu :: rest => nu :: cacheRollbackNewUnconfirmed rest
  | _ :: rest => cacheRollbackNewUnconfirmed rest

/-- The `DeleteSnapshotBlocks` completion event occurs in a trace. -/
def firesDeleteSbsEvent (tr : List Effect) : Bool :=
  tr.any fun e =>
    match e with
    | Effect.emTrigger EventKind.DeleteSbsEvent _ _ _ _ => true
    | _ => false

/-- The `insertAccountBlocks` completion event occurs in a trace. -/
def firesInsertAbsEvent (tr : List Effect) : Bool :=
  tr.any fun e =>
    match e with
    | Effect.pmTrigger EventKind.insertAbsEvent _ _ _ => true
    | _ => false

/-- A state store write was attempted in a trace. -/
def attemptsStateWrite (tr : List Effect) : Bool :=
  tr.any fun e =>
    match e with
    | Effect.stateWrite _ => true
    | _ => false

/-- The number a list of decimal digit bytes stands for, most significant
digit first. -/
def digitsValue (l : List Nat) : Nat :=
  l.foldl (fun a c => a * 10 + (c - 48)) 0

/-- The blocks of a sub-ledger, address by address. -/
def blocksOfSubLedger (sl : SubLedger) : List AccountBlock :=
  sl.flatMap fun e => e.2

/-- The three results of the filter pass that `InsertSnapshotBlock` runs in
state `c`: the can-be-snapped blocks, the invalid sub-ledger and the list
`needDeletedAccountBlocks`. -/
def filterPass (k : Collab B I S C) (c : Chain B I S C) :
    List AccountBlock × SubLedger × List AccountBlock :=
  k.filterCanBeSnapped c.blockDB c.indexDB c.stateDB c.cache (k.cacheGetUnconfirmedBlocks c.cache)

/-- The segment `InsertSnapshotBlock` appends to the block log in state `c`. -/
def insertedSegment (k : Collab B I S C) (c : Chain B I S C) (snapshotBlock : SnapshotBlock) :
    SnapshotSegment :=
  { snapshotBlock := snapshotBlock, accountBlocks := (filterPass k c).1 }

/-- The sub-ledgers passed to the state store's `DeleteInvalidAccountBlocks` in a trace. -/
def statePurged : List Effect → List SubLedger
  | [] => []
  | Effect.stateDeleteInvalidAccountBlocks sl :: rest => sl :: statePurged rest
  | _ :: rest => statePurged rest

/-- The sub-ledgers passed to the index store's `DeleteInvalidAccountBlocks` in a trace. -/
def indexPurged : List Effect → List SubLedger
  | [] => []
  | Effect.indexDeleteInvalidAccountBlocks sl :: rest => sl :: indexPurged rest
  | _ :: rest => indexPurged rest

/-- The payloads (vm blocks, account blocks, snapshot blocks) of the
`InsertSbsEvent` completion events of a trace. -/
def insertSbsEventPayloads :
    List Effect → List (List VmAccountBlock × List AccountBlock × List SnapshotBlock)
  | [] => []
  | Effect.pmTrigger EventKind.InsertSbsEvent vmAbList abList sbList :: rest =>
    (vmAbList, abList, sbList) :: insertSbsEventPayloads rest
  | _ :: rest => insertSbsEventPayloads rest

/-- The `InsertSbsEvent` completion event occurs in a trace. -/
def firesInsertSbsEvent (tr : List Effect) : Bool :=
  tr.any fun e =>
    match e with
    | Effect.pmTrigger EventKind.InsertSbsEvent _ _ _ => true
    | _ => false

/-- An account block deletion was refused: its result `r` is `(nil, error)`, the
four stores are those of the state `c` it was called in and no effect was added. -/
def RejectedAbsCleanly (c : Chain B I S C) (r : Chain B I S C × DeleteAbsResult) : Prop :=
  r.2.blocks = none ∧ r.2.err.isSome = true ∧ Untouched c r.1

/-- The candidate set in the words of the spec (section 4.2, step 2): scan the
unconfirmed sequence of the address `addr`, oldest first, for the first block
matching the target; the candidate set is that block and every unconfirmed
block after it for that address. -/
def specCandidateSet (addr : Address) (toHeight : Nat) (toHash : Option Hash)
    (unconfirmedBlocks : List AccountBlock) : List AccountBlock :=
  planDeleteBlocks toHeight toHash
    (unconfirmedBlocks.filter fun b => decide (b.accountAddress = addr))

/-- Modelled from the spec: `computeDependencies` is not under `src/`.  Section
4.2, step 3: the closure contains the candidate set `plan` and, transitively,
every unconfirmed block whose `fromBlockHash` points at a block of the closure. -/
def DependencyClosure (unconfirmedBlocks plan result : List AccountBlock) : Prop :=
  (∀ b ∈ plan, b ∈ result) ∧
    ∀ r ∈ unconfirmedBlocks, ∀ s ∈ result, r.fromBlockHash = s.hash → r ∈ result

instance (unconfirmedBlocks plan result : List AccountBlock) :
    Decidable (DependencyClosure unconfirmedBlocks plan result) := by
  unfold DependencyClosure
  infer_instance

/-! ## Reference collaborators

Small executable stores on which the coordinator can be run. -/

namespace Ref

/-- Modelled from the spec: the Block Log Store is not under `src/`.  Section 6:
append returns the location of the new record, `GetNextLocation(loc)` is nil
when `loc` is at or after the tail, `Rollback(loc)` truncates to `loc` and
returns the removed chunks oldest first.  A location is the index of a record
and the tail is the number of records. -/
structure BlockLog where
  records : List SnapshotSegment
deriving DecidableEq, Repr

/-- Modelled from the spec: the Index Store is not under `src/`; it resolves a
snapshot hash to a height and a snapshot height to a location.
`rollbackBroken` makes its snapshot rollback report an I/O error. -/
structure Index where
  snapshots : List (SnapshotBlock × Location)
  accountBlocks : List AccountBlock
  rollbackBroken : Bool
  insertBroken : Bool
deriving DecidableEq, Repr

/-- Modelled from the spec: the State Store is not under `src/`; it keeps a redo
log for a window of snapshot heights.  `redoBroken` makes `HasRedo` report an
I/O error and `writeBroken` does the same for `Write`. -/
structure State where
  redoHeights : List Nat
  written : List AccountBlock
  redoBroken : Bool
  writeBroken : Bool
deriving DecidableEq, Repr

/-- Modelled from the spec: the Unconfirmed Cache is not under `src/`; it holds
the unconfirmed account blocks and the snapshot blocks seen, latest last. -/
structure Cache where
  unconfirmed : List AccountBlock
  snapshots : List SnapshotBlock
deriving DecidableEq, Repr

/-- The snapshot blocks carried by a chunk list. -/
def chunkSnapshots (chunks : List SnapshotChunk) : List SnapshotBlock :=
  chunks.filterMap fun ch => ch.snapshotBlock

/-- Add a block to the entry of its address. -/
def insertSubLedger (b : AccountBlock) : SubLedger → SubLedger
  | [] => [(b.accountAddress, [b])]
  | (a, bs) :: rest =>
    if a = b.accountAddress then (a, bs ++ [b]) :: rest
    else (a, bs) :: insertSubLedger b rest

/-- Group blocks by address. -/
def blocksToMap (bs : List AccountBlock) : SubLedger :=
  bs.foldl (fun m b => insertSubLedger b m) []

/-- The blocks of a sub-ledger. -/
def subLedgerBlocks (sl : SubLedger) : List AccountBlock :=
  sl.flatMap fun e => e.2

/-- One round of the dependency closure: add the unconfirmed blocks that
receive from a block already in the set. -/
def dependencyRound (unconfirmed acc : List AccountBlock) : List AccountBlock :=
  acc ++ unconfirmed.filter fun b =>
    decide (b ∉ acc) && acc.any fun s => decide (b.fromBlockHash = s.hash)

/-- The dependency closure, by as many rounds as there are unconfirmed blocks. -/
def closure (unconfirmed : List AccountBlock) : Nat → List AccountBlock → List AccountBlock
  | 0, acc => acc
  | n + 1, acc => closure unconfirmed n (dependencyRound unconfirmed acc)

/-- The reference collaborators. -/
def collab : Collab BlockLog Index State Cache where
  blockDBGetNextLocation := fun b loc =>
    match loc with
    | none => (none, some (GoError.store 1))
    | some l =>
      if l.offset < b.records.length then (some ⟨l.fileId, l.offset + 1⟩, none)
      else (none, none)
  blockDBRollback := fun b loc =>
    (⟨b.records.take loc.offset⟩,
      (b.records.drop loc.offset).map fun r => ⟨some r.snapshotBlock, r.accountBlocks⟩,
      none)
  blockDBWrite := fun b seg =>
    (⟨b.records ++ [seg]⟩, [], some ⟨0, b.records.length⟩, none)
  indexGetSnapshotBlockHeight := fun i h =>
    match i.snapshots.find? fun e => decide (e.1.hash = h) with
    | some e => (e.1.height, none)
    | none => (0, none)
  indexGetSnapshotBlockLocation := fun i h =>
    match i.snapshots.find? fun e => decide (e.1.height = h) with
    | some e => (some e.2, none)
    | none => (none, none)
  indexRollbackSnapshotBlocks := fun i chunks _ =>
    if i.rollbackBroken then (i, some (GoError.store 2))
    else
      ({ i with snapshots := i.snapshots.filter fun e => decide (e.1 ∉ chunkSnapshots chunks) },
        none)
  indexRollbackAccountBlocks := fun i blocks =>
    ({ i with accountBlocks := i.accountBlocks.filter fun b => decide (b ∉ blocks) }, none)
  indexInsertAccountBlock := fun i vb =>
    if i.insertBroken then (i, some (GoError.store 4))
    else ({ i with accountBlocks := i.accountBlocks ++ [vb.accountBlock] }, none)
  indexInsertSnapshotBlock := fun i sb _ loc =>
    ({ i with snapshots := i.snapshots ++ [(sb, loc.getD ⟨0, 0⟩)] }, none)
  indexDeleteInvalidAccountBlocks := fun i sl =>
    { i with accountBlocks := i.accountBlocks.filter fun b => decide (b ∉ subLedgerBlocks sl) }
  stateHasRedo := fun s h =>
    if s.redoBroken then (false, some (GoError.store 3)) else (decide (h ∈ s.redoHeights), none)
  stateRollbackSnapshotBlocks := fun s _ _ => (s, none)
  stateRollbackAccountBlocks := fun s blocks =>
    ({ s with written := s.written.filter fun b => decide (b ∉ blocks) }, none)
  stateWrite := fun s vb =>
    if s.writeBroken then (s, some (GoError.store 5))
    else ({ s with written := s.written ++ [vb.accountBlock] }, none)
  stateFlush := fun s _ _ => (s, none)
  stateDeleteInvalidAccountBlocks := fun s sl =>
    { s with written := s.written.filter fun b => decide (b ∉ subLedgerBlocks sl) }
  cacheGetUnconfirmedBlocks := fun c => c.unconfirmed
  cacheGetLatestSnapshotBlock := fun c => c.snapshots.getLastD ⟨0, 0⟩
  cacheRollbackSnapshotBlocks := fun c chunks nu =>
    (⟨nu, c.snapshots.filter fun sb => decide (sb ∉ chunkSnapshots chunks)⟩, none)
  cacheRollbackAccountBlocks := fun c blocks =>
    ({ c with unconfirmed := c.unconfirmed.filter fun b => decide (b ∉ blocks) }, none)
  cacheInsertAccountBlock := fun c b => { c with unconfirmed := c.unconfirmed ++ [b] }
  cacheDeleteUnconfirmedAccountBlocks := fun c blocks =>
    { c with unconfirmed := c.unconfirmed.filter fun b => decide (b ∉ blocks) }
  cacheInsertSnapshotBlock := fun c sb => { c with snapshots := c.snapshots ++ [sb] }
  flusherFlush := fun _ b i s => (b, i, s)
  filterCanBeSnapped := fun _ _ _ _ unconfirmed => (unconfirmed, [], [])
  blocksToMap := blocksToMap
  computeDependencies := fun _ _ _ c plan => closure c.unconfirmed c.unconfirmed.length plan

/-- The genesis snapshot block. -/
def genesis : SnapshotBlock := ⟨100, 1⟩

/-- The snapshot block of height 2. -/
def sb2 : SnapshotBlock := ⟨200, 2⟩

/-- An account block confirmed by the snapshot of height 2. -/
def blockA : AccountBlock := ⟨7, 1, 71, 0⟩

/-- An unconfirmed account block. -/
def blockB : AccountBlock := ⟨8, 1, 81, 0⟩

/-- A chain with snapshots 1 and 2, a redo log for height 2 and one unconfirmed block. -/
def chain2 : Chain BlockLog Index State Cache where
  blockDB := ⟨[⟨genesis, []⟩, ⟨sb2, [blockA]⟩]⟩
  indexDB := ⟨[(genesis, ⟨0, 0⟩), (sb2, ⟨0, 1⟩)], [blockA, blockB], false, false⟩
  stateDB := ⟨[2], [blockA, blockB], false, false⟩
  cache := ⟨[blockB], [genesis, sb2]⟩
  trace := []
  logs := []

/-- The chain `chain2` whose state store fails to answer `HasRedo`. -/
def chain2RedoBroken : Chain BlockLog Index State Cache :=
  { chain2 with stateDB := ⟨[2], [blockA, blockB], true, false⟩ }

/-- The chain `chain2` whose index store fails to roll snapshot blocks back. -/
def chain2IndexBroken : Chain BlockLog Index State Cache :=
  { chain2 with indexDB := ⟨[(genesis, ⟨0, 0⟩), (sb2, ⟨0, 1⟩)], [blockA, blockB], true, false⟩ }

/-- The chain `chain2` whose block log ends with the genesis record: the index
and the cache still know the snapshot of height 2. -/
def chain2LogBehind : Chain BlockLog Index State Cache :=
  { chain2 with blockDB := ⟨[⟨genesis, []⟩]⟩ }

/-- A chain with the genesis snapshot only and one unconfirmed block; `redo`
lists the heights the state store keeps a redo log for. -/
def chain1 (redo : List Nat) : Chain BlockLog Index State Cache where
  blockDB := ⟨[⟨genesis, []⟩]⟩
  indexDB := ⟨[(genesis, ⟨0, 0⟩)], [blockB], false, false⟩
  stateDB := ⟨redo, [blockB], false, false⟩
  cache := ⟨[blockB], [genesis]⟩
  trace := []
  logs := []

/-- The chain `chain1 []` whose index store fails to insert account blocks. -/
def chain1IndexBroken : Chain BlockLog Index State Cache :=
  { chain1 [] with indexDB := ⟨[(genesis, ⟨0, 0⟩)], [blockB], false, true⟩ }

/-- A block handed to `InsertAccountBlock`. -/
def vmBlockA : VmAccountBlock := ⟨blockA, 0⟩

/-- The reference collaborators with a block log that fails to append. -/
def collabWriteBroken : Collab BlockLog Index State Cache :=
  { collab with blockDBWrite := fun b _ => (b, [], none, some (GoError.store 6)) }

/-- The reference collaborators with a filter pass that rejects the blocks of
address 9 as conflicting and lets every other block be snapped. -/
def collabRejecting9 : Collab BlockLog Index State Cache :=
  { collab with
    filterCanBeSnapped := fun _ _ _ _ unconfirmed =>
      (unconfirmed.filter fun b => decide (b.accountAddress ≠ 9),
        blocksToMap (unconfirmed.filter fun b => decide (b.accountAddress = 9)),
        unconfirmed.filter fun b => decide (b.accountAddress = 9)) }

/-- A block of address 9 that receives from `blockB`. -/
def blockR : AccountBlock := ⟨9, 1, 91, 81⟩

/-- A snapshot block of height 5. -/
def sb5 : SnapshotBlock := ⟨500, 5⟩

/-- A chain with the genesis snapshot only, where `blockB` and the block
`blockR` that receives from it are unconfirmed. -/
def chainSendReceive : Chain BlockLog Index State Cache where
  blockDB := ⟨[⟨genesis, []⟩]⟩
  indexDB := ⟨[(genesis, ⟨0, 0⟩)], [blockB, blockR], false, false⟩
  stateDB := ⟨[], [blockB, blockR], false, false⟩
  cache := ⟨[blockB, blockR], [genesis]⟩
  trace := []
  logs := []

/-- A chain with the genesis snapshot only, where the unrelated blocks `blockA`
of address 7 and `blockB` of address 8 are unconfirmed, in this order. -/
def chainTwoAccounts : Chain BlockLog Index State Cache where
  blockDB := ⟨[⟨genesis, []⟩]⟩
  indexDB := ⟨[(genesis, ⟨0, 0⟩)], [blockA, blockB], false, false⟩
  stateDB := ⟨[], [blockA, blockB], false, false⟩
  cache := ⟨[blockA, blockB], [genesis]⟩
  trace := []
  logs := []

/-- Modelled from the spec: the block log's byte view is not under `src/`.
Section 6: `ReadRaw` is a sequential raw read starting at the location and
`Distance` is the byte distance between two locations.  Here files hold
`FileSize` bytes each, a read returns exactly the requested bytes and moves
the location by their number inside the file. -/
def readerStore : ReaderStore BlockLog where
  FileSize := fun _ => 1000
  ReadRaw := fun _ loc n => (some ⟨loc.fileId, loc.offset + n⟩, (n : Int), none)
  Distance := fun fileSize a b =>
    ((b.fileId : Int) - (a.fileId : Int)) * fileSize + ((b.offset : Int) - (a.offset : Int))

/-- The chain `chain2` whose index puts the two snapshot blocks at byte offsets
0 and 10 of file 0. -/
def chain2Offsets : Chain BlockLog Index State Cache :=
  { chain2 with indexDB := ⟨[(genesis, ⟨0, 0⟩), (sb2, ⟨0, 10⟩)], [blockA, blockB], false, false⟩ }

/-- The reader over heights 1 to 2 of `chain2Offsets`, as constructed. -/
def reader10 : ledgerReader :=
  { fromHeight := 1, toHeight := 2, fromLocation := ⟨0, 0⟩, toLocation := ⟨0, 10⟩,
    currentLocation := some ⟨0, 0⟩ }

/-- On-road collaborators whose index store fails to load: the contract list
of every group is `[7]` and `Load` returns an error with no data. -/
def onRoadLoadBroken : OnRoadCollab BlockLog Index State Cache where
  GetContractList := fun _ _ _ _ _ => ([7], none)
  indexLoad := fun _ _ => (none, some (GoError.store 8))

end Ref

/-! ## Shape of a snapshot deletion -/

section Projections

variable (c : Chain B I S C)

@[simp] theorem Chain.emit_trace (e : Effect) : (c.emit e).trace = c.trace ++ [e] := rfl

@[simp] theorem Chain.emit_blockDB (e : Effect) : (c.emit e).blockDB = c.blockDB := rfl

@[simp] theorem Chain.emit_indexDB (e : Effect) : (c.emit e).indexDB = c.indexDB := rfl

@[simp] theorem Chain.emit_stateDB (e : Effect) : (c.emit e).stateDB = c.stateDB := rfl

@[simp] theorem Chain.emit_cache (e : Effect) : (c.emit e).cache = c.cache := rfl

@[simp] theorem Chain.emit_logs (e : Effect) : (c.emit e).logs = c.logs := rfl

@[simp] theorem Chain.logError_trace (e : GoError) : (c.logError e).trace = c.trace := rfl

@[simp] theorem Chain.logError_blockDB (e : GoError) : (c.logError e).blockDB = c.blockDB := rfl

@[simp] theorem Chain.logError_indexDB (e : GoError) : (c.logError e).indexDB = c.indexDB := rfl

@[simp] theorem Chain.logError_stateDB (e : GoError) : (c.logError e).stateDB = c.stateDB := rfl

@[simp] theorem Chain.logError_cache (e : GoError) : (c.logError e).cache = c.cache := rfl

@[simp] theorem Chain.critOnError_trace (s : Site) (o : Option GoError) :
    (c.critOnError s o).trace = c.trace := by
  cases o <;> rfl

@[simp] theorem Chain.critOnError_blockDB (s : Site) (o : Option GoError) :
    (c.critOnError s o).blockDB = c.blockDB := by
  cases o <;> rfl

@[simp] theorem Chain.critOnError_indexDB (s : Site) (o : Option GoError) :
    (c.critOnError s o).indexDB = c.indexDB := by
  cases o <;> rfl

@[simp] theorem Chain.critOnError_stateDB (s : Site) (o : Option GoError) :
    (c.critOnError s o).stateDB = c.stateDB := by
  cases o <;> rfl

@[simp] theorem Chain.critOnError_cache (s : Site) (o : Option GoError) :
    (c.critOnError s o).cache = c.cache := by
  cases o <;> rfl

end Projections

section Shape

variable (k : Collab B I S C) (c : Chain B I S C)

/-- A height outside `(1, latest]` takes the first `return nil, cErr`. -/
theorem delete_out_of_range (toHeight : Nat)
    (h : toHeight ≤ 1 ∨ toHeight > (GetLatestSnapshotBlock k c).height) :
    DeleteSnapshotBlocksToHeight k c toHeight =
      (c.logError (GoError.invalid Site.heightRange),
        ⟨none, some (GoError.invalid Site.heightRange)⟩) := by
  have hc : toHeight > (GetLatestSnapshotBlock k c).height ∨ toHeight ≤ 1 := h.symm
  simp only [DeleteSnapshotBlocksToHeight, hc, if_true]

/-- When the block log rollback removes nothing the call stops right after it. -/
theorem delete_empty {toHeight : Nat} {location : Location}
    (hv : TruncatesAt k c toHeight location)
    (hempty : (k.blockDBRollback c.blockDB location).2.1 = []) :
    (DeleteSnapshotBlocksToHeight k c toHeight).2 = ⟨none, none⟩ ∧
      (DeleteSnapshotBlocksToHeight k c toHeight).1.trace =
        c.trace ++ [Effect.blockDBRollback location] ∧
      (DeleteSnapshotBlocksToHeight k c toHeight).1.blockDB =
        (k.blockDBRollback c.blockDB location).1 ∧
      (DeleteSnapshotBlocksToHeight k c toHeight).1.indexDB = c.indexDB ∧
      (DeleteSnapshotBlocksToHeight k c toHeight).1.stateDB = c.stateDB ∧
      (DeleteSnapshotBlocksToHeight k c toHeight).1.cache = c.cache := by
  obtain ⟨h1, h2, tmp, h3, h4⟩ := hv
  have hc : ¬ (toHeight > (GetLatestSnapshotBlock k c).height ∨ toHeight ≤ 1) := by omega
  rcases hrb : k.blockDBRollback c.blockDB location with ⟨b1, chunks, err⟩
  rw [hrb] at hempty
  simp only at hempty
  subst hempty
  simp [DeleteSnapshotBlocksToHeight, hc, h3, h4, hrb]

/-- When `HasRedo` fails the call returns its error with the block log truncated. -/
theorem delete_redo_error {toHeight : Nat} {location : Location}
    {firstChunk : SnapshotChunk} {restChunks : List SnapshotChunk} {e : GoError}
    (hv : TruncatesAt k c toHeight location)
    (hchunks : (k.blockDBRollback c.blockDB location).2.1 = firstChunk :: restChunks)
    (hredo : (k.stateHasRedo c.stateDB toHeight).2 = some e) :
    (DeleteSnapshotBlocksToHeight k c toHeight).2 =
        ⟨none, some (GoError.wrapped Site.hasRedo e)⟩ ∧
      (DeleteSnapshotBlocksToHeight k c toHeight).1.trace =
        c.trace ++ [Effect.blockDBRollback location] ∧
      (DeleteSnapshotBlocksToHeight k c toHeight).1.blockDB =
        (k.blockDBRollback c.blockDB location).1 := by
  obtain ⟨h1, h2, tmp, h3, h4⟩ := hv
  have hc : ¬ (toHeight > (GetLatestSnapshotBlock k c).height ∨ toHeight ≤ 1) := by omega
  rcases hrb : k.blockDBRollback c.blockDB location with ⟨b1, chunks, err⟩
  rw [hrb] at hchunks
  simp only at hchunks
  subst hchunks
  rcases hhr : k.stateHasRedo c.stateDB toHeight with ⟨b, oe⟩
  rw [hhr] at hredo
  simp only at hredo
  subst hredo
  simp [DeleteSnapshotBlocksToHeight, hc, h3, h4, hrb, hhr]

/-- When chunks were removed and `HasRedo` answers, the call runs to its end:
it returns the removed chunks followed by the chunk of the old unconfirmed
blocks, and its effects are the seven listed ones whatever the three
rollbacks return. -/
theorem delete_nonempty {toHeight : Nat} {location : Location}
    {firstChunk : SnapshotChunk} {restChunks : List SnapshotChunk} {hasRedo : Bool}
    (hv : TruncatesAt k c toHeight location)
    (hchunks : (k.blockDBRollback c.blockDB location).2.1 = firstChunk :: restChunks)
    (hredo : k.stateHasRedo c.stateDB toHeight = (hasRedo, none)) :
    (DeleteSnapshotBlocksToHeight k c toHeight).2 =
        ⟨some ((firstChunk :: restChunks) ++
          [⟨none, k.cacheGetUnconfirmedBlocks c.cache⟩]), none⟩ ∧
      (DeleteSnapshotBlocksToHeight k c toHeight).1.trace =
        c.trace ++
          [Effect.blockDBRollback location,
           Effect.emTrigger EventKind.prepareDeleteSbsEvent [] [] []
             ((firstChunk :: restChunks) ++ [⟨none, k.cacheGetUnconfirmedBlocks c.cache⟩]),
           Effect.indexRollbackSnapshotBlocks
             ((firstChunk :: restChunks) ++ [⟨none, k.cacheGetUnconfirmedBlocks c.cache⟩])
             (if hasRedo then firstChunk.accountBlocks else []),
           Effect.cacheRollbackSnapshotBlocks
             ((firstChunk :: restChunks) ++ [⟨none, k.cacheGetUnconfirmedBlocks c.cache⟩])
             (if hasRedo then firstChunk.accountBlocks else []),
           Effect.stateRollbackSnapshotBlocks
             ((firstChunk :: restChunks) ++ [⟨none, k.cacheGetUnconfirmedBlocks c.cache⟩])
             (if hasRedo then firstChunk.accountBlocks else []),
           Effect.flusherFlush true,
           Effect.emTrigger EventKind.DeleteSbsEvent [] [] []
             ((firstChunk :: restChunks) ++ [⟨none, k.cacheGetUnconfirmedBlocks c.cache⟩])] := by
  obtain ⟨h1, h2, tmp, h3, h4⟩ := hv
  have hc : ¬ (toHeight > (GetLatestSnapshotBlock k c).height ∨ toHeight ≤ 1) := by omega
  rcases hrb : k.blockDBRollback c.blockDB location with ⟨b1, chunks, err⟩
  rw [hrb] at hchunks
  simp only at hchunks
  subst hchunks
  simp [DeleteSnapshotBlocksToHeight, hc, h3, h4, hrb, hredo]

end Shape

/-! ## Snapshot deletion: the claims -/

section SnapshotDeletion

variable (k : Collab B I S C) (c : Chain B I S C)

/-- A successful call that removed chunks got an answer from `HasRedo`. -/
theorem delete_success_redo {toHeight : Nat} {location : Location}
    (hv : TruncatesAt k c toHeight location)
    (hne : (k.blockDBRollback c.blockDB location).2.1 ≠ [])
    (hok : (DeleteSnapshotBlocksToHeight k c toHeight).2.err = none) :
    ∃ firstChunk restChunks hasRedo,
      (k.blockDBRollback c.blockDB location).2.1 = firstChunk :: restChunks ∧
      k.stateHasRedo c.stateDB toHeight = (hasRedo, none) := by
  rcases hch : (k.blockDBRollback c.blockDB location).2.1 with _ | ⟨firstChunk, restChunks⟩
  · exact absurd hch hne
  · rcases hhr : k.stateHasRedo c.stateDB toHeight with ⟨b, oe⟩
    cases oe with
    | none => exact ⟨firstChunk, restChunks, b, rfl, rfl⟩
    | some e =>
      have h := (delete_redo_error k c hv hch (by rw [hhr])).1
      rw [h] at hok
      simp at hok

/-- C1: for every coordinator state and every `toHeight` with `toHeight ≤ 1` or
`toHeight` above the latest snapshot height, `DeleteSnapshotBlocksToHeight`
returns `(nil, error)`, leaves the Block Log, Index Store, State Store and
Unconfirmed Cache unchanged and fires no event; in particular this holds for
`toHeight = 0` and `toHeight = 1`. -/
theorem deleteSnapshotBlocksToHeight_rejects_bad_height :
    (∀ toHeight : Nat,
      (toHeight ≤ 1 ∨ toHeight > (GetLatestSnapshotBlock k c).height) →
        RejectedCleanly c (DeleteSnapshotBlocksToHeight k c toHeight)) ∧
      RejectedCleanly c (DeleteSnapshotBlocksToHeight k c 0) ∧
      RejectedCleanly c (DeleteSnapshotBlocksToHeight k c 1) := by
  have key : ∀ toHeight : Nat,
      (toHeight ≤ 1 ∨ toHeight > (GetLatestSnapshotBlock k c).height) →
        RejectedCleanly c (DeleteSnapshotBlocksToHeight k c toHeight) := by
    intro toHeight h
    rw [delete_out_of_range k c toHeight h]
    simp [RejectedCleanly, Untouched]
  exact ⟨key, key 0 (Or.inl (by omega)), key 1 (Or.inl (by omega))⟩

/-- C4, as the code runs: whenever the Index Store resolves the hash without
error to a height `≤ 1`, `DeleteSnapshotBlocks` does not return at all: building
the error message dereferences the nil `err` and the call panics (no store is
touched, but no `(nil, error)` reaches the caller). -/
theorem deleteSnapshotBlocks_genesis_panics (toHash : Hash) (height : Nat)
    (hres : k.indexGetSnapshotBlockHeight c.indexDB toHash = (height, none))
    (hle : height ≤ 1) :
    (DeleteSnapshotBlocks k c toHash).2 = Outcome.panicked PanicReason.nilErrorDereference ∧
      (∀ r, (DeleteSnapshotBlocks k c toHash).2 ≠ Outcome.returned r) ∧
      Untouched c (DeleteSnapshotBlocks k c toHash).1 := by
  simp [DeleteSnapshotBlocks, hres, hle, Untouched]

/-- C5: for every valid `toHeight` for which the Block Log rollback returns an
empty chunk list, `DeleteSnapshotBlocksToHeight` returns `(nil, nil)`; the only
effect of the call is the Block Log rollback itself, so there is no
Index/Cache/State rollback, no flush, no prepare event and no completion
event, and the Index Store, State Store and Cache are unchanged. -/
theorem deleteSnapshotBlocksToHeight_empty_rollback_noop (toHeight : Nat) (location : Location)
    (hv : TruncatesAt k c toHeight location)
    (hempty : (k.blockDBRollback c.blockDB location).2.1 = []) :
    (DeleteSnapshotBlocksToHeight k c toHeight).2 = ⟨none, none⟩ ∧
      (DeleteSnapshotBlocksToHeight k c toHeight).1.trace =
        c.trace ++ [Effect.blockDBRollback location] ∧
      (DeleteSnapshotBlocksToHeight k c toHeight).1.indexDB = c.indexDB ∧
      (DeleteSnapshotBlocksToHeight k c toHeight).1.stateDB = c.stateDB ∧
      (DeleteSnapshotBlocksToHeight k c toHeight).1.cache = c.cache := by
  obtain ⟨h1, h2, _, h4, h5, h6⟩ := delete_empty k c hv hempty
  exact ⟨h1, h2, h4, h5, h6⟩

/-- C6: in `DeleteSnapshotBlocksToHeight` with a non-empty list of removed
chunks, the newly-unconfirmed set handed to the Index, Cache and State
rollbacks (in that order, and to nothing else) is the account blocks of the
first removed chunk when the state store reports a redo log for `toHeight`,
and is empty when it reports none. -/
theorem deleteSnapshotBlocksToHeight_newUnconfirmed (toHeight : Nat) (location : Location)
    (firstChunk : SnapshotChunk) (restChunks : List SnapshotChunk) (hasRedo : Bool)
    (hv : TruncatesAt k c toHeight location)
    (hchunks : (k.blockDBRollback c.blockDB location).2.1 = firstChunk :: restChunks)
    (hredo : k.stateHasRedo c.stateDB toHeight = (hasRedo, none)) :
    newUnconfirmedPassed
        ((DeleteSnapshotBlocksToHeight k c toHeight).1.trace.drop c.trace.length) =
      [(RolledBackStore.index, if hasRedo then firstChunk.accountBlocks else []),
       (RolledBackStore.cache, if hasRedo then firstChunk.accountBlocks else []),
       (RolledBackStore.state, if hasRedo then firstChunk.accountBlocks else [])] := by
  rw [(delete_nonempty k c hv hchunks hredo).2, List.drop_left]
  rfl

/-- C7: for every successful `DeleteSnapshotBlocksToHeight` that removed
`n ≥ 1` chunks, the returned chunk list has length `n + 1`: its first `n`
entries are the chunks returned by the Block Log rollback in the same order,
and its last entry is a chunk with no snapshot block whose account blocks are
the Unconfirmed Cache contents of the state the call started in. -/
theorem deleteSnapshotBlocksToHeight_returned_chunks (toHeight : Nat) (location : Location)
    (hv : TruncatesAt k c toHeight location)
    (hne : (k.blockDBRollback c.blockDB location).2.1 ≠ [])
    (hok : (DeleteSnapshotBlocksToHeight k c toHeight).2.err = none) :
    ∃ returned : List SnapshotChunk,
      (DeleteSnapshotBlocksToHeight k c toHeight).2.chunks = some returned ∧
      returned = (k.blockDBRollback c.blockDB location).2.1 ++
        [⟨none, k.cacheGetUnconfirmedBlocks c.cache⟩] ∧
      returned.length = (k.blockDBRollback c.blockDB location).2.1.length + 1 ∧
      returned.take (k.blockDBRollback c.blockDB location).2.1.length =
        (k.blockDBRollback c.blockDB location).2.1 ∧
      returned.getLast? = some ⟨none, k.cacheGetUnconfirmedBlocks c.cache⟩ := by
  obtain ⟨firstChunk, restChunks, hasRedo, hch, hhr⟩ := delete_success_redo k c hv hne hok
  refine ⟨(k.blockDBRollback c.blockDB location).2.1 ++
    [⟨none, k.cacheGetUnconfirmedBlocks c.cache⟩], ?_, rfl, ?_, ?_, ?_⟩
  · rw [(delete_nonempty k c hv hch hhr).1, hch]
  · simp
  · exact List.take_left _ _
  · exact List.getLast?_concat _

/-- C8: in every successful `DeleteSnapshotBlocksToHeight` with removed chunks,
the effects after the Block Log truncation are exactly: the
`prepareDeleteSnapshotBlocks` event, the Index Store rollback, the Cache
rollback, the State Store rollback, the forced flush and the
`DeleteSnapshotBlocks` completion event, in that order; both events receive
the returned chunk list and the three rollbacks receive that chunk list with
one and the same newly-unconfirmed set. -/
theorem deleteSnapshotBlocksToHeight_effect_order (toHeight : Nat) (location : Location)
    (hv : TruncatesAt k c toHeight location)
    (hne : (k.blockDBRollback c.blockDB location).2.1 ≠ [])
    (hok : (DeleteSnapshotBlocksToHeight k c toHeight).2.err = none) :
    ∃ (full : List SnapshotChunk) (newUnconfirmed : List AccountBlock),
      (DeleteSnapshotBlocksToHeight k c toHeight).2.chunks = some full ∧
      (DeleteSnapshotBlocksToHeight k c toHeight).1.trace =
        c.trace ++ [Effect.blockDBRollback location] ++
          [Effect.emTrigger EventKind.prepareDeleteSbsEvent [] [] [] full,
           Effect.indexRollbackSnapshotBlocks full newUnconfirmed,
           Effect.cacheRollbackSnapshotBlocks full newUnconfirmed,
           Effect.stateRollbackSnapshotBlocks full newUnconfirmed,
           Effect.flusherFlush true,
           Effect.emTrigger EventKind.DeleteSbsEvent [] [] [] full] := by
  obtain ⟨firstChunk, restChunks, hasRedo, hch, hhr⟩ := delete_success_redo k c hv hne hok
  refine ⟨(firstChunk :: restChunks) ++ [⟨none, k.cacheGetUnconfirmedBlocks c.cache⟩],
    if hasRedo then firstChunk.accountBlocks else [], ?_, ?_⟩
  · rw [(delete_nonempty k c hv hch hhr).1]
  · rw [(delete_nonempty k c hv hch hhr).2]
    simp

end SnapshotDeletion

/-- Witness of C1 on the reference chain with snapshots 1 and 2: height 3 is refused. -/
theorem deleteSnapshotBlocksToHeight_rejects_bad_height_witness :
    (3 ≤ 1 ∨ 3 > (GetLatestSnapshotBlock Ref.collab Ref.chain2).height) ∧
      RejectedCleanly Ref.chain2 (DeleteSnapshotBlocksToHeight Ref.collab Ref.chain2 3) :=
  ⟨by decide,
    (deleteSnapshotBlocksToHeight_rejects_bad_height Ref.collab Ref.chain2).1 3 (by decide)⟩

/-- C2, as the code runs: on the reference chain whose state store cannot
answer `HasRedo`, `DeleteSnapshotBlocksToHeight(2)` returns `(nil, error)` and
the Block Log has lost the record of height 2: the error is returned after
the truncation. -/
theorem deleteSnapshotBlocksToHeight_error_after_truncation :
    (DeleteSnapshotBlocksToHeight Ref.collab Ref.chain2RedoBroken 2).2 =
        ⟨none, some (GoError.wrapped Site.hasRedo (GoError.store 3))⟩ ∧
      Ref.chain2RedoBroken.blockDB = ⟨[⟨Ref.genesis, []⟩, ⟨Ref.sb2, [Ref.blockA]⟩]⟩ ∧
      (DeleteSnapshotBlocksToHeight Ref.collab Ref.chain2RedoBroken 2).1.blockDB =
        ⟨[⟨Ref.genesis, []⟩]⟩ ∧
      (DeleteSnapshotBlocksToHeight Ref.collab Ref.chain2RedoBroken 2).1.trace =
        [Effect.blockDBRollback ⟨0, 1⟩] := by
  decide

/-- C3, as the code runs: on the reference chain whose index store fails to
roll back, `DeleteSnapshotBlocksToHeight(2)` truncates the Block Log, the
Index Store rollback returns an error, and the call still returns
`(chunks, nil)` and fires the `DeleteSnapshotBlocks` completion event; the
failure is only logged at critical severity. -/
theorem deleteSnapshotBlocksToHeight_success_after_failed_rollback :
    (Ref.collab.indexRollbackSnapshotBlocks Ref.chain2IndexBroken.indexDB
        [⟨some Ref.sb2, [Ref.blockA]⟩, ⟨none, [Ref.blockB]⟩] [Ref.blockA]).2 =
        some (GoError.store 2) ∧
      (DeleteSnapshotBlocksToHeight Ref.collab Ref.chain2IndexBroken 2).2 =
        ⟨some [⟨some Ref.sb2, [Ref.blockA]⟩, ⟨none, [Ref.blockB]⟩], none⟩ ∧
      (DeleteSnapshotBlocksToHeight Ref.collab Ref.chain2IndexBroken 2).1.trace =
        [Effect.blockDBRollback ⟨0, 1⟩,
         Effect.emTrigger EventKind.prepareDeleteSbsEvent [] [] []
           [⟨some Ref.sb2, [Ref.blockA]⟩, ⟨none, [Ref.blockB]⟩],
         Effect.indexRollbackSnapshotBlocks
           [⟨some Ref.sb2, [Ref.blockA]⟩, ⟨none, [Ref.blockB]⟩] [Ref.blockA],
         Effect.cacheRollbackSnapshotBlocks
           [⟨some Ref.sb2, [Ref.blockA]⟩, ⟨none, [Ref.blockB]⟩] [Ref.blockA],
         Effect.stateRollbackSnapshotBlocks
           [⟨some Ref.sb2, [Ref.blockA]⟩, ⟨none, [Ref.blockB]⟩] [Ref.blockA],
         Effect.flusherFlush true,
         Effect.emTrigger EventKind.DeleteSbsEvent [] [] []
           [⟨some Ref.sb2, [Ref.blockA]⟩, ⟨none, [Ref.blockB]⟩]] ∧
      firesDeleteSbsEvent (DeleteSnapshotBlocksToHeight Ref.collab Ref.chain2IndexBroken 2).1.trace =
        true ∧
      (DeleteSnapshotBlocksToHeight Ref.collab Ref.chain2IndexBroken 2).1.logs =
        [(LogLevel.crit,
          GoError.wrapped Site.indexRollbackSnapshotBlocks (GoError.store 2))] := by
  decide

/-- Witness of C4 on the reference chain: the hash of the genesis snapshot
resolves to height 1 and the call panics. -/
theorem deleteSnapshotBlocks_genesis_panics_witness :
    Ref.collab.indexGetSnapshotBlockHeight Ref.chain2.indexDB 100 = (1, none) ∧
      (DeleteSnapshotBlocks Ref.collab Ref.chain2 100).2 =
        Outcome.panicked PanicReason.nilErrorDereference :=
  ⟨rfl, (deleteSnapshotBlocks_genesis_panics Ref.collab Ref.chain2 100 1 rfl (by decide)).1⟩

/-- Witness of C5 on the reference chain whose block log ends with genesis. -/
theorem deleteSnapshotBlocksToHeight_empty_rollback_noop_witness :
    TruncatesAt Ref.collab Ref.chain2LogBehind 2 ⟨0, 1⟩ ∧
      (Ref.collab.blockDBRollback Ref.chain2LogBehind.blockDB ⟨0, 1⟩).2.1 = [] ∧
      (DeleteSnapshotBlocksToHeight Ref.collab Ref.chain2LogBehind 2).2 = ⟨none, none⟩ ∧
      (DeleteSnapshotBlocksToHeight Ref.collab Ref.chain2LogBehind 2).1.trace =
        [Effect.blockDBRollback ⟨0, 1⟩] :=
  have hv : TruncatesAt Ref.collab Ref.chain2LogBehind 2 ⟨0, 1⟩ :=
    ⟨by decide, by decide, some ⟨0, 0⟩, rfl, rfl⟩
  ⟨hv, rfl,
    (deleteSnapshotBlocksToHeight_empty_rollback_noop Ref.collab Ref.chain2LogBehind 2 ⟨0, 1⟩
      hv rfl).1,
    (deleteSnapshotBlocksToHeight_empty_rollback_noop Ref.collab Ref.chain2LogBehind 2 ⟨0, 1⟩
      hv rfl).2.1⟩

/-- Witness of C6 on the reference chain with a redo log for height 2. -/
theorem deleteSnapshotBlocksToHeight_newUnconfirmed_witness :
    TruncatesAt Ref.collab Ref.chain2 2 ⟨0, 1⟩ ∧
      (Ref.collab.blockDBRollback Ref.chain2.blockDB ⟨0, 1⟩).2.1 =
        [⟨some Ref.sb2, [Ref.blockA]⟩] ∧
      Ref.collab.stateHasRedo Ref.chain2.stateDB 2 = (true, none) ∧
      newUnconfirmedPassed (DeleteSnapshotBlocksToHeight Ref.collab Ref.chain2 2).1.trace =
        [(RolledBackStore.index, [Ref.blockA]), (RolledBackStore.cache, [Ref.blockA]),
         (RolledBackStore.state, [Ref.blockA])] :=
  have hv : TruncatesAt Ref.collab Ref.chain2 2 ⟨0, 1⟩ :=
    ⟨by decide, by decide, some ⟨0, 0⟩, rfl, rfl⟩
  ⟨hv, rfl, rfl,
    deleteSnapshotBlocksToHeight_newUnconfirmed Ref.collab Ref.chain2 2 ⟨0, 1⟩
      ⟨some Ref.sb2, [Ref.blockA]⟩ [] true hv rfl rfl⟩

/-- Witness of C7 on the reference chain: one removed chunk, two returned. -/
theorem deleteSnapshotBlocksToHeight_returned_chunks_witness :
    TruncatesAt Ref.collab Ref.chain2 2 ⟨0, 1⟩ ∧
      (Ref.collab.blockDBRollback Ref.chain2.blockDB ⟨0, 1⟩).2.1 ≠ [] ∧
      (DeleteSnapshotBlocksToHeight Ref.collab Ref.chain2 2).2.err = none ∧
      ∃ returned : List SnapshotChunk,
        (DeleteSnapshotBlocksToHeight Ref.collab Ref.chain2 2).2.chunks = some returned ∧
        returned = [⟨some Ref.sb2, [Ref.blockA]⟩, ⟨none, [Ref.blockB]⟩] :=
  have hv : TruncatesAt Ref.collab Ref.chain2 2 ⟨0, 1⟩ :=
    ⟨by decide, by decide, some ⟨0, 0⟩, rfl, rfl⟩
  ⟨hv, by decide, rfl,
    match deleteSnapshotBlocksToHeight_returned_chunks Ref.collab Ref.chain2 2 ⟨0, 1⟩ hv
      (by decide) rfl with
    | ⟨returned, h1, h2, _⟩ => ⟨returned, h1, h2⟩⟩

/-- Witness of C8 on the reference chain. -/
theorem deleteSnapshotBlocksToHeight_effect_order_witness :
    TruncatesAt Ref.collab Ref.chain2 2 ⟨0, 1⟩ ∧
      (Ref.collab.blockDBRollback Ref.chain2.blockDB ⟨0, 1⟩).2.1 ≠ [] ∧
      (DeleteSnapshotBlocksToHeight Ref.collab Ref.chain2 2).2.err = none ∧
      ∃ (full : List SnapshotChunk) (newUnconfirmed : List AccountBlock),
        (DeleteSnapshotBlocksToHeight Ref.collab Ref.chain2 2).2.chunks = some full ∧
        (DeleteSnapshotBlocksToHeight Ref.collab Ref.chain2 2).1.trace =
          [Effect.blockDBRollback ⟨0, 1⟩,
           Effect.emTrigger EventKind.prepareDeleteSbsEvent [] [] [] full,
           Effect.indexRollbackSnapshotBlocks full newUnconfirmed,
           Effect.cacheRollbackSnapshotBlocks full newUnconfirmed,
           Effect.stateRollbackSnapshotBlocks full newUnconfirmed,
           Effect.flusherFlush true,
           Effect.emTrigger EventKind.DeleteSbsEvent [] [] [] full] :=
  have hv : TruncatesAt Ref.collab Ref.chain2 2 ⟨0, 1⟩ :=
    ⟨by decide, by decide, some ⟨0, 0⟩, rfl, rfl⟩
  ⟨hv, by decide, rfl,
    deleteSnapshotBlocksToHeight_effect_order Ref.collab Ref.chain2 2 ⟨0, 1⟩ hv (by decide) rfl⟩

/-! ## Insertion: the claims -/

section Insertion

variable (k : Collab B I S C) (c : Chain B I S C)

/-- A successful `InsertSnapshotBlock` leaves the block log as the append of the
segment made of the snapshot block and the can-be-snapped blocks left it. -/
theorem insert_success_blockDB (snapshotBlock : SnapshotBlock)
    (hok : (InsertSnapshotBlock k c snapshotBlock).2.err = none) :
    (InsertSnapshotBlock k c snapshotBlock).1.blockDB =
      (k.blockDBWrite c.blockDB
        ⟨snapshotBlock,
          (k.filterCanBeSnapped c.blockDB c.indexDB c.stateDB c.cache
            (k.cacheGetUnconfirmedBlocks c.cache)).1⟩).1 := by
  rcases hf : k.filterCanBeSnapped c.blockDB c.indexDB c.stateDB c.cache
    (k.cacheGetUnconfirmedBlocks c.cache) with ⟨can, inv, need⟩
  rcases hw : k.blockDBWrite c.blockDB ⟨snapshotBlock, can⟩ with ⟨b1, locs, loc, err⟩
  cases err with
  | some e => simp [InsertSnapshotBlock, hf, hw] at hok
  | none =>
    cases hi : (k.indexInsertSnapshotBlock c.indexDB snapshotBlock (k.blocksToMap can) loc).2 with
    | some e => simp [InsertSnapshotBlock, hf, hw, hi] at hok
    | none =>
      cases hs : (k.stateFlush c.stateDB snapshotBlock.hash can).2 with
      | some e => simp [InsertSnapshotBlock, hf, hw, hi, hs] at hok
      | none => simp [InsertSnapshotBlock, hf, hw, hi, hs]

/-- C9, amended: for every state with latest snapshot height `h` and an
unconfirmed block `B` that the filter pass marks as can-be-snapped, a
successful `InsertSnapshotBlock` of a snapshot at height `h + 1` followed by a
`DeleteSnapshotBlocksToHeight(h + 1)` that truncates the Block Log, whose
rollback returns the segment appended by the insert as its first removed
chunk, hands to the Cache rollback exactly one newly-unconfirmed set, and `B`
is a member of it, provided the state store reports a redo log for `h + 1`. -/
theorem insert_then_delete_readmits (snapshotBlock : SnapshotBlock) (blockB : AccountBlock)
    (location : Location) (restChunks : List SnapshotChunk)
    (_hheight : snapshotBlock.height = (GetLatestSnapshotBlock k c).height + 1)
    (hB : blockB ∈ (k.filterCanBeSnapped c.blockDB c.indexDB c.stateDB c.cache
      (k.cacheGetUnconfirmedBlocks c.cache)).1)
    (hins : (InsertSnapshotBlock k c snapshotBlock).2.err = none)
    (hv : TruncatesAt k (InsertSnapshotBlock k c snapshotBlock).1 snapshotBlock.height location)
    (hlog : (k.blockDBRollback
        (k.blockDBWrite c.blockDB
          ⟨snapshotBlock,
            (k.filterCanBeSnapped c.blockDB c.indexDB c.stateDB c.cache
              (k.cacheGetUnconfirmedBlocks c.cache)).1⟩).1 location).2.1 =
      ⟨some snapshotBlock,
        (k.filterCanBeSnapped c.blockDB c.indexDB c.stateDB c.cache
          (k.cacheGetUnconfirmedBlocks c.cache)).1⟩ :: restChunks)
    (hredo : k.stateHasRedo (InsertSnapshotBlock k c snapshotBlock).1.stateDB
      snapshotBlock.height = (true, none)) :
    ∃ newUnconfirmed : List AccountBlock,
      cacheRollbackNewUnconfirmed
          ((DeleteSnapshotBlocksToHeight k (InsertSnapshotBlock k c snapshotBlock).1
              snapshotBlock.height).1.trace.drop
            (InsertSnapshotBlock k c snapshotBlock).1.trace.length) =
        [newUnconfirmed] ∧
      blockB ∈ newUnconfirmed := by
  rw [← insert_success_blockDB k c snapshotBlock hins] at hlog
  refine ⟨_, ?_, hB⟩
  rw [(delete_nonempty k _ hv hlog hredo).2, List.drop_left]
  rfl

/-- Witness of the amended C9 on the reference chain with a redo log for height 2. -/
theorem insert_then_delete_readmits_witness :
    Ref.blockB ∈ Ref.collab.cacheGetUnconfirmedBlocks (Ref.chain1 [2]).cache ∧
      (InsertSnapshotBlock Ref.collab (Ref.chain1 [2]) Ref.sb2).2.err = none ∧
      ∃ newUnconfirmed : List AccountBlock,
        cacheRollbackNewUnconfirmed
            ((DeleteSnapshotBlocksToHeight Ref.collab
                (InsertSnapshotBlock Ref.collab (Ref.chain1 [2]) Ref.sb2).1 2).1.trace.drop
              (InsertSnapshotBlock Ref.collab (Ref.chain1 [2]) Ref.sb2).1.trace.length) =
          [newUnconfirmed] ∧
        Ref.blockB ∈ newUnconfirmed :=
  ⟨by decide, rfl,
    insert_then_delete_readmits Ref.collab (Ref.chain1 [2]) Ref.sb2 Ref.blockB ⟨0, 1⟩ []
      rfl (by decide) rfl ⟨by decide, by decide, some ⟨0, 0⟩, rfl, rfl⟩ rfl rfl⟩

/-- C9 as stated fails: on the reference chain with latest height 1 whose
state store keeps no redo log, the unconfirmed block `blockB` can be snapped,
the insert of the snapshot of height 2 and the delete back to height 2 both
succeed, and the newly-unconfirmed set passed to the Cache rollback is empty:
`blockB` is not re-admitted. -/
theorem insert_then_delete_without_redo_drops_block :
    (GetLatestSnapshotBlock Ref.collab (Ref.chain1 [])).height = 1 ∧
      Ref.sb2.height = 2 ∧
      Ref.blockB ∈ (Ref.collab.filterCanBeSnapped (Ref.chain1 []).blockDB
        (Ref.chain1 []).indexDB (Ref.chain1 []).stateDB (Ref.chain1 []).cache
        (Ref.collab.cacheGetUnconfirmedBlocks (Ref.chain1 []).cache)).1 ∧
      (InsertSnapshotBlock Ref.collab (Ref.chain1 []) Ref.sb2).2.err = none ∧
      (DeleteSnapshotBlocksToHeight Ref.collab
        (InsertSnapshotBlock Ref.collab (Ref.chain1 []) Ref.sb2).1 2).2.err = none ∧
      cacheRollbackNewUnconfirmed
          ((DeleteSnapshotBlocksToHeight Ref.collab
              (InsertSnapshotBlock Ref.collab (Ref.chain1 []) Ref.sb2).1 2).1.trace.drop
            (InsertSnapshotBlock Ref.collab (Ref.chain1 []) Ref.sb2).1.trace.length) = [[]] ∧
      ¬ ∃ newUnconfirmed ∈ cacheRollbackNewUnconfirmed
          ((DeleteSnapshotBlocksToHeight Ref.collab
              (InsertSnapshotBlock Ref.collab (Ref.chain1 []) Ref.sb2).1 2).1.trace.drop
            (InsertSnapshotBlock Ref.collab (Ref.chain1 []) Ref.sb2).1.trace.length),
        Ref.blockB ∈ newUnconfirmed := by
  decide

/-- C10: `InsertAccountBlock` always fires the prepare event and then adds the
block to the Unconfirmed Cache, and the block stays in the cache; it returns
nil exactly when both the Index Store write and the State Store write
succeed, and it fires the `insertAccountBlocks` completion event exactly
then; when the Index Store write fails it returns an error, does not attempt
the State Store write and does not fire the completion event. -/
theorem insertAccountBlock_contract (vmAccountBlock : VmAccountBlock) :
    (∃ rest : List Effect,
      (InsertAccountBlock k c vmAccountBlock).1.trace =
        c.trace ++
          [Effect.pmTrigger EventKind.prepareInsertAbsEvent [vmAccountBlock] [] [],
           Effect.cacheInsertAccountBlock vmAccountBlock.accountBlock] ++ rest) ∧
      (InsertAccountBlock k c vmAccountBlock).1.cache =
        k.cacheInsertAccountBlock c.cache vmAccountBlock.accountBlock ∧
      ((InsertAccountBlock k c vmAccountBlock).2 = none ↔
        ((k.indexInsertAccountBlock c.indexDB vmAccountBlock).2 = none ∧
          (k.stateWrite c.stateDB vmAccountBlock).2 = none)) ∧
      (firesInsertAbsEvent
          ((InsertAccountBlock k c vmAccountBlock).1.trace.drop c.trace.length) = true ↔
        ((k.indexInsertAccountBlock c.indexDB vmAccountBlock).2 = none ∧
          (k.stateWrite c.stateDB vmAccountBlock).2 = none)) ∧
      ((k.indexInsertAccountBlock c.indexDB vmAccountBlock).2 ≠ none →
        (InsertAccountBlock k c vmAccountBlock).2.isSome = true ∧
        attemptsStateWrite
          ((InsertAccountBlock k c vmAccountBlock).1.trace.drop c.trace.length) = false ∧
        firesInsertAbsEvent
          ((InsertAccountBlock k c vmAccountBlock).1.trace.drop c.trace.length) = false) := by
  cases hi : (k.indexInsertAccountBlock c.indexDB vmAccountBlock).2 <;>
    cases hs : (k.stateWrite c.stateDB vmAccountBlock).2 <;>
    simp [InsertAccountBlock, hi, hs, firesInsertAbsEvent, attemptsStateWrite]

/-- Witness of C10 on the reference chain whose index store fails to insert. -/
theorem insertAccountBlock_contract_witness :
    (Ref.collab.indexInsertAccountBlock Ref.chain1IndexBroken.indexDB Ref.vmBlockA).2 ≠ none ∧
      (InsertAccountBlock Ref.collab Ref.chain1IndexBroken Ref.vmBlockA).2.isSome = true ∧
      attemptsStateWrite
        (InsertAccountBlock Ref.collab Ref.chain1IndexBroken Ref.vmBlockA).1.trace = false ∧
      firesInsertAbsEvent
        (InsertAccountBlock Ref.collab Ref.chain1IndexBroken Ref.vmBlockA).1.trace = false :=
  ⟨by decide,
    (insertAccountBlock_contract Ref.collab Ref.chain1IndexBroken Ref.vmBlockA).2.2.2.2
      (by decide)⟩

end Insertion

/-! ## Shape of a snapshot insertion -/

section InsertShape

variable (k : Collab B I S C) (c : Chain B I S C)

/-- When the block log append fails the call stops right after it. -/
theorem insert_write_error (snapshotBlock : SnapshotBlock) {e : GoError}
    (hw : (k.blockDBWrite c.blockDB (insertedSegment k c snapshotBlock)).2.2.2 = some e) :
    (InsertSnapshotBlock k c snapshotBlock).2 =
        ⟨none, some (GoError.wrapped Site.blockDBWrite e)⟩ ∧
      (InsertSnapshotBlock k c snapshotBlock).1.trace =
        c.trace ++
          [Effect.pmTrigger EventKind.prepareInsertSbsEvent [] [] [snapshotBlock],
           Effect.blockDBWrite (insertedSegment k c snapshotBlock)] ∧
      (InsertSnapshotBlock k c snapshotBlock).1.indexDB = c.indexDB ∧
      (InsertSnapshotBlock k c snapshotBlock).1.stateDB = c.stateDB ∧
      (InsertSnapshotBlock k c snapshotBlock).1.cache = c.cache := by
  simp only [insertedSegment, filterPass] at hw ⊢
  rcases hf : k.filterCanBeSnapped c.blockDB c.indexDB c.stateDB c.cache
    (k.cacheGetUnconfirmedBlocks c.cache) with ⟨can, inv, need⟩
  rw [hf] at hw
  rcases hwr : k.blockDBWrite c.blockDB ⟨snapshotBlock, can⟩ with ⟨b1, locs, loc, err⟩
  rw [hwr] at hw
  simp only at hw
  subst hw
  simp [InsertSnapshotBlock, hf, hwr]

/-- A successful call returns the invalid sub-ledger of the filter pass and
runs the nine effects of `InsertSnapshotBlock` in program order. -/
theorem insert_success (snapshotBlock : SnapshotBlock)
    (hok : (InsertSnapshotBlock k c snapshotBlock).2.err = none) :
    (InsertSnapshotBlock k c snapshotBlock).2.invalidSubLedger = some (filterPass k c).2.1 ∧
      (InsertSnapshotBlock k c snapshotBlock).1.trace =
        c.trace ++
          [Effect.pmTrigger EventKind.prepareInsertSbsEvent [] [] [snapshotBlock],
           Effect.blockDBWrite (insertedSegment k c snapshotBlock),
           Effect.indexInsertSnapshotBlock snapshotBlock (k.blocksToMap (filterPass k c).1)
             (k.blockDBWrite c.blockDB (insertedSegment k c snapshotBlock)).2.2.1,
           Effect.stateFlush snapshotBlock.hash (filterPass k c).1,
           Effect.stateDeleteInvalidAccountBlocks (filterPass k c).2.1,
           Effect.indexDeleteInvalidAccountBlocks (filterPass k c).2.1,
           Effect.cacheDeleteUnconfirmedAccountBlocks
             ((filterPass k c).1 ++ (filterPass k c).2.2),
           Effect.cacheInsertSnapshotBlock snapshotBlock,
           Effect.pmTrigger EventKind.InsertSbsEvent [] [] [snapshotBlock]] ∧
      (InsertSnapshotBlock k c snapshotBlock).1.cache =
        k.cacheInsertSnapshotBlock
          (k.cacheDeleteUnconfirmedAccountBlocks c.cache
            ((filterPass k c).1 ++ (filterPass k c).2.2))
          snapshotBlock := by
  simp only [insertedSegment, filterPass] at hok ⊢
  rcases hf : k.filterCanBeSnapped c.blockDB c.indexDB c.stateDB c.cache
    (k.cacheGetUnconfirmedBlocks c.cache) with ⟨can, inv, need⟩
  rcases hw : k.blockDBWrite c.blockDB ⟨snapshotBlock, can⟩ with ⟨b1, locs, loc, err⟩
  cases err with
  | some e => simp [InsertSnapshotBlock, hf, hw] at hok
  | none =>
    cases hi : (k.indexInsertSnapshotBlock c.indexDB snapshotBlock (k.blocksToMap can) loc).2 with
    | some e => simp [InsertSnapshotBlock, hf, hw, hi] at hok
    | none =>
      cases hs : (k.stateFlush c.stateDB snapshotBlock.hash can).2 with
      | some e => simp [InsertSnapshotBlock, hf, hw, hi, hs] at hok
      | none => simp [InsertSnapshotBlock, hf, hw, hi, hs]

/-- A successful call leaves the state store flushed and then purged of the
invalid sub-ledger of the filter pass, and the index store with the snapshot
block inserted and then purged of that sub-ledger. -/
theorem insert_success_stores (snapshotBlock : SnapshotBlock)
    (hok : (InsertSnapshotBlock k c snapshotBlock).2.err = none) :
    (InsertSnapshotBlock k c snapshotBlock).1.stateDB =
        k.stateDeleteInvalidAccountBlocks
          (k.stateFlush c.stateDB snapshotBlock.hash (filterPass k c).1).1
          (filterPass k c).2.1 ∧
      (InsertSnapshotBlock k c snapshotBlock).1.indexDB =
        k.indexDeleteInvalidAccountBlocks
          (k.indexInsertSnapshotBlock c.indexDB snapshotBlock
            (k.blocksToMap (filterPass k c).1)
            (k.blockDBWrite c.blockDB (insertedSegment k c snapshotBlock)).2.2.1).1
          (filterPass k c).2.1 := by
  simp only [insertedSegment, filterPass] at hok ⊢
  rcases hf : k.filterCanBeSnapped c.blockDB c.indexDB c.stateDB c.cache
    (k.cacheGetUnconfirmedBlocks c.cache) with ⟨can, inv, need⟩
  rcases hw : k.blockDBWrite c.blockDB ⟨snapshotBlock, can⟩ with ⟨b1, locs, loc, err⟩
  cases err with
  | some e => simp [InsertSnapshotBlock, hf, hw] at hok
  | none =>
    cases hi : (k.indexInsertSnapshotBlock c.indexDB snapshotBlock (k.blocksToMap can) loc).2 with
    | some e => simp [InsertSnapshotBlock, hf, hw, hi] at hok
    | none =>
      cases hs : (k.stateFlush c.stateDB snapshotBlock.hash can).2 with
      | some e => simp [InsertSnapshotBlock, hf, hw, hi, hs] at hok
      | none => simp [InsertSnapshotBlock, hf, hw, hi, hs]

end InsertShape

/-! ## Snapshot insertion: the claims -/

section SnapshotInsertion

variable (k : Collab B I S C) (c : Chain B I S C)

/-- C11: for every state and snapshot block, if the Block Log append in
`InsertSnapshotBlock` fails, the call returns `(nil, error)`, the Index Store,
the State Store and the Unconfirmed Cache (with its latest-snapshot pointer)
are unchanged and the completion event is not fired. -/
theorem insertSnapshotBlock_append_failure (snapshotBlock : SnapshotBlock) (e : GoError)
    (hw : (k.blockDBWrite c.blockDB (insertedSegment k c snapshotBlock)).2.2.2 = some e) :
    (InsertSnapshotBlock k c snapshotBlock).2.invalidSubLedger = none ∧
      (InsertSnapshotBlock k c snapshotBlock).2.err =
        some (GoError.wrapped Site.blockDBWrite e) ∧
      (InsertSnapshotBlock k c snapshotBlock).1.indexDB = c.indexDB ∧
      (InsertSnapshotBlock k c snapshotBlock).1.stateDB = c.stateDB ∧
      (InsertSnapshotBlock k c snapshotBlock).1.cache = c.cache ∧
      GetLatestSnapshotBlock k (InsertSnapshotBlock k c snapshotBlock).1 =
        GetLatestSnapshotBlock k c ∧
      firesInsertSbsEvent
        ((InsertSnapshotBlock k c snapshotBlock).1.trace.drop c.trace.length) = false := by
  obtain ⟨h1, h2, h3, h4, h5⟩ := insert_write_error k c snapshotBlock hw
  refine ⟨by rw [h1], by rw [h1], h3, h4, h5, ?_, ?_⟩
  · simp only [GetLatestSnapshotBlock, h5]
  · rw [h2, List.drop_left]
    rfl

/-- Witness of C11 on the reference chain with a block log that fails to append. -/
theorem insertSnapshotBlock_append_failure_witness :
    (Ref.collabWriteBroken.blockDBWrite (Ref.chain1 []).blockDB
        (insertedSegment Ref.collabWriteBroken (Ref.chain1 []) Ref.sb2)).2.2.2 =
        some (GoError.store 6) ∧
      (InsertSnapshotBlock Ref.collabWriteBroken (Ref.chain1 []) Ref.sb2).2 =
        ⟨none, some (GoError.wrapped Site.blockDBWrite (GoError.store 6))⟩ ∧
      (InsertSnapshotBlock Ref.collabWriteBroken (Ref.chain1 []) Ref.sb2).1.cache =
        (Ref.chain1 []).cache :=
  ⟨rfl, rfl,
    (insertSnapshotBlock_append_failure Ref.collabWriteBroken (Ref.chain1 []) Ref.sb2
      (GoError.store 6) rfl).2.2.2.2.1⟩

/-- C14 as stated fails: on the reference chain where the filter rejects the
block of address 9, `InsertSnapshotBlock` succeeds and returns the invalid
sub-ledger holding that block, and the one `InsertSbsEvent` completion event
it fires carries the inserted snapshot block only: no account block and no
sub-ledger is part of its payload. -/
theorem insertSnapshotBlock_event_without_subLedger :
    (InsertSnapshotBlock Ref.collabRejecting9 Ref.chainSendReceive Ref.sb2).2 =
        ⟨some [(9, [Ref.blockR])], none⟩ ∧
      insertSbsEventPayloads
        (InsertSnapshotBlock Ref.collabRejecting9 Ref.chainSendReceive Ref.sb2).1.trace =
        [([], [], [Ref.sb2])] ∧
      ¬ ∃ payload ∈ insertSbsEventPayloads
          (InsertSnapshotBlock Ref.collabRejecting9 Ref.chainSendReceive Ref.sb2).1.trace,
        Ref.blockR ∈ payload.2.1 := by
  decide

/-- C14, amended: in every successful `InsertSnapshotBlock` exactly one
`InsertSbsEvent` completion event is fired, as the last effect of the call,
and its payload is the list holding the inserted snapshot block, with no vm
blocks and no account blocks; the invalid sub-ledger of the filter pass is
returned to the caller. -/
theorem insertSnapshotBlock_completion_event (snapshotBlock : SnapshotBlock)
    (hok : (InsertSnapshotBlock k c snapshotBlock).2.err = none) :
    insertSbsEventPayloads
        ((InsertSnapshotBlock k c snapshotBlock).1.trace.drop c.trace.length) =
        [([], [], [snapshotBlock])] ∧
      (InsertSnapshotBlock k c snapshotBlock).1.trace.getLast? =
        some (Effect.pmTrigger EventKind.InsertSbsEvent [] [] [snapshotBlock]) ∧
      (InsertSnapshotBlock k c snapshotBlock).2.invalidSubLedger =
        some (filterPass k c).2.1 := by
  obtain ⟨h1, h2, _⟩ := insert_success k c snapshotBlock hok
  rw [h2, List.drop_left]
  refine ⟨rfl, ?_, h1⟩
  simp

/-- Witness of the amended C14 on the reference chain. -/
theorem insertSnapshotBlock_completion_event_witness :
    (InsertSnapshotBlock Ref.collab (Ref.chain1 []) Ref.sb2).2.err = none ∧
      insertSbsEventPayloads (InsertSnapshotBlock Ref.collab (Ref.chain1 []) Ref.sb2).1.trace =
        [([], [], [Ref.sb2])] :=
  ⟨rfl, (insertSnapshotBlock_completion_event Ref.collab (Ref.chain1 []) Ref.sb2 rfl).1⟩

/-- C15: on success `InsertSnapshotBlock` returns exactly the invalid
sub-ledger produced by the filter pass, and that same value is what is deleted
from the State Store and from the Index Store: the State Store after the call
is the flushed store with `DeleteInvalidAccountBlocks` applied to that value,
the Index Store after the call is the store with the snapshot block inserted
and `DeleteInvalidAccountBlocks` applied to that value, and each store
receives this one purge.  Hence every unconfirmed block the filter puts in the
invalid sub-ledger is in the returned value and in the sub-ledger purged from
the State Store and from the Index Store. -/
theorem insertSnapshotBlock_returns_invalid (snapshotBlock : SnapshotBlock)
    (hok : (InsertSnapshotBlock k c snapshotBlock).2.err = none) :
    (InsertSnapshotBlock k c snapshotBlock).2.invalidSubLedger = some (filterPass k c).2.1 ∧
      (InsertSnapshotBlock k c snapshotBlock).1.stateDB =
        k.stateDeleteInvalidAccountBlocks
          (k.stateFlush c.stateDB snapshotBlock.hash (filterPass k c).1).1
          (filterPass k c).2.1 ∧
      (InsertSnapshotBlock k c snapshotBlock).1.indexDB =
        k.indexDeleteInvalidAccountBlocks
          (k.indexInsertSnapshotBlock c.indexDB snapshotBlock
            (k.blocksToMap (filterPass k c).1)
            (k.blockDBWrite c.blockDB (insertedSegment k c snapshotBlock)).2.2.1).1
          (filterPass k c).2.1 ∧
      statePurged
        ((InsertSnapshotBlock k c snapshotBlock).1.trace.drop c.trace.length) =
        [(filterPass k c).2.1] ∧
      indexPurged
        ((InsertSnapshotBlock k c snapshotBlock).1.trace.drop c.trace.length) =
        [(filterPass k c).2.1] ∧
      ∀ x ∈ blocksOfSubLedger (filterPass k c).2.1,
        ∃ returned : SubLedger,
          (InsertSnapshotBlock k c snapshotBlock).2.invalidSubLedger = some returned ∧
          x ∈ blocksOfSubLedger returned ∧
          (InsertSnapshotBlock k c snapshotBlock).1.stateDB =
            k.stateDeleteInvalidAccountBlocks
              (k.stateFlush c.stateDB snapshotBlock.hash (filterPass k c).1).1 returned ∧
          (InsertSnapshotBlock k c snapshotBlock).1.indexDB =
            k.indexDeleteInvalidAccountBlocks
              (k.indexInsertSnapshotBlock c.indexDB snapshotBlock
                (k.blocksToMap (filterPass k c).1)
                (k.blockDBWrite c.blockDB (insertedSegment k c snapshotBlock)).2.2.1).1
              returned ∧
          statePurged
            ((InsertSnapshotBlock k c snapshotBlock).1.trace.drop c.trace.length) =
            [returned] ∧
          indexPurged
            ((InsertSnapshotBlock k c snapshotBlock).1.trace.drop c.trace.length) =
            [returned] := by
  obtain ⟨h1, h2, _⟩ := insert_success k c snapshotBlock hok
  obtain ⟨h4, h5⟩ := insert_success_stores k c snapshotBlock hok
  rw [h2, List.drop_left]
  exact ⟨h1, h4, h5, rfl, rfl, fun x hx => ⟨_, h1, hx, h4, h5, rfl, rfl⟩⟩

/-- Witness of C15 on the reference chain where the filter rejects the block of
address 9: `blockR` is returned, and after the call the State Store and the
Index Store hold `blockB` only. -/
theorem insertSnapshotBlock_returns_invalid_witness :
    (InsertSnapshotBlock Ref.collabRejecting9 Ref.chainSendReceive Ref.sb2).2.err = none ∧
      (InsertSnapshotBlock Ref.collabRejecting9 Ref.chainSendReceive Ref.sb2).2.invalidSubLedger =
        some [(9, [Ref.blockR])] ∧
      (InsertSnapshotBlock Ref.collabRejecting9 Ref.chainSendReceive Ref.sb2).1.stateDB =
        Ref.collabRejecting9.stateDeleteInvalidAccountBlocks
          (Ref.collabRejecting9.stateFlush Ref.chainSendReceive.stateDB Ref.sb2.hash
            [Ref.blockB]).1 [(9, [Ref.blockR])] ∧
      (InsertSnapshotBlock Ref.collabRejecting9 Ref.chainSendReceive
        Ref.sb2).1.stateDB.written = [Ref.blockB] ∧
      (InsertSnapshotBlock Ref.collabRejecting9 Ref.chainSendReceive
        Ref.sb2).1.indexDB.accountBlocks = [Ref.blockB] :=
  ⟨rfl,
    (insertSnapshotBlock_returns_invalid Ref.collabRejecting9 Ref.chainSendReceive Ref.sb2
      rfl).1,
    (insertSnapshotBlock_returns_invalid Ref.collabRejecting9 Ref.chainSendReceive Ref.sb2
      rfl).2.1,
    by decide, by decide⟩

/-- C16 as stated fails: on the reference chain with latest snapshot height 1,
`InsertSnapshotBlock` of a snapshot block of height 5 succeeds and the latest
snapshot height observed afterwards is 5, not 2. -/
theorem insertSnapshotBlock_height_jump :
    (GetLatestSnapshotBlock Ref.collab (Ref.chain1 [])).height = 1 ∧
      (InsertSnapshotBlock Ref.collab (Ref.chain1 []) Ref.sb5).2.err = none ∧
      (GetLatestSnapshotBlock Ref.collab
        (InsertSnapshotBlock Ref.collab (Ref.chain1 []) Ref.sb5).1).height = 5 := by
  decide

/-- C16, amended: after every successful `InsertSnapshotBlock`, with a cache
whose latest-snapshot pointer is the block last inserted, the latest snapshot
block observed via `GetLatestSnapshotBlock` is the inserted block; so the
latest height is one more than before the call exactly when the caller
inserts a block whose height is one more than the latest height (the
coordinator does not check the height). -/
theorem insertSnapshotBlock_latest (snapshotBlock : SnapshotBlock)
    (hok : (InsertSnapshotBlock k c snapshotBlock).2.err = none)
    (hcache : ∀ cache : C,
      k.cacheGetLatestSnapshotBlock (k.cacheInsertSnapshotBlock cache snapshotBlock) =
        snapshotBlock) :
    GetLatestSnapshotBlock k (InsertSnapshotBlock k c snapshotBlock).1 = snapshotBlock ∧
      ((GetLatestSnapshotBlock k (InsertSnapshotBlock k c snapshotBlock).1).height =
          (GetLatestSnapshotBlock k c).height + 1 ↔
        snapshotBlock.height = (GetLatestSnapshotBlock k c).height + 1) := by
  obtain ⟨_, _, h3⟩ := insert_success k c snapshotBlock hok
  have h : GetLatestSnapshotBlock k (InsertSnapshotBlock k c snapshotBlock).1 =
      snapshotBlock := by
    simp only [GetLatestSnapshotBlock, h3, hcache]
  exact ⟨h, by rw [h]⟩

/-- Witness of the amended C16 on the reference chain: inserting the snapshot
block of height 2 on latest height 1. -/
theorem insertSnapshotBlock_latest_witness :
    (InsertSnapshotBlock Ref.collab (Ref.chain1 []) Ref.sb2).2.err = none ∧
      (GetLatestSnapshotBlock Ref.collab (Ref.chain1 [])).height = 1 ∧
      GetLatestSnapshotBlock Ref.collab
        (InsertSnapshotBlock Ref.collab (Ref.chain1 []) Ref.sb2).1 = Ref.sb2 :=
  ⟨rfl, rfl,
    (insertSnapshotBlock_latest Ref.collab (Ref.chain1 []) Ref.sb2 rfl
      (fun cache => by simp [Ref.collab, List.getLastD_concat])).1⟩

end SnapshotInsertion

/-! ## Account block deletion: the claims -/

section AccountDeletion

variable (k : Collab B I S C) (c : Chain B I S C)

/-- The scan finds nothing when no block matches the target. -/
theorem planDeleteBlocks_eq_nil (toHeight : Nat) (toHash : Option Hash)
    (l : List AccountBlock)
    (h : ∀ b ∈ l, ¬ (toHash = some b.hash ∨ (toHeight > 0 ∧ b.height = toHeight))) :
    planDeleteBlocks toHeight toHash l = [] := by
  induction l with
  | nil => rfl
  | cons b rest ih =>
    have hb := h b (List.mem_cons_self b rest)
    simp only [planDeleteBlocks, hb, if_false]
    exact ih fun x hx => h x (List.mem_cons_of_mem b hx)

/-- A block of the scanned list is in the slice found for its own hash. -/
theorem mem_planDeleteBlocks_hash (toHeight : Nat) (s : AccountBlock) (l : List AccountBlock)
    (hs : s ∈ l) : s ∈ planDeleteBlocks toHeight (some s.hash) l := by
  induction l with
  | nil => cases hs
  | cons b rest ih =>
    by_cases hb : some s.hash = some b.hash ∨ (toHeight > 0 ∧ b.height = toHeight)
    · simp only [planDeleteBlocks, hb, if_true]
      exact hs
    · simp only [planDeleteBlocks, hb, if_false]
      rcases List.mem_cons.1 hs with h | h
      · exact absurd (Or.inl (by rw [h])) hb
      · exact ih h

/-- The effects of `deleteAccountBlocks`, whatever the three rollbacks return. -/
theorem deleteAccountBlocks_trace (blocks : List AccountBlock) :
    (deleteAccountBlocks k c blocks).trace =
      c.trace ++
        [Effect.emTrigger EventKind.prepareDeleteAbsEvent [] blocks [] [],
         Effect.indexRollbackAccountBlocks blocks,
         Effect.cacheRollbackAccountBlocks blocks,
         Effect.stateRollbackAccountBlocks blocks,
         Effect.emTrigger EventKind.DeleteAbsEvent [] blocks [] []] := by
  simp [deleteAccountBlocks]

/-- A call whose scan finds nothing returns `(nil, error)` after a log line only. -/
theorem deleteAbs_no_match (addr : Address) (toHeight : Nat) (toHash : Option Hash)
    (h : ∀ b ∈ k.cacheGetUnconfirmedBlocks c.cache,
      ¬ (toHash = some b.hash ∨ (toHeight > 0 ∧ b.height = toHeight))) :
    RejectedAbsCleanly c (deleteAccountBlockByHeightOrHash k c addr toHeight toHash) := by
  have hp := planDeleteBlocks_eq_nil toHeight toHash _ h
  unfold deleteAccountBlockByHeightOrHash
  by_cases hl : (k.cacheGetUnconfirmedBlocks c.cache).length ≤ 0
  · simp [hl, RejectedAbsCleanly, Untouched]
  · simp [hl, hp, RejectedAbsCleanly, Untouched]

/-- A call whose scan finds a block returns the dependency closure of the
slice found and hands it to `deleteAccountBlocks`. -/
theorem deleteAbs_match (addr : Address) (toHeight : Nat) (toHash : Option Hash)
    (h : planDeleteBlocks toHeight toHash (k.cacheGetUnconfirmedBlocks c.cache) ≠ []) :
    deleteAccountBlockByHeightOrHash k c addr toHeight toHash =
      (deleteAccountBlocks k c
          (k.computeDependencies c.blockDB c.indexDB c.stateDB c.cache
            (planDeleteBlocks toHeight toHash (k.cacheGetUnconfirmedBlocks c.cache))),
        ⟨some (k.computeDependencies c.blockDB c.indexDB c.stateDB c.cache
            (planDeleteBlocks toHeight toHash (k.cacheGetUnconfirmedBlocks c.cache))),
          none⟩) := by
  have hu : ¬ (k.cacheGetUnconfirmedBlocks c.cache).length ≤ 0 := by
    intro hl
    have : k.cacheGetUnconfirmedBlocks c.cache = [] := List.length_eq_zero.1 (by omega)
    rw [this] at h
    exact h rfl
  have hp : ¬ (planDeleteBlocks toHeight toHash
      (k.cacheGetUnconfirmedBlocks c.cache)).length ≤ 0 := by
    intro hl
    exact h (List.length_eq_zero.1 (by omega))
  simp only [deleteAccountBlockByHeightOrHash, hu, hp, if_false]

/-- C17, as the code runs: on the reference chain whose only unconfirmed block
`blockB` belongs to address 8, address 7 has no unconfirmed block, and yet
`DeleteAccountBlocksToHeight(7, 1)` and `DeleteAccountBlocks(7, 81)` both return
`([blockB], nil)` and remove `blockB` from the cache: the scan runs over the
unconfirmed blocks of every address. -/
theorem deleteAccountBlocks_other_address :
    (Ref.collab.cacheGetUnconfirmedBlocks (Ref.chain1 []).cache).filter
        (fun b => decide (b.accountAddress = 7)) = [] ∧
      Ref.collab.cacheGetUnconfirmedBlocks (Ref.chain1 []).cache = [Ref.blockB] ∧
      (DeleteAccountBlocksToHeight Ref.collab (Ref.chain1 []) 7 1).2 =
        ⟨some [Ref.blockB], none⟩ ∧
      (DeleteAccountBlocks Ref.collab (Ref.chain1 []) 7 81).2 = ⟨some [Ref.blockB], none⟩ ∧
      Ref.collab.cacheGetUnconfirmedBlocks
        (DeleteAccountBlocksToHeight Ref.collab (Ref.chain1 []) 7 1).1.cache = [] ∧
      Ref.collab.cacheGetUnconfirmedBlocks
        (DeleteAccountBlocks Ref.collab (Ref.chain1 []) 7 81).1.cache = [] := by
  decide

/-- C18, as the code runs: on the reference chain whose unconfirmed blocks are
`blockA` of address 7 followed by the unrelated `blockB` of address 8, the
slice scanned for the hash of `blockA` is `[blockA, blockB]`, which holds a
block of address 8, where the candidate set of the spec for address 7 is
`[blockA]`; and the slice scanned for height 1 on behalf of address 8 starts
at `blockA`, a block of address 7, where the candidate set of the spec is
`[blockB]`.  Both calls delete both blocks. -/
theorem deleteAccountBlocks_candidates_cross_addresses :
    Ref.collab.cacheGetUnconfirmedBlocks Ref.chainTwoAccounts.cache =
        [Ref.blockA, Ref.blockB] ∧
      Ref.blockA.accountAddress = 7 ∧ Ref.blockB.accountAddress = 8 ∧
      planDeleteBlocks 0 (some Ref.blockA.hash)
        (Ref.collab.cacheGetUnconfirmedBlocks Ref.chainTwoAccounts.cache) =
        [Ref.blockA, Ref.blockB] ∧
      specCandidateSet 7 0 (some Ref.blockA.hash)
        (Ref.collab.cacheGetUnconfirmedBlocks Ref.chainTwoAccounts.cache) = [Ref.blockA] ∧
      (DeleteAccountBlocks Ref.collab Ref.chainTwoAccounts 7 Ref.blockA.hash).2 =
        ⟨some [Ref.blockA, Ref.blockB], none⟩ ∧
      planDeleteBlocks 1 none
        (Ref.collab.cacheGetUnconfirmedBlocks Ref.chainTwoAccounts.cache) =
        [Ref.blockA, Ref.blockB] ∧
      specCandidateSet 8 1 none
        (Ref.collab.cacheGetUnconfirmedBlocks Ref.chainTwoAccounts.cache) = [Ref.blockB] ∧
      (DeleteAccountBlocksToHeight Ref.collab Ref.chainTwoAccounts 8 1).2 =
        ⟨some [Ref.blockA, Ref.blockB], none⟩ := by
  decide

/-- C19: for every state in which no scanned unconfirmed block matches the
target (the hash for `DeleteAccountBlocks`, the height for
`DeleteAccountBlocksToHeight`), the call returns `(nil, error)` without firing
any event and without rolling back the Index Store, the Cache or the State
Store; in particular `DeleteAccountBlocksToHeight(addr, 0)` always fails this
way. -/
theorem deleteAccountBlocks_no_match_rejected :
    (∀ (addr : Address) (toHash : Hash),
      (∀ b ∈ k.cacheGetUnconfirmedBlocks c.cache, b.hash ≠ toHash) →
        RejectedAbsCleanly c (DeleteAccountBlocks k c addr toHash)) ∧
      (∀ (addr : Address) (toHeight : Nat),
        (∀ b ∈ k.cacheGetUnconfirmedBlocks c.cache, b.height ≠ toHeight) →
          RejectedAbsCleanly c (DeleteAccountBlocksToHeight k c addr toHeight)) ∧
      ∀ addr : Address, RejectedAbsCleanly c (DeleteAccountBlocksToHeight k c addr 0) := by
  refine ⟨?_, ?_, ?_⟩
  · intro addr toHash h
    apply deleteAbs_no_match
    intro b hb hm
    rcases hm with hm | hm
    · exact h b hb (Option.some.inj hm).symm
    · omega
  · intro addr toHeight h
    apply deleteAbs_no_match
    intro b hb hm
    rcases hm with hm | hm
    · cases hm
    · exact h b hb hm.2
  · intro addr
    apply deleteAbs_no_match
    intro b _ hm
    rcases hm with hm | hm
    · cases hm
    · omega

/-- Witness of C19 on the reference chain: no unconfirmed block has hash 99. -/
theorem deleteAccountBlocks_no_match_rejected_witness :
    (∀ b ∈ Ref.collab.cacheGetUnconfirmedBlocks Ref.chainTwoAccounts.cache, b.hash ≠ 99) ∧
      RejectedAbsCleanly Ref.chainTwoAccounts
        (DeleteAccountBlocks Ref.collab Ref.chainTwoAccounts 7 99) :=
  ⟨by decide,
    (deleteAccountBlocks_no_match_rejected Ref.collab Ref.chainTwoAccounts).1 7 99 (by decide)⟩

/-- C20: for every cache state containing an unconfirmed block `S` and an
unconfirmed block `R` with `R.fromBlockHash = S.hash`, where
`computeDependencies` returns the dependency closure of the slice it is given,
`DeleteAccountBlocks(S.address, S.hash)` succeeds and returns a list containing
both `S` and `R`; the returned list is what is handed to the prepare event, to
the Index, Cache and State `RollbackAccountBlocks` calls, in that order, and
to the completion event, and these are all the effects of the call. -/
theorem deleteAccountBlocks_dependency_closure (blockS blockR : AccountBlock)
    (hS : blockS ∈ k.cacheGetUnconfirmedBlocks c.cache)
    (hR : blockR ∈ k.cacheGetUnconfirmedBlocks c.cache)
    (hlink : blockR.fromBlockHash = blockS.hash)
    (hclosure : DependencyClosure (k.cacheGetUnconfirmedBlocks c.cache)
      (planDeleteBlocks 0 (some blockS.hash) (k.cacheGetUnconfirmedBlocks c.cache))
      (k.computeDependencies c.blockDB c.indexDB c.stateDB c.cache
        (planDeleteBlocks 0 (some blockS.hash) (k.cacheGetUnconfirmedBlocks c.cache)))) :
    ∃ returned : List AccountBlock,
      (DeleteAccountBlocks k c blockS.accountAddress blockS.hash).2 = ⟨some returned, none⟩ ∧
      blockS ∈ returned ∧ blockR ∈ returned ∧
      (DeleteAccountBlocks k c blockS.accountAddress blockS.hash).1.trace =
        c.trace ++
          [Effect.emTrigger EventKind.prepareDeleteAbsEvent [] returned [] [],
           Effect.indexRollbackAccountBlocks returned,
           Effect.cacheRollbackAccountBlocks returned,
           Effect.stateRollbackAccountBlocks returned,
           Effect.emTrigger EventKind.DeleteAbsEvent [] returned [] []] := by
  have hmem := mem_planDeleteBlocks_hash 0 blockS _ hS
  have hne : planDeleteBlocks 0 (some blockS.hash)
      (k.cacheGetUnconfirmedBlocks c.cache) ≠ [] := List.ne_nil_of_mem hmem
  have hSr := hclosure.1 blockS hmem
  have hRr := hclosure.2 blockR hR blockS hSr hlink
  refine ⟨_, ?_, hSr, hRr, ?_⟩
  · simp only [DeleteAccountBlocks, deleteAbs_match k c _ 0 _ hne]
  · simp only [DeleteAccountBlocks, deleteAbs_match k c _ 0 _ hne]
    exact deleteAccountBlocks_trace k c _

/-- Witness of C20 on the reference chain where `blockR` receives from `blockB`. -/
theorem deleteAccountBlocks_dependency_closure_witness :
    Ref.blockB ∈ Ref.collab.cacheGetUnconfirmedBlocks Ref.chainSendReceive.cache ∧
      Ref.blockR ∈ Ref.collab.cacheGetUnconfirmedBlocks Ref.chainSendReceive.cache ∧
      Ref.blockR.fromBlockHash = Ref.blockB.hash ∧
      ∃ returned : List AccountBlock,
        (DeleteAccountBlocks Ref.collab Ref.chainSendReceive 8 81).2 = ⟨some returned, none⟩ ∧
        Ref.blockB ∈ returned ∧ Ref.blockR ∈ returned :=
  ⟨by decide, by decide, rfl,
    match deleteAccountBlocks_dependency_closure Ref.collab Ref.chainSendReceive Ref.blockB
      Ref.blockR (by decide) (by decide) rfl (by decide) with
    | ⟨returned, h1, h2, h3, _⟩ => ⟨returned, h1, h2, h3⟩⟩

end AccountDeletion

/-! ## The ledger reader: the claims -/

section LedgerReader

variable (k : Collab B I S C) (c : Chain B I S C) (s : ReaderStore B) (b : B)

/-- A `Read` on a reader whose cursor is set and whose request length is not
negative returns, after one `ReadRaw` call of that length at the cursor. -/
theorem read_shape (reader : ledgerReader) (lenP : Nat) (cursor : Location)
    (hcur : reader.currentLocation = some cursor)
    (hneg : ¬ (if s.Distance (s.FileSize b) cursor reader.toLocation ≤ (lenP : Int) then
      s.Distance (s.FileSize b) cursor reader.toLocation else (lenP : Int)) < 0) :
    reader.Read s b lenP =
      Outcome.returned
        { reader :=
            { reader with
              currentLocation :=
                (s.ReadRaw b cursor
                  (if s.Distance (s.FileSize b) cursor reader.toLocation ≤ (lenP : Int) then
                    s.Distance (s.FileSize b) cursor reader.toLocation
                  else (lenP : Int)).toNat).1 },
          n := (s.ReadRaw b cursor
            (if s.Distance (s.FileSize b) cursor reader.toLocation ≤ (lenP : Int) then
              s.Distance (s.FileSize b) cursor reader.toLocation else (lenP : Int)).toNat).2.1,
          err :=
            match (s.ReadRaw b cursor
              (if s.Distance (s.FileSize b) cursor reader.toLocation ≤ (lenP : Int) then
                s.Distance (s.FileSize b) cursor reader.toLocation
              else (lenP : Int)).toNat).2.2 with
            | some e => some (ReaderError.store e)
            | none =>
              if s.Distance (s.FileSize b) cursor reader.toLocation ≤ (lenP : Int) then
                some ReaderError.EOF
              else none,
          rawRead :=
            (cursor,
              (if s.Distance (s.FileSize b) cursor reader.toLocation ≤ (lenP : Int) then
                s.Distance (s.FileSize b) cursor reader.toLocation else (lenP : Int)).toNat) } := by
  unfold ledgerReader.Read
  simp only [hcur]
  rw [if_neg hneg]
  split <;> rename_i he <;> simp [he]

/-- A `Read` that returns changes nothing of the reader but its cursor. -/
theorem read_keeps_bounds (reader : ledgerReader) (lenP : Nat) (res : ReadResult)
    (h : reader.Read s b lenP = Outcome.returned res) :
    res.reader.fromHeight = reader.fromHeight ∧ res.reader.toHeight = reader.toHeight ∧
      res.reader.fromLocation = reader.fromLocation ∧
      res.reader.toLocation = reader.toLocation := by
  cases hcur : reader.currentLocation with
  | none => simp [ledgerReader.Read, hcur] at h
  | some cursor =>
    by_cases hneg : (if s.Distance (s.FileSize b) cursor reader.toLocation ≤ (lenP : Int) then
        s.Distance (s.FileSize b) cursor reader.toLocation else (lenP : Int)) < 0
    · simp [ledgerReader.Read, hcur, hneg] at h
    · rw [read_shape s b reader lenP cursor hcur hneg] at h
      injection h with h
      subst h
      exact ⟨rfl, rfl, rfl, rfl⟩

/-- C21: `GetLedgerReaderByHeight(from, to)` returns an error and no reader if
`from = 0`, or `from > to`, or `to` is above the latest snapshot height, or the
Index Store lookup of either boundary height fails or yields no location;
otherwise it returns, with a nil error, a reader whose bounds are `(from, to)`,
whose cursor is at the location of height `from` and whose upper bound is the
location of height `to`. -/
theorem getLedgerReaderByHeight_contract (startHeight endHeight : Nat) :
    ((startHeight = 0 ∨ startHeight > endHeight ∨
        endHeight > (GetLatestSnapshotBlock k c).height ∨
        (k.indexGetSnapshotBlockLocation c.indexDB startHeight).2 ≠ none ∨
        (k.indexGetSnapshotBlockLocation c.indexDB startHeight).1 = none ∨
        (k.indexGetSnapshotBlockLocation c.indexDB endHeight).2 ≠ none ∨
        (k.indexGetSnapshotBlockLocation c.indexDB endHeight).1 = none) →
      (GetLedgerReaderByHeight k c startHeight endHeight).1 = none ∧
      (GetLedgerReaderByHeight k c startHeight endHeight).2.isSome = true) ∧
    ∀ fromLocation toLocation : Location,
      startHeight ≠ 0 → startHeight ≤ endHeight →
      endHeight ≤ (GetLatestSnapshotBlock k c).height →
      k.indexGetSnapshotBlockLocation c.indexDB startHeight = (some fromLocation, none) →
      k.indexGetSnapshotBlockLocation c.indexDB endHeight = (some toLocation, none) →
      ∃ reader : ledgerReader,
        GetLedgerReaderByHeight k c startHeight endHeight = (some reader, none) ∧
        reader.Bound = (startHeight, endHeight) ∧
        reader.currentLocation = some fromLocation ∧
        reader.fromLocation = fromLocation ∧
        reader.toLocation = toLocation := by
  constructor
  · intro h
    unfold GetLedgerReaderByHeight
    by_cases h1 : startHeight ≤ 0
    · simp [h1]
    by_cases h2 : startHeight > endHeight
    · simp [h1, h2]
    by_cases h3 : endHeight > (GetLatestSnapshotBlock k c).height
    · simp [h1, h2, h3]
    simp only [h1, h2, h3, if_false]
    have h' : (k.indexGetSnapshotBlockLocation c.indexDB startHeight).2 ≠ none ∨
        (k.indexGetSnapshotBlockLocation c.indexDB startHeight).1 = none ∨
        (k.indexGetSnapshotBlockLocation c.indexDB endHeight).2 ≠ none ∨
        (k.indexGetSnapshotBlockLocation c.indexDB endHeight).1 = none := by
      rcases h with h | h | h | h
      · omega
      · exact absurd h h2
      · exact absurd h h3
      · exact h
    unfold newLedgerReader
    rcases hf : k.indexGetSnapshotBlockLocation c.indexDB startHeight with ⟨lf, ef⟩
    rcases ht : k.indexGetSnapshotBlockLocation c.indexDB endHeight with ⟨lt, et⟩
    rw [hf, ht] at h'
    cases ef with
    | some e => simp
    | none =>
      cases lf with
      | none => simp
      | some fromLocation =>
        cases et with
        | some e => simp
        | none =>
          cases lt with
          | none => simp
          | some toLocation => simp at h'
  · intro fromLocation toLocation h0 hle hlatest hf ht
    have h1 : ¬ startHeight ≤ 0 := by omega
    have h2 : ¬ startHeight > endHeight := by omega
    have h3 : ¬ endHeight > (GetLatestSnapshotBlock k c).height := by omega
    refine ⟨⟨startHeight, endHeight, fromLocation, toLocation, some fromLocation⟩,
      ?_, rfl, rfl, rfl, rfl⟩
    simp only [GetLedgerReaderByHeight, newLedgerReader, h1, h2, h3, if_false, hf, ht]

/-- Witness of C21 on the reference chain: heights 1 to 3 are refused, the
latest height being 2. -/
theorem getLedgerReaderByHeight_contract_witness :
    (GetLatestSnapshotBlock Ref.collab Ref.chain2Offsets).height = 2 ∧
      (GetLedgerReaderByHeight Ref.collab Ref.chain2Offsets 1 3).1 = none ∧
      (GetLedgerReaderByHeight Ref.collab Ref.chain2Offsets 1 3).2.isSome = true :=
  ⟨rfl,
    (getLedgerReaderByHeight_contract Ref.collab Ref.chain2Offsets 1 3).1
      (Or.inr (Or.inr (Or.inl (by decide))))⟩

/-- C22 as stated fails: the reference reader over 10 bytes, after a `Read`
with a 4-byte buffer, has its cursor 6 bytes below the upper bound, and its
`Size()` is still 10. -/
theorem ledgerReader_size_after_read :
    ∃ res : ReadResult,
      Ref.reader10.Read Ref.readerStore Ref.chain2Offsets.blockDB 4 = Outcome.returned res ∧
      res.reader.currentLocation = some ⟨0, 4⟩ ∧
      Ref.readerStore.Distance (Ref.readerStore.FileSize Ref.chain2Offsets.blockDB) ⟨0, 4⟩
        res.reader.toLocation = 6 ∧
      res.reader.Size Ref.readerStore Ref.chain2Offsets.blockDB = 10 :=
  ⟨_, rfl, rfl, by decide, by decide⟩

/-- C22, amended: for every ledger reader state, `Size()` is the byte distance
between the reader's start location `fromLocation` and its upper-bound
location; `Read` and `Close` leave it unchanged, so it is the distance from
the cursor only while the cursor is at `fromLocation`. -/
theorem ledgerReader_size_fixed (reader : ledgerReader) :
    reader.Size s b = s.Distance (s.FileSize b) reader.fromLocation reader.toLocation ∧
      (∀ (lenP : Nat) (res : ReadResult),
        reader.Read s b lenP = Outcome.returned res →
          res.reader.Size s b = reader.Size s b) ∧
      reader.Close.1.Size s b = reader.Size s b ∧
      ∀ cursor : Location, reader.currentLocation = some cursor →
        cursor = reader.fromLocation →
          reader.Size s b = s.Distance (s.FileSize b) cursor reader.toLocation := by
  refine ⟨rfl, ?_, rfl, ?_⟩
  · intro lenP res h
    obtain ⟨_, _, h3, h4⟩ := read_keeps_bounds s b reader lenP res h
    simp only [ledgerReader.Size, h3, h4]
  · intro cursor _ hc
    rw [hc]
    rfl

/-- Witness of the amended C22 on the reference reader. -/
theorem ledgerReader_size_fixed_witness :
    ∃ res : ReadResult,
      Ref.reader10.Read Ref.readerStore Ref.chain2Offsets.blockDB 4 = Outcome.returned res ∧
      res.reader.Size Ref.readerStore Ref.chain2Offsets.blockDB =
        Ref.reader10.Size Ref.readerStore Ref.chain2Offsets.blockDB :=
  ⟨_, rfl,
    (ledgerReader_size_fixed Ref.readerStore Ref.chain2Offsets.blockDB Ref.reader10).2.1 4 _
      rfl⟩

end LedgerReader

section LedgerReaderReads

variable (k : Collab B I S C) (c : Chain B I S C) (s : ReaderStore B) (b : B)

/-- C23: for every ledger reader whose cursor is at distance `rem ≥ 0` from the
upper bound and every buffer length, `Read` returns after requesting exactly
`min(rem, len(p))` bytes from the Block Log, starting at the cursor; the
request is at most `len(p)` and at most `rem` bytes, and the returned `n` is
the store's, so it is at most `len(p)` whenever the store returns no more than
it was asked for.  When the raw read succeeds the cursor is the location the
store returned, end-of-stream is returned exactly when `rem ≤ len(p)`, and a
nil error otherwise. -/
theorem ledgerReader_read_contract (reader : ledgerReader) (lenP : Nat) (cursor : Location)
    (hcur : reader.currentLocation = some cursor)
    (hrem : 0 ≤ s.Distance (s.FileSize b) cursor reader.toLocation) :
    ∃ res : ReadResult,
      reader.Read s b lenP = Outcome.returned res ∧
      res.rawRead =
        (cursor, (min (s.Distance (s.FileSize b) cursor reader.toLocation) (lenP : Int)).toNat) ∧
      (min (s.Distance (s.FileSize b) cursor reader.toLocation) (lenP : Int)).toNat ≤ lenP ∧
      ((min (s.Distance (s.FileSize b) cursor reader.toLocation) (lenP : Int)).toNat : Int) ≤
        s.Distance (s.FileSize b) cursor reader.toLocation ∧
      res.n = (s.ReadRaw b cursor res.rawRead.2).2.1 ∧
      ((s.ReadRaw b cursor res.rawRead.2).2.1 ≤ (res.rawRead.2 : Int) → res.n ≤ (lenP : Int)) ∧
      ((s.ReadRaw b cursor res.rawRead.2).2.2 = none →
        res.reader.currentLocation = (s.ReadRaw b cursor res.rawRead.2).1 ∧
        (res.err = some ReaderError.EOF ↔
          s.Distance (s.FileSize b) cursor reader.toLocation ≤ (lenP : Int)) ∧
        (¬ s.Distance (s.FileSize b) cursor reader.toLocation ≤ (lenP : Int) →
          res.err = none)) := by
  have hneg : ¬ (if s.Distance (s.FileSize b) cursor reader.toLocation ≤ (lenP : Int) then
      s.Distance (s.FileSize b) cursor reader.toLocation else (lenP : Int)) < 0 := by
    split <;> omega
  have hmin : min (s.Distance (s.FileSize b) cursor reader.toLocation) (lenP : Int) =
      if s.Distance (s.FileSize b) cursor reader.toLocation ≤ (lenP : Int) then
        s.Distance (s.FileSize b) cursor reader.toLocation else (lenP : Int) := min_def _ _
  refine ⟨_, read_shape s b reader lenP cursor hcur hneg, ?_, ?_, ?_, rfl, ?_, ?_⟩
  · rw [hmin]
  · rw [hmin]
    split <;> omega
  · rw [hmin]
    split <;> omega
  · intro h
    refine le_trans h ?_
    show (((if s.Distance (s.FileSize b) cursor reader.toLocation ≤ (lenP : Int) then
      s.Distance (s.FileSize b) cursor reader.toLocation else (lenP : Int)).toNat : Nat) : Int) ≤
      (lenP : Int)
    split <;> omega
  · intro h
    have h' : (s.ReadRaw b cursor
        (if s.Distance (s.FileSize b) cursor reader.toLocation ≤ (lenP : Int) then
          s.Distance (s.FileSize b) cursor reader.toLocation else (lenP : Int)).toNat).2.2 =
        none := h
    refine ⟨rfl, ?_, ?_⟩
    · simp only [h']
      by_cases hle : s.Distance (s.FileSize b) cursor reader.toLocation ≤ (lenP : Int) <;>
        simp [hle]
    · intro hle
      simp only [h']
      simp [hle]

/-- Witness of C23 on the reference reader: 4 of the 10 bytes are requested. -/
theorem ledgerReader_read_contract_witness :
    Ref.reader10.currentLocation = some ⟨0, 0⟩ ∧
      (0 : Int) ≤ Ref.readerStore.Distance (Ref.readerStore.FileSize Ref.chain2Offsets.blockDB)
        ⟨0, 0⟩ Ref.reader10.toLocation ∧
      ∃ res : ReadResult,
        Ref.reader10.Read Ref.readerStore Ref.chain2Offsets.blockDB 4 = Outcome.returned res ∧
        res.rawRead = (⟨0, 0⟩, 4) :=
  ⟨rfl, by decide,
    match ledgerReader_read_contract Ref.readerStore Ref.chain2Offsets.blockDB Ref.reader10 4
      ⟨0, 0⟩ rfl (by decide) with
    | ⟨res, h1, h2, _⟩ => ⟨res, h1, by rw [h2]; decide⟩⟩

/-- A `Read` at distance `rem ≥ 0` whose raw read returns exactly the requested
bytes and the location `next`: the call returns the requested byte count,
leaves the cursor at `next` and signals end-of-stream exactly when
`rem ≤ len(p)`. -/
theorem read_exact (reader : ledgerReader) (lenP : Nat) (cursor next : Location)
    (hcur : reader.currentLocation = some cursor)
    (hrem : 0 ≤ s.Distance (s.FileSize b) cursor reader.toLocation)
    (hraw : s.ReadRaw b cursor
        (min (s.Distance (s.FileSize b) cursor reader.toLocation) (lenP : Int)).toNat =
      (some next,
        (((min (s.Distance (s.FileSize b) cursor reader.toLocation) (lenP : Int)).toNat : Nat) :
          Int), none)) :
    ∃ res : ReadResult,
      reader.Read s b lenP = Outcome.returned res ∧
      res.err = (if s.Distance (s.FileSize b) cursor reader.toLocation ≤ (lenP : Int) then
        some ReaderError.EOF else none) ∧
      res.n = (((min (s.Distance (s.FileSize b) cursor reader.toLocation)
        (lenP : Int)).toNat : Nat) : Int) ∧
      res.reader.currentLocation = some next ∧
      res.reader.toLocation = reader.toLocation := by
  have hneg : ¬ (if s.Distance (s.FileSize b) cursor reader.toLocation ≤ (lenP : Int) then
      s.Distance (s.FileSize b) cursor reader.toLocation else (lenP : Int)) < 0 := by
    split <;> omega
  have hmin : min (s.Distance (s.FileSize b) cursor reader.toLocation) (lenP : Int) =
      if s.Distance (s.FileSize b) cursor reader.toLocation ≤ (lenP : Int) then
        s.Distance (s.FileSize b) cursor reader.toLocation else (lenP : Int) := min_def _ _
  rw [hmin] at hraw
  refine ⟨_, read_shape s b reader lenP cursor hcur hneg, ?_, ?_, ?_, rfl⟩
  · simp only [hraw]
  · simp only [hraw, hmin]
  · simp only [hraw]

/-- Reads against a block log that returns exactly what it is asked for, from
a cursor `rem ≥ 0` bytes below the upper bound, with non-empty buffers whose
lengths add up to at least `rem`: the calls end with the one that signals
end-of-stream, and the byte counts add up to `rem`. -/
theorem readCalls_exact (toLocation : Location)
    (hexact : ∀ (cursor : Location) (m : Nat), ∃ next : Location,
      s.ReadRaw b cursor m = (some next, (m : Int), none) ∧
      s.Distance (s.FileSize b) next toLocation =
        s.Distance (s.FileSize b) cursor toLocation - (m : Int))
    (ps : List Nat) :
    ∀ (reader : ledgerReader) (cursor : Location),
      reader.toLocation = toLocation → reader.currentLocation = some cursor →
      0 ≤ s.Distance (s.FileSize b) cursor toLocation →
      (∀ p ∈ ps, 0 < p) → ps ≠ [] →
      s.Distance (s.FileSize b) cursor toLocation ≤ (ps.sum : Int) →
      ∃ (init : List ReadResult) (last : ReadResult),
        readCalls s b reader ps = init ++ [last] ∧
        (∀ r ∈ init, r.err = none ∧ 0 < r.n) ∧
        last.err = some ReaderError.EOF ∧ 0 ≤ last.n ∧
        ((init ++ [last]).map fun r => r.n).sum =
          s.Distance (s.FileSize b) cursor toLocation ∧
        (init.length : Int) ≤ s.Distance (s.FileSize b) cursor toLocation := by
  induction ps with
  | nil => intro _ _ _ _ _ _ hne; exact absurd rfl hne
  | cons p rest ih =>
    intro reader cursor hto hcur hrem hpos _ hsum
    subst hto
    have hp : 0 < p := hpos p (List.mem_cons_self p rest)
    have hsum' : (((p :: rest).sum : Nat) : Int) = (p : Int) + ((rest.sum : Nat) : Int) := by
      simp
    rw [hsum'] at hsum
    by_cases hle : s.Distance (s.FileSize b) cursor reader.toLocation ≤ (p : Int)
    · obtain ⟨next, hraw, _⟩ := hexact cursor
        (s.Distance (s.FileSize b) cursor reader.toLocation).toNat
      have hraw' : s.ReadRaw b cursor
          (min (s.Distance (s.FileSize b) cursor reader.toLocation) (p : Int)).toNat =
          (some next,
            (((min (s.Distance (s.FileSize b) cursor reader.toLocation) (p : Int)).toNat : Nat) :
              Int), none) := by
        rw [min_eq_left hle]
        exact hraw
      obtain ⟨res, hr1, hr2, hr3, _, _⟩ := read_exact s b reader p cursor next hcur hrem hraw'
      rw [if_pos hle] at hr2
      rw [min_eq_left hle] at hr3
      refine ⟨[], res, ?_, ?_, hr2, ?_, ?_, ?_⟩
      · simp only [readCalls, hr1, hr2, List.nil_append]
      · intro r hr
        cases hr
      · rw [hr3]
        omega
      · simp only [List.nil_append, List.map_cons, List.map_nil, List.sum_cons, List.sum_nil,
          hr3]
        omega
      · simpa using hrem
    · obtain ⟨next, hraw, hnext⟩ := hexact cursor p
      have hraw' : s.ReadRaw b cursor
          (min (s.Distance (s.FileSize b) cursor reader.toLocation) (p : Int)).toNat =
          (some next,
            (((min (s.Distance (s.FileSize b) cursor reader.toLocation) (p : Int)).toNat : Nat) :
              Int), none) := by
        rw [min_eq_right (by omega), Int.toNat_ofNat]
        exact hraw
      obtain ⟨res, hr1, hr2, hr3, hr4, hr5⟩ :=
        read_exact s b reader p cursor next hcur hrem hraw'
      rw [if_neg hle] at hr2
      rw [min_eq_right (by omega), Int.toNat_ofNat] at hr3
      have hrestne : rest ≠ [] := by
        intro h
        rw [h] at hsum
        simp at hsum
        omega
      have hd : 0 ≤ s.Distance (s.FileSize b) next reader.toLocation := by omega
      have hs : s.Distance (s.FileSize b) next reader.toLocation ≤ ((rest.sum : Nat) : Int) := by
        omega
      obtain ⟨init, last, h1, h2, h3, h4, h5, h6⟩ :=
        ih res.reader next hr5 hr4 hd
          (fun q hq => hpos q (List.mem_cons_of_mem p hq)) hrestne hs
      refine ⟨res :: init, last, ?_, ?_, h3, h4, ?_, ?_⟩
      · simp only [readCalls, hr1, hr2, h1, List.cons_append]
      · intro r hr
        rcases List.mem_cons.1 hr with h | h
        · subst h
          exact ⟨hr2, by rw [hr3]; omega⟩
        · exact h2 r h
      · simp only [List.cons_append, List.map_cons, List.sum_cons, hr3]
        rw [h5]
        omega
      · simp only [List.length_cons]
        push_cast
        omega

/-- C24: for a freshly constructed ledger reader over `[from, to]`, `Size()` is
`distance(loc(from), loc(to))`; and for every sequence of `Read` calls with
non-empty buffers (whose lengths add up to at least `Size()`, as those of any
`Size() + 1` such buffers do) against a Block Log that returns exactly the
requested bytes, the calls reach end-of-stream: the call that signals it is
the last one, it returns `n ≥ 0`, no earlier call signals it, each earlier
call returns a positive count with a nil error, there are at most `Size()`
earlier calls, and the byte counts returned add up to exactly `Size()`. -/
theorem ledgerReader_reads_sum (startHeight endHeight : Nat) (reader : ledgerReader)
    (ps : List Nat)
    (hnew : GetLedgerReaderByHeight k c startHeight endHeight = (some reader, none))
    (hexact : ∀ (cursor : Location) (m : Nat), ∃ next : Location,
      s.ReadRaw b cursor m = (some next, (m : Int), none) ∧
      s.Distance (s.FileSize b) next reader.toLocation =
        s.Distance (s.FileSize b) cursor reader.toLocation - (m : Int))
    (hsize : 0 ≤ reader.Size s b)
    (hpos : ∀ p ∈ ps, 0 < p) (hne : ps ≠ [])
    (hsum : reader.Size s b ≤ (ps.sum : Int)) :
    (∃ fromLocation toLocation : Location,
      (k.indexGetSnapshotBlockLocation c.indexDB startHeight).1 = some fromLocation ∧
      (k.indexGetSnapshotBlockLocation c.indexDB endHeight).1 = some toLocation ∧
      reader.Size s b = s.Distance (s.FileSize b) fromLocation toLocation) ∧
    ∃ (init : List ReadResult) (last : ReadResult),
      readCalls s b reader ps = init ++ [last] ∧
      (∀ r ∈ init, r.err = none ∧ 0 < r.n) ∧
      last.err = some ReaderError.EOF ∧ 0 ≤ last.n ∧
      ((init ++ [last]).map fun r => r.n).sum = reader.Size s b ∧
      (init.length : Int) ≤ reader.Size s b := by
  have hfresh : reader.currentLocation = some reader.fromLocation ∧
      (k.indexGetSnapshotBlockLocation c.indexDB startHeight).1 = some reader.fromLocation ∧
      (k.indexGetSnapshotBlockLocation c.indexDB endHeight).1 = some reader.toLocation := by
    unfold GetLedgerReaderByHeight at hnew
    split at hnew
    · simp at hnew
    split at hnew
    · simp at hnew
    simp only at hnew
    split at hnew
    · simp at hnew
    unfold newLedgerReader at hnew
    rcases hf : k.indexGetSnapshotBlockLocation c.indexDB startHeight with ⟨lf, ef⟩
    rcases ht : k.indexGetSnapshotBlockLocation c.indexDB endHeight with ⟨lt, et⟩
    rw [hf, ht] at hnew
    cases ef with
    | some e => simp at hnew
    | none =>
      cases lf with
      | none => simp at hnew
      | some fromLocation =>
        cases et with
        | some e => simp at hnew
        | none =>
          cases lt with
          | none => simp at hnew
          | some toLocation =>
            simp only [Prod.mk.injEq, Option.some.injEq, and_true] at hnew
            subst hnew
            exact ⟨rfl, rfl, rfl⟩
  refine ⟨⟨reader.fromLocation, reader.toLocation, hfresh.2.1, hfresh.2.2, rfl⟩, ?_⟩
  exact readCalls_exact s b reader.toLocation hexact ps reader reader.fromLocation rfl
    hfresh.1 hsize hpos hne hsum

/-- Witness of C24 on the reference chain: 10 bytes read with 4-byte buffers. -/
theorem ledgerReader_reads_sum_witness :
    GetLedgerReaderByHeight Ref.collab Ref.chain2Offsets 1 2 = (some Ref.reader10, none) ∧
      Ref.reader10.Size Ref.readerStore Ref.chain2Offsets.blockDB = 10 ∧
      ∃ (init : List ReadResult) (last : ReadResult),
        readCalls Ref.readerStore Ref.chain2Offsets.blockDB Ref.reader10 [4, 4, 4] =
          init ++ [last] ∧
        last.err = some ReaderError.EOF ∧
        ((init ++ [last]).map fun r => r.n).sum = 10 :=
  ⟨rfl, by decide,
    match (ledgerReader_reads_sum Ref.collab Ref.chain2Offsets Ref.readerStore
      Ref.chain2Offsets.blockDB 1 2 Ref.reader10 [4, 4, 4] rfl
      (fun cursor m => ⟨⟨cursor.fileId, cursor.offset + m⟩, rfl, by
        simp only [Ref.readerStore]
        push_cast
        ring⟩)
      (by decide) (by decide) (by decide) (by decide)).2 with
    | ⟨init, last, h1, _, h3, _, h5, _⟩ => ⟨init, last, h1, h3, h5⟩⟩

/-- C25: `Close()` always returns nil, sets the cursor to the upper-bound
location and changes no other field; it takes no store and so makes no call
on the Block Log; a second `Close` leaves the same state; and a `Read` after
`Close`, the distance from the upper bound to itself being zero, requests
zero bytes at the upper bound and signals end-of-stream when that raw read
succeeds. -/
theorem ledgerReader_close_contract (reader : ledgerReader) :
    reader.Close.2 = none ∧
      reader.Close.1.currentLocation = some reader.toLocation ∧
      reader.Close.1.fromHeight = reader.fromHeight ∧
      reader.Close.1.toHeight = reader.toHeight ∧
      reader.Close.1.fromLocation = reader.fromLocation ∧
      reader.Close.1.toLocation = reader.toLocation ∧
      reader.Close.1.Close = reader.Close ∧
      ∀ lenP : Nat,
        s.Distance (s.FileSize b) reader.toLocation reader.toLocation = 0 →
        ∃ res : ReadResult,
          reader.Close.1.Read s b lenP = Outcome.returned res ∧
          res.rawRead = (reader.toLocation, 0) ∧
          ((s.ReadRaw b reader.toLocation 0).2.2 = none →
            res.err = some ReaderError.EOF) := by
  refine ⟨rfl, rfl, rfl, rfl, rfl, rfl, rfl, ?_⟩
  intro lenP hzero
  have hto : reader.Close.1.toLocation = reader.toLocation := rfl
  obtain ⟨res, h1, h2, _, _, _, _, h7⟩ :=
    ledgerReader_read_contract s b reader.Close.1 lenP reader.toLocation rfl
      (by rw [hto, hzero])
  rw [hto, hzero] at h2
  have hmin : (min (0 : Int) (lenP : Int)).toNat = 0 := by
    rw [min_eq_left (by omega)]
    rfl
  rw [hmin] at h2
  refine ⟨res, h1, h2, ?_⟩
  intro hraw
  rw [h2] at h7
  have h := (h7 hraw).2.1
  rw [hto, hzero] at h
  exact h.2 (by omega)

/-- Witness of C25 on the reference reader. -/
theorem ledgerReader_close_contract_witness :
    Ref.readerStore.Distance (Ref.readerStore.FileSize Ref.chain2Offsets.blockDB)
        Ref.reader10.toLocation Ref.reader10.toLocation = 0 ∧
      ∃ res : ReadResult,
        Ref.reader10.Close.1.Read Ref.readerStore Ref.chain2Offsets.blockDB 4 =
          Outcome.returned res ∧
        res.rawRead = (Ref.reader10.toLocation, 0) :=
  ⟨by decide,
    match (ledgerReader_close_contract Ref.readerStore Ref.chain2Offsets.blockDB
      Ref.reader10).2.2.2.2.2.2.2 4 (by decide) with
    | ⟨res, h1, h2, _⟩ => ⟨res, h1, h2⟩⟩

end LedgerReaderReads

/-! ## Contract groups, quota ratio and on-road loading: the claims -/

section Helpers

/-- C26, as the code runs: with the stored list `[1, 2, 3]`, removing address 2
(found at index 1) writes back `[3]`, two elements short, where the standard
removal gives `[1, 3]`; removing address 1 (found at index 0) panics on
`addrList[0:-1]` and writes nothing, where the standard removal gives `[2, 3]`;
only an absent address leaves the list as the claim says. -/
theorem deleteContractAddrFromGid_off_by_one :
    DeleteContractAddrFromGid (some [1, 2, 3], none) (fun _ => none) 2 =
        Outcome.returned ⟨some [3], none⟩ ∧
      specRemoveAddr [1, 2, 3] 2 = [1, 3] ∧
      DeleteContractAddrFromGid (some [1, 2, 3], none) (fun _ => none) 1 =
        Outcome.panicked PanicReason.sliceBoundsOutOfRange ∧
      specRemoveAddr [1, 2, 3] 1 = [2, 3] ∧
      DeleteContractAddrFromGid (some [1, 2, 3], none) (fun _ => none) 4 =
        Outcome.returned ⟨some [1, 2, 3], none⟩ ∧
      specRemoveAddr [1, 2, 3] 4 = [1, 2, 3] := by
  decide

/-- C27: `GetQuotaRatioForRS` follows its case table.  For a non-contract
`toAddr` it returns the common quota ratio with no error and makes no db call.
For a contract `toAddr` with no snapshot block in `status` and db calls that
return nil errors: if the send block is confirmed it returns the quota ratio
of the contract meta found in the confirming snapshot when that meta exists
and is not deleted, and `ErrContractNotExists` otherwise; if the send block is
not confirmed it returns the quota ratio of the meta found in the latest
snapshot when it exists and is not deleted, and `ErrNoReliableStatus` when
there is no meta. -/
theorem getQuotaRatioForRS_case_table (env : QuotaEnv) (db : QuotaDb) (toAddr : Address)
    (fromHash : Hash) (status : Option (Option SnapshotBlock)) :
    (env.IsContractAddr toAddr = false →
      GetQuotaRatioForRS env db toAddr fromHash status =
        { calls := [], out := Outcome.returned (env.CommonQuotaRatio, none) }) ∧
    (∀ (csb : SnapshotBlock) (meta : Option ContractMeta),
      env.IsContractAddr toAddr = true → (status = none ∨ status = some none) →
      db.GetConfirmSnapshotHeader fromHash = (some csb, none) →
      db.GetContractMetaInSnapshot toAddr (some csb) = (meta, none) →
      (∀ m : ContractMeta, meta = some m → m.IsDeleted = false →
        (GetQuotaRatioForRS env db toAddr fromHash status).out =
          Outcome.returned (m.QuotaRatio, none)) ∧
      ((meta = none ∨ ∃ m : ContractMeta, meta = some m ∧ m.IsDeleted = true) →
        (GetQuotaRatioForRS env db toAddr fromHash status).out =
          Outcome.returned (0, some QuotaError.ErrContractNotExists))) ∧
    (∀ (sb : Option SnapshotBlock) (meta : Option ContractMeta),
      env.IsContractAddr toAddr = true → (status = none ∨ status = some none) →
      db.GetConfirmSnapshotHeader fromHash = (none, none) →
      db.LatestSnapshotBlock = (sb, none) →
      db.GetContractMetaInSnapshot toAddr sb = (meta, none) →
      (∀ m : ContractMeta, meta = some m → m.IsDeleted = false →
        (GetQuotaRatioForRS env db toAddr fromHash status).out =
          Outcome.returned (m.QuotaRatio, none)) ∧
      (meta = none →
        (GetQuotaRatioForRS env db toAddr fromHash status).out =
          Outcome.returned (0, some QuotaError.ErrNoReliableStatus))) := by
  refine ⟨?_, ?_, ?_⟩
  · intro h
    simp [GetQuotaRatioForRS, h]
  · intro csb meta hc hs hconf hmeta
    refine ⟨?_, ?_⟩
    · intro m hm hd
      subst hm
      rcases hs with hs | hs <;>
        simp [GetQuotaRatioForRS, GetQuotaRatioBySnapshotBlock, DealWithErr, hc, hs, hconf,
          hmeta, hd]
    · intro h
      rcases h with h | ⟨m, hm, hd⟩
      · subst h
        rcases hs with hs | hs <;>
          simp [GetQuotaRatioForRS, GetQuotaRatioBySnapshotBlock, DealWithErr, hc, hs, hconf,
            hmeta]
      · subst hm
        rcases hs with hs | hs <;>
          simp [GetQuotaRatioForRS, GetQuotaRatioBySnapshotBlock, DealWithErr, hc, hs, hconf,
            hmeta, hd]
  · intro sb meta hc hs hconf hlatest hmeta
    refine ⟨?_, ?_⟩
    · intro m hm hd
      subst hm
      rcases hs with hs | hs <;>
        simp [GetQuotaRatioForRS, DealWithErr, hc, hs, hconf, hlatest, hmeta, hd]
    · intro h
      subst h
      rcases hs with hs | hs <;>
        simp [GetQuotaRatioForRS, DealWithErr, hc, hs, hconf, hlatest, hmeta]

/-- Witness of C27: a contract address, no status, an unconfirmed send block and
no contract meta in the latest snapshot give `ErrNoReliableStatus`. -/
theorem getQuotaRatioForRS_case_table_witness :
    (GetQuotaRatioForRS ⟨fun _ => true, 10, fun _ => false⟩
        ⟨fun _ _ => (none, none), fun _ => (none, none), (some Ref.sb2, none)⟩ 7 71 none).out =
      Outcome.returned (0, some QuotaError.ErrNoReliableStatus) :=
  ((getQuotaRatioForRS_case_table ⟨fun _ => true, 10, fun _ => false⟩
      ⟨fun _ _ => (none, none), fun _ => (none, none), (some Ref.sb2, none)⟩ 7 71 none).2.2
    (some Ref.sb2) none rfl (Or.inl rfl) rfl rfl rfl).2 rfl

variable (o : OnRoadCollab B I S C) (c : Chain B I S C)

/-- C30: `LoadOnRoad(gid)` returns a non-nil error if and only if
`GetContractList(gid)` fails, and then it returns that error with nil data;
when the Index Store `Load` call fails, the failure is only logged and
`LoadOnRoad` returns the data `Load` produced together with a nil error. -/
theorem loadOnRoad_error_iff (gid : Gid) :
    ((LoadOnRoad o c gid).2.2 ≠ none ↔
      (o.GetContractList c.blockDB c.indexDB c.stateDB c.cache gid).2 ≠ none) ∧
    (∀ e : GoError,
      (o.GetContractList c.blockDB c.indexDB c.stateDB c.cache gid).2 = some e →
        (LoadOnRoad o c gid).2 = (none, some e)) ∧
    ((o.GetContractList c.blockDB c.indexDB c.stateDB c.cache gid).2 = none →
      (LoadOnRoad o c gid).2 =
        ((o.indexLoad c.indexDB
          (o.GetContractList c.blockDB c.indexDB c.stateDB c.cache gid).1).1, none) ∧
      Untouched c (LoadOnRoad o c gid).1 ∧
      ∀ e : GoError,
        (o.indexLoad c.indexDB
          (o.GetContractList c.blockDB c.indexDB c.stateDB c.cache gid).1).2 = some e →
        (LoadOnRoad o c gid).1.logs =
          c.logs ++ [(LogLevel.error, GoError.wrapped Site.indexLoad e)]) := by
  rcases hg : o.GetContractList c.blockDB c.indexDB c.stateDB c.cache gid with ⟨addrList, err⟩
  cases err with
  | some e => simp [LoadOnRoad, hg]
  | none =>
    rcases hl : o.indexLoad c.indexDB addrList with ⟨data, lerr⟩
    cases lerr with
    | some e => simp [LoadOnRoad, hg, hl, Untouched, Chain.logError]
    | none => simp [LoadOnRoad, hg, hl, Untouched]

/-- Witness of C30 on the reference chain with an index store that fails to load. -/
theorem loadOnRoad_error_iff_witness :
    (Ref.onRoadLoadBroken.GetContractList Ref.chain2.blockDB Ref.chain2.indexDB
        Ref.chain2.stateDB Ref.chain2.cache 1).2 = none ∧
      (Ref.onRoadLoadBroken.indexLoad Ref.chain2.indexDB [7]).2 = some (GoError.store 8) ∧
      (LoadOnRoad Ref.onRoadLoadBroken Ref.chain2 1).2 = (none, none) ∧
      (LoadOnRoad Ref.onRoadLoadBroken Ref.chain2 1).1.logs =
        [(LogLevel.error, GoError.wrapped Site.indexLoad (GoError.store 8))] :=
  ⟨rfl, rfl,
    ((loadOnRoad_error_iff Ref.onRoadLoadBroken Ref.chain2 1).2.2 rfl).1,
    ((loadOnRoad_error_iff Ref.onRoadLoadBroken Ref.chain2 1).2.2 rfl).2.2
      (GoError.store 8) rfl⟩

end Helpers

/-! ## Order ids: the claims -/

section OrderId

/-- Copying as many bytes as the destination holds replaces it. -/
theorem copyInto_full (dst src : List Nat) (h : src.length = dst.length) :
    copyInto dst src = src := by
  unfold copyInto
  rw [List.take_of_length_le (le_of_eq h), List.drop_of_length_le (le_of_eq h.symm),
    List.append_nil]

/-- A leading zero byte does not change the big-endian value. -/
theorem beValue_zero_cons (bs : List Nat) : beValue (0 :: bs) = beValue bs := by
  simp [beValue]

/-- The fold of the big-endian value stays below the next power of 256. -/
theorem beFold_lt (bs : List Nat) :
    ∀ a : Nat, (∀ x ∈ bs, x < 256) →
      bs.foldl (fun acc x => acc * 256 + x) a < (a + 1) * 256 ^ bs.length := by
  induction bs with
  | nil => intro a _; simp
  | cons x rest ih =>
    intro a h
    have hx : x < 256 := h x (List.mem_cons_self x rest)
    have h1 := ih (a * 256 + x) fun y hy => h y (List.mem_cons_of_mem x hy)
    have h2 : (a * 256 + x + 1) * 256 ^ rest.length ≤ (a + 1) * 256 * 256 ^ rest.length :=
      Nat.mul_le_mul_right _ (by omega)
    simp only [List.foldl_cons, List.length_cons, pow_succ]
    calc List.foldl (fun acc x => acc * 256 + x) (a * 256 + x) rest
        < (a * 256 + x + 1) * 256 ^ rest.length := h1
      _ ≤ (a + 1) * 256 * 256 ^ rest.length := h2
      _ = (a + 1) * (256 ^ rest.length * 256) := by ring

/-- The big-endian value of `n` bytes is below `256 ^ n`. -/
theorem beValue_lt (bs : List Nat) (h : ∀ x ∈ bs, x < 256) :
    beValue bs < 256 ^ bs.length := by
  have := beFold_lt bs 0 h
  simpa [beValue] using this

/-- C28: `DeComposeOrderId` follows the 22-byte layout
`MarketId[0..2] Side[3] Price[4..13] timestamp[14..18] serialNo[19..21]`, the
helpers `BytesToUint32` and `BytesToUint64` being big-endian decodings and
`BitwiseNotBytes` the bytewise complement: for every 22-byte id it returns no
error, `marketId` the big-endian value of bytes 0..2, `side = (byte 3 == 1)`,
`timestamp` the big-endian value of bytes 14..18, and a 10-byte price equal to
bytes 4..13 for a sell (`side` true) or to their bitwise complement for a buy
(`side` false), and the input is not modified; for every input of any other
length it returns `DeComposeOrderIdFailErr`. -/
theorem deComposeOrderId_layout (cm : DexCommon) (idBytes : List Nat)
    (h32 : ∀ bs : List Nat, bs.length = 4 → cm.BytesToUint32 bs = beValue bs)
    (h64 : ∀ bs : List Nat, bs.length = 8 → cm.BytesToUint64 bs = beValue bs)
    (hnot : ∀ bs : List Nat, cm.BitwiseNotBytes bs = bs.map fun x => 255 - x)
    (hbytes : ∀ x ∈ idBytes, x < 256) :
    (idBytes.length = 22 →
      (DeComposeOrderId cm idBytes).err = none ∧
      (DeComposeOrderId cm idBytes).marketId = (beValue (idBytes.take 3) : Int) ∧
      (DeComposeOrderId cm idBytes).side = decide (idBytes.getD 3 0 = 1) ∧
      (DeComposeOrderId cm idBytes).timestamp = (beValue ((idBytes.drop 14).take 5) : Int) ∧
      (DeComposeOrderId cm idBytes).price.length = 10 ∧
      ((DeComposeOrderId cm idBytes).side = true →
        (DeComposeOrderId cm idBytes).price = (idBytes.drop 4).take 10) ∧
      ((DeComposeOrderId cm idBytes).side = false →
        (DeComposeOrderId cm idBytes).price =
          ((idBytes.drop 4).take 10).map fun x => 255 - x) ∧
      (DeComposeOrderId cm idBytes).idBytesAfter = idBytes) ∧
    (idBytes.length ≠ 22 →
      (DeComposeOrderId cm idBytes).err = some DexError.DeComposeOrderIdFailErr ∧
      (DeComposeOrderId cm idBytes).idBytesAfter = idBytes) := by
  constructor
  · intro hlen
    have hne : ¬ idBytes.length ≠ OrderIdBytesLength := by simp [OrderIdBytesLength, hlen]
    have l3 : (idBytes.take 3).length = 3 := by simp [hlen]
    have l10 : ((idBytes.drop 4).take 10).length = 10 := by simp [hlen]
    have l5 : ((idBytes.drop 14).take 5).length = 5 := by simp [hlen]
    have c3 : copyInto [0, 0, 0] (idBytes.take 3) = idBytes.take 3 :=
      copyInto_full _ _ (by rw [l3]; rfl)
    have c10 : copyInto (List.replicate 10 0) ((idBytes.drop 4).take 10) =
        (idBytes.drop 4).take 10 := copyInto_full _ _ (by rw [l10]; simp)
    have c5 : copyInto (List.replicate 5 0) ((idBytes.drop 14).take 5) =
        (idBytes.drop 14).take 5 := copyInto_full _ _ (by rw [l5]; simp)
    have b3 : beValue (idBytes.take 3) < 256 ^ 3 := by
      have := beValue_lt (idBytes.take 3) fun x hx => hbytes x (List.mem_of_mem_take hx)
      rwa [l3] at this
    have b5 : beValue ((idBytes.drop 14).take 5) < 256 ^ 5 := by
      have := beValue_lt ((idBytes.drop 14).take 5) fun x hx =>
        hbytes x (List.mem_of_mem_drop (List.mem_of_mem_take hx))
      rwa [l5] at this
    have m : cm.BytesToUint32 ([0] ++ idBytes.take 3) = beValue (idBytes.take 3) := by
      rw [h32 _ (by simp [l3]), List.singleton_append, beValue_zero_cons]
    have t : cm.BytesToUint64 ([0, 0, 0] ++ (idBytes.drop 14).take 5) =
        beValue ((idBytes.drop 14).take 5) := by
      rw [h64 _ (by simp [l5])]
      simp only [List.cons_append, List.nil_append, beValue_zero_cons]
    have hm : asInt32 (beValue (idBytes.take 3)) = (beValue (idBytes.take 3) : Int) := by
      have h1 : beValue (idBytes.take 3) % 2 ^ 32 = beValue (idBytes.take 3) :=
        Nat.mod_eq_of_lt (by norm_num at b3 ⊢; omega)
      have h2 : beValue (idBytes.take 3) < 2 ^ 31 := by norm_num at b3 ⊢; omega
      simp only [asInt32, h1, h2, if_true]
    have ht : asInt64 (beValue ((idBytes.drop 14).take 5)) =
        (beValue ((idBytes.drop 14).take 5) : Int) := by
      have h1 : beValue ((idBytes.drop 14).take 5) % 2 ^ 64 =
          beValue ((idBytes.drop 14).take 5) :=
        Nat.mod_eq_of_lt (by norm_num at b5 ⊢; omega)
      have h2 : beValue ((idBytes.drop 14).take 5) < 2 ^ 63 := by norm_num at b5 ⊢; omega
      simp only [asInt64, h1, h2, if_true]
    by_cases hside : idBytes.getD 3 0 = 1
    · have hd : decide (idBytes.getD 3 0 = 1) = true := decide_eq_true hside
      simp only [DeComposeOrderId, hne, if_false, c3, c10, c5, m, t, hm, ht, hd]
      simp [l10]
    · have hd : decide (idBytes.getD 3 0 = 1) = false := decide_eq_false hside
      simp only [DeComposeOrderId, hne, if_false, c3, c10, c5, m, t, hm, ht, hnot, hd]
      simp [hlen]
  · intro hlen
    have hne : idBytes.length ≠ OrderIdBytesLength := by simpa [OrderIdBytesLength] using hlen
    simp [DeComposeOrderId, hne]

/-- Witness of C28 on a sell order id: market 5, price bytes 0 to 9. -/
theorem deComposeOrderId_layout_witness :
    ([0, 0, 5, 1, 0, 1, 2, 3, 4, 5, 6, 7, 8, 9, 0, 0, 0, 1, 0, 0, 0, 7] : List Nat).length = 22 ∧
      (DeComposeOrderId ⟨beValue, beValue, fun bs => bs.map fun x => 255 - x⟩
        [0, 0, 5, 1, 0, 1, 2, 3, 4, 5, 6, 7, 8, 9, 0, 0, 0, 1, 0, 0, 0, 7]).marketId =
        (beValue [0, 0, 5] : Int) ∧
      (DeComposeOrderId ⟨beValue, beValue, fun bs => bs.map fun x => 255 - x⟩
        [0, 0, 5, 1, 0, 1, 2, 3, 4, 5, 6, 7, 8, 9, 0, 0, 0, 1, 0, 0, 0, 7]).price =
        [0, 1, 2, 3, 4, 5, 6, 7, 8, 9] :=
  ⟨rfl,
    ((deComposeOrderId_layout ⟨beValue, beValue, fun bs => bs.map fun x => 255 - x⟩
      [0, 0, 5, 1, 0, 1, 2, 3, 4, 5, 6, 7, 8, 9, 0, 0, 0, 1, 0, 0, 0, 7]
      (fun _ _ => rfl) (fun _ _ => rfl) (fun _ => rfl) (by decide)).1 rfl).2.1,
    ((deComposeOrderId_layout ⟨beValue, beValue, fun bs => bs.map fun x => 255 - x⟩
      [0, 0, 5, 1, 0, 1, 2, 3, 4, 5, 6, 7, 8, 9, 0, 0, 0, 1, 0, 0, 0, 7]
      (fun _ _ => rfl) (fun _ _ => rfl) (fun _ => rfl) (by decide)).1 rfl).2.2.2.2.2.1 rfl⟩

end OrderId


/-! ## Prices: the claims -/

section Prices

/-- The value read so far never decreases along the digit fold. -/
theorem digitFold_ge (l : List Nat) :
    ∀ n : Nat, n ≤ l.foldl (fun a c => a * 10 + (c - 48)) n := by
  induction l with
  | nil => intro n; exact le_refl n
  | cons c cs ih =>
    intro n
    have := ih (n * 10 + (c - 48))
    simp only [List.foldl_cons]
    omega

/-- On decimal digits whose value fits 64 bits the loop of `ParseUint` returns
that value and no error. -/
theorem parseLoop_digits (l : List Nat) :
    ∀ n : Nat, (∀ c ∈ l, 48 ≤ c ∧ c ≤ 57) →
      l.foldl (fun a c => a * 10 + (c - 48)) n ≤ 2 ^ 64 - 1 →
      parseLoop l n = (l.foldl (fun a c => a * 10 + (c - 48)) n, none) := by
  induction l with
  | nil => intro n _ _; rfl
  | cons c cs ih =>
    intro n hd hv
    have hc := hd c (List.mem_cons_self c cs)
    simp only [List.foldl_cons] at hv ⊢
    have hge := digitFold_ge cs (n * 10 + (c - 48))
    have h1 : ¬ (c < 48 ∨ 57 < c) := by omega
    have h2 : ¬ n ≥ (2 ^ 64 - 1) / 10 + 1 := by
      norm_num at hv ⊢
      omega
    have h3 : ¬ n * 10 + (c - 48) > 2 ^ 64 - 1 := by omega
    simp only [parseLoop, h1, h2, h3, if_false]
    exact ih _ (fun x hx => hd x (List.mem_cons_of_mem c hx)) hv

/-- `ParseUint` on a non-empty string of decimal digits whose value fits 64 bits. -/
theorem ParseUint_digits (l : List Nat) (hne : l ≠ []) (hd : ∀ c ∈ l, 48 ≤ c ∧ c ≤ 57)
    (hv : digitsValue l ≤ 2 ^ 64 - 1) : ParseUint l = (digitsValue l, none) := by
  simp only [ParseUint, hne, if_false]
  exact parseLoop_digits l 0 hd hv

/-- Appending a digit multiplies the value by ten and adds the digit. -/
theorem digitsValue_append_singleton (l : List Nat) (c : Nat) :
    digitsValue (l ++ [c]) = digitsValue l * 10 + (c - 48) := by
  simp [digitsValue, List.foldl_append]

/-- Leading zeros do not change the value. -/
theorem digitsValue_zeros_append (z : Nat) (l : List Nat) :
    digitsValue (List.replicate z 48 ++ l) = digitsValue l := by
  induction z with
  | zero => simp
  | succ z ih =>
    simp only [List.replicate_succ, List.cons_append]
    simpa [digitsValue] using ih

/-- The digits are produced in front of the accumulator. -/
theorem digitsFuel_acc (fuel : Nat) :
    ∀ (v : Nat) (acc : List Nat), digitsFuel fuel v acc = digitsFuel fuel v [] ++ acc := by
  induction fuel with
  | zero => intro v acc; rfl
  | succ f ih =>
    intro v acc
    by_cases h : v < 10
    · simp [digitsFuel, h]
    · simp only [digitsFuel, h, if_false]
      rw [ih (v / 10) ((v % 10 + 48) :: acc), ih (v / 10) [v % 10 + 48]]
      simp

/-- With enough fuel the digits of `v` stand for `v`. -/
theorem digitsValue_digitsFuel (fuel : Nat) :
    ∀ v : Nat, v < 10 ^ fuel → digitsValue (digitsFuel fuel v []) = v := by
  induction fuel with
  | zero =>
    intro v hv
    have : v = 0 := by simpa using hv
    subst this
    rfl
  | succ f ih =>
    intro v hv
    by_cases h : v < 10
    · simp [digitsFuel, h, digitsValue]
    · simp only [digitsFuel, h, if_false]
      rw [digitsFuel_acc, digitsValue_append_singleton, ih (v / 10)]
      · omega
      · rw [pow_succ] at hv
        exact Nat.div_lt_of_lt_mul (by omega)

/-- The output of `digitsFuel` on an empty accumulator holds decimal digits only. -/
theorem digitsFuel_digits (fuel : Nat) :
    ∀ v : Nat, ∀ c ∈ digitsFuel fuel v [], 48 ≤ c ∧ c ≤ 57 := by
  induction fuel with
  | zero => intro v c hc; cases hc
  | succ f ih =>
    intro v c hc
    by_cases h : v < 10
    · simp only [digitsFuel, h, if_true, List.mem_singleton] at hc
      omega
    · simp only [digitsFuel, h, if_false] at hc
      rw [digitsFuel_acc] at hc
      rcases List.mem_append.1 hc with hc | hc
      · exact ih _ c hc
      · simp only [List.mem_singleton] at hc
        omega

/-- A number below `10 ^ n` has at most `n` digits. -/
theorem digitsFuel_length (fuel : Nat) :
    ∀ v n : Nat, v < 10 ^ n → 1 ≤ n → (digitsFuel fuel v []).length ≤ n := by
  induction fuel with
  | zero => intro v n _ _; simp [digitsFuel]
  | succ f ih =>
    intro v n hv hn
    by_cases h : v < 10
    · simpa [digitsFuel, h] using hn
    · simp only [digitsFuel, h, if_false]
      rw [digitsFuel_acc, List.length_append, List.length_singleton]
      obtain ⟨m, rfl⟩ : ∃ m, n = m + 1 := ⟨n - 1, by omega⟩
      have hm : 1 ≤ m := by
        rcases Nat.eq_zero_or_pos m with h0 | h0
        · subst h0
          simp at hv
          omega
        · exact h0
      have := ih (v / 10) m (by
        rw [pow_succ] at hv
        exact Nat.div_lt_of_lt_mul (by omega)) hm
      omega

/-- With fuel left at least one digit is written. -/
theorem digitsFuel_ne_nil (fuel v : Nat) : digitsFuel (fuel + 1) v [] ≠ [] := by
  by_cases h : v < 10
  · rw [digitsFuel, if_pos h]
    exact List.cons_ne_nil _ _
  · rw [digitsFuel, if_neg h, digitsFuel_acc]
    simp

/-- `FormatUint` of a number below `10 ^ 20`: decimal digits, not empty, and
their value is the number. -/
theorem FormatUint_spec (v : Nat) (hv : v < 10 ^ 20) :
    FormatUint v ≠ [] ∧ (∀ c ∈ FormatUint v, 48 ≤ c ∧ c ≤ 57) ∧
      digitsValue (FormatUint v) = v :=
  ⟨digitsFuel_ne_nil 19 v, digitsFuel_digits 20 v, digitsValue_digitsFuel 20 v hv⟩

end Prices

section PriceParts

/-- A string without a dot is split into itself. -/
theorem splitDot_no_dot (l : List Nat) (h : 46 ∉ l) : splitDot l = [l] := by
  induction l with
  | nil => rfl
  | cons c cs ih =>
    have hc : c ≠ 46 := fun e => h (e ▸ List.mem_cons_self c cs)
    have hcs : 46 ∉ cs := fun m => h (List.mem_cons_of_mem c m)
    simp [splitDot, hc, ih hcs]

/-- A string is split at its first dot. -/
theorem splitDot_at_dot (a b : List Nat) (h : 46 ∉ a) :
    splitDot (a ++ 46 :: b) = a :: splitDot b := by
  induction a with
  | nil => simp [splitDot]
  | cons c cs ih =>
    have hc : c ≠ 46 := fun e => h (e ▸ List.mem_cons_self c cs)
    have hcs : 46 ∉ cs := fun m => h (List.mem_cons_of_mem c m)
    simp [splitDot, hc, ih hcs]

/-- Decimal digits hold no dot. -/
theorem no_dot_of_digits (l : List Nat) (h : ∀ c ∈ l, 48 ≤ c ∧ c ≤ 57) : 46 ∉ l := by
  intro m
  have := h 46 m
  omega

/-- A string of zeros stands for zero. -/
theorem digitsValue_zeros (z : Nat) : digitsValue (List.replicate z 48) = 0 := by
  have := digitsValue_zeros_append z []
  simpa [digitsValue] using this

/-- The padded decimal part is what `BytesToPrice` keeps of it followed by the
zeros it cuts. -/
theorem rightTruncate_split (arr : List Nat) :
    arr = (arr.reverse.dropWhile fun c => decide (c = 48)).reverse ++
      List.replicate (rightTruncate arr) 48 := by
  have h := List.takeWhile_append_dropWhile (fun c => decide (c = 48)) arr.reverse
  have htw : arr.reverse.takeWhile (fun c => decide (c = 48)) =
      List.replicate (rightTruncate arr) 48 := by
    apply List.eq_replicate_of_mem
    intro x hx
    have := List.mem_takeWhile_imp hx
    simpa using this
  have h2 := congrArg List.reverse h
  rw [List.reverse_append, List.reverse_reverse, htw, List.reverse_replicate] at h2
  exact h2.symm

/-- The kept prefix of the padded decimal part. -/
theorem rightTruncate_take (arr : List Nat) :
    arr.take (arr.length - rightTruncate arr) =
      (arr.reverse.dropWhile fun c => decide (c = 48)).reverse := by
  have key : ∀ d t : List Nat, arr = d ++ t → arr.take (arr.length - t.length) = d := by
    intro d t e
    subst e
    rw [List.length_append, Nat.add_sub_cancel]
    exact List.take_left _ _
  have h := key _ _ (rightTruncate_split arr)
  rwa [List.length_replicate] at h

/-- The kept prefix does not end in a zero. -/
theorem rightTruncate_last (arr : List Nat) :
    (arr.take (arr.length - rightTruncate arr)).getLast? ≠ some 48 := by
  rw [rightTruncate_take, List.getLast?_reverse]
  have h := List.head?_dropWhile_not (fun c => decide (c = 48)) arr.reverse
  intro e
  rw [e] at h
  simp at h

/-- The kept prefix is not empty when the padded decimal part is not all zeros. -/
theorem rightTruncate_ne_nil (arr : List Nat) (h : digitsValue arr ≠ 0) :
    arr.take (arr.length - rightTruncate arr) ≠ [] := by
  intro e
  have hs := rightTruncate_split arr
  rw [← rightTruncate_take, e, List.nil_append] at hs
  rw [hs] at h
  exact h (digitsValue_zeros _)

/-- Five bytes written by `PutUint64` from their own big-endian value. -/
theorem putUint64_beValue (xs : List Nat) (hlen : xs.length = 5) (hb : ∀ x ∈ xs, x < 256) :
    ((PutUint64 (beValue xs)).drop 3).take 5 = xs := by
  match xs, hlen, hb with
  | [a, b, c, d, e], _, hb =>
    have ha : a < 256 := hb a (by simp)
    have hb1 : b < 256 := hb b (by simp)
    have hc : c < 256 := hb c (by simp)
    have hd : d < 256 := hb d (by simp)
    have he : e < 256 := hb e (by simp)
    simp only [PutUint64, beValue, List.foldl_cons, List.foldl_nil, List.drop_succ_cons,
      List.drop_zero, List.take_succ_cons, List.take_zero]
    norm_num
    refine ⟨?_, ?_, ?_, ?_, ?_⟩ <;> omega

/-- Five bytes of value zero are all zero. -/
theorem beValue_eq_zero (xs : List Nat) (hlen : xs.length = 5) (h : beValue xs = 0) :
    xs = List.replicate 5 0 := by
  match xs, hlen, h with
  | [a, b, c, d, e], _, h =>
    simp only [beValue, List.foldl_cons, List.foldl_nil] at h
    simp only [List.replicate]
    have ha : a = 0 := by omega
    have hb : b = 0 := by omega
    have hc : c = 0 := by omega
    have hd : d = 0 := by omega
    have he : e = 0 := by omega
    subst ha hb hc hd he
    rfl

/-- `PutUint64` of zero is eight zero bytes. -/
theorem putUint64_zero : ((PutUint64 0).drop 3).take 5 = List.replicate 5 0 := by
  decide

/-- `Uint64` of three zero bytes followed by five bytes is the value of the five. -/
theorem uint64_padded (xs : List Nat) (hlen : xs.length = 5) :
    Uint64 ([0, 0, 0] ++ xs) = beValue xs := by
  have h8 : ([0, 0, 0] ++ xs).length ≤ 8 := by simp [hlen]
  rw [Uint64, List.take_of_length_le h8]
  simp [beValue]

end PriceParts

section PriceRoundTrip

/-- The five low bytes of `PutUint64` are five bytes. -/
theorem putUint64_low_length (v : Nat) : (((PutUint64 v).drop 3).take 5).length = 5 := by
  simp [PutUint64]

/-- Copying a source no longer than the destination and cutting at its length
gives the source back. -/
theorem copyInto_take (dst src : List Nat) (h : src.length ≤ dst.length) :
    (copyInto dst src).take src.length = src := by
  unfold copyInto
  rw [List.take_of_length_le h]
  exact List.take_left _ _

/-- A string of digits that stands for the value of five bytes is encoded as
those bytes. -/
theorem encode_digits (s xs : List Nat) (hs : s ≠ []) (hd : ∀ c ∈ s, 48 ≤ c ∧ c ≤ 57)
    (hv : digitsValue s = beValue xs) (hlen : xs.length = 5) (hb : ∀ x ∈ xs, x < 256) :
    ((PutUint64 (ParseUint s).1).drop 3).take 5 = xs := by
  have hlt := beValue_lt xs hb
  rw [hlen] at hlt
  have hbound : digitsValue s ≤ 2 ^ 64 - 1 := by
    rw [hv]
    norm_num at hlt ⊢
    omega
  rw [ParseUint_digits s hs hd hbound, hv]
  exact putUint64_beValue xs hlen hb

/-- `PriceToBytes` of a price without a dot. -/
theorem priceToBytes_int (maxLen : Nat) (s : List Nat) (hdot : 46 ∉ s) (hs : s ≠ []) :
    PriceToBytes maxLen s =
      ((PutUint64 (ParseUint s).1).drop 3).take 5 ++ List.replicate 5 0 := by
  have hpos : s.length > 0 := List.length_pos.2 hs
  have h5 : (List.replicate PriceBytesLength 0).take 5 = List.replicate 5 0 := by decide
  have h5d : (List.replicate PriceBytesLength 0).drop 5 = List.replicate 5 0 := by decide
  simp only [PriceToBytes, splitDot_no_dot s hdot, List.headD_cons, List.length_singleton,
    if_pos hpos, h5, h5d]
  rw [copyInto_full _ _ (by rw [putUint64_low_length, List.length_replicate])]
  simp

end PriceRoundTrip

section PriceRoundTrip2

/-- `PriceToBytes` of a price with an integer part, a dot and a decimal part. -/
theorem priceToBytes_frac (maxLen : Nat) (s frac : List Nat) (hdot : 46 ∉ s)
    (hfdot : 46 ∉ frac) (hs : s ≠ []) (hf : frac ≠ []) :
    PriceToBytes maxLen (s ++ 46 :: frac) =
      ((PutUint64 (ParseUint s).1).drop 3).take 5 ++
        ((PutUint64 (ParseUint (if frac.length < maxLen then
          frac ++ List.replicate (maxLen - frac.length) 48 else frac)).1).drop 3).take 5 := by
  have hsplit : splitDot (s ++ 46 :: frac) = [s, frac] := by
    rw [splitDot_at_dot s frac hdot, splitDot_no_dot frac hfdot]
  have hpos : s.length > 0 := List.length_pos.2 hs
  have hfpos : frac.length > 0 := List.length_pos.2 hf
  have h5 : (List.replicate PriceBytesLength 0).take 5 = List.replicate 5 0 := by decide
  have h5d : (List.replicate PriceBytesLength 0).drop 5 = List.replicate 5 0 := by decide
  have hl2 : [s, frac].length = 2 := rfl
  have hg : [s, frac].getD 1 [] = frac := rfl
  simp only [PriceToBytes, hsplit, List.headD_cons, hl2, if_true, hg, if_pos hpos, if_pos hfpos,
    h5, h5d]
  rw [copyInto_full (List.replicate 5 0) _
    (by rw [putUint64_low_length, List.length_replicate])]
  rw [List.take_left' (putUint64_low_length _), List.drop_left' (putUint64_low_length _)]
  congr 1
  by_cases hlt : frac.length < maxLen
  · simp only [if_pos hlt]
    have hpad : (copyInto (List.replicate maxLen 0) frac |>.take frac.length |>.append
        (List.replicate (maxLen - frac.length) 48)) =
        frac ++ List.replicate (maxLen - frac.length) 48 := by
      rw [copyInto_take _ _ (by rw [List.length_replicate]; omega)]
      rfl
    rw [hpad]
    exact copyInto_full _ _ (by rw [putUint64_low_length, List.length_replicate])
  · simp only [if_neg hlt]
    exact copyInto_full _ _ (by rw [putUint64_low_length, List.length_replicate])

end PriceRoundTrip2

section PriceClaim

/-- The shape of `BytesToPrice` on a 10-byte price. -/
theorem bytesToPrice_shape (maxLen : Nat) (b : List Nat) (hlen : b.length = 10) :
    BytesToPrice maxLen b =
      if beValue (b.drop 5) = 0 then
        Outcome.returned
          (if beValue (b.take 5) = 0 then [48] else FormatUint (beValue (b.take 5)))
      else if (FormatUint (beValue (b.drop 5))).length > maxLen then
        Outcome.panicked PanicReason.sliceBoundsOutOfRange
      else
        Outcome.returned
          ((if beValue (b.take 5) = 0 then [48] else FormatUint (beValue (b.take 5))) ++ [46] ++
            (List.replicate (maxLen - (FormatUint (beValue (b.drop 5))).length) 48 ++
              FormatUint (beValue (b.drop 5))).take
              (maxLen - rightTruncate
                (List.replicate (maxLen - (FormatUint (beValue (b.drop 5))).length) 48 ++
                  FormatUint (beValue (b.drop 5))))) := by
  have hhi : (b.take 5).length = 5 := by rw [List.length_take, hlen]; rfl
  have hlo : (b.drop 5).length = 5 := by rw [List.length_drop, hlen]
  have hn : ¬ b.length < 5 := by omega
  have c1 : copyInto (List.replicate 5 0) (b.take 5) = b.take 5 :=
    copyInto_full _ _ (by rw [hhi, List.length_replicate])
  have c2 : copyInto (List.replicate 5 0) (b.drop 5) = b.drop 5 :=
    copyInto_full _ _ (by rw [hlo, List.length_replicate])
  simp only [BytesToPrice, if_neg hn, c1, c2, uint64_padded _ hhi, uint64_padded _ hlo]

/-- What `BytesToPrice` returns on a 10-byte price: a non-empty string of digits
that `PriceToBytes` encodes as the first 5 bytes, alone when the decimal value is
zero, and otherwise followed by a dot and a non-empty string of digits that does
not end in `0` and that `PriceToBytes`, after its padding, encodes as the last 5
bytes. -/
theorem bytesToPrice_returned (maxLen : Nat) (b price : List Nat) (hlen : b.length = 10)
    (hbytes : ∀ x ∈ b, x < 256) (hret : BytesToPrice maxLen b = Outcome.returned price) :
    ∃ intStr : List Nat, intStr ≠ [] ∧ (∀ c ∈ intStr, 48 ≤ c ∧ c ≤ 57) ∧
      ((PutUint64 (ParseUint intStr).1).drop 3).take 5 = b.take 5 ∧
      (beValue (b.drop 5) = 0 → price = intStr) ∧
      (beValue (b.drop 5) ≠ 0 → ∃ frac : List Nat, price = intStr ++ [46] ++ frac ∧
        (∀ c ∈ frac, 48 ≤ c ∧ c ≤ 57) ∧ frac ≠ [] ∧ frac.getLast? ≠ some 48 ∧
        ((PutUint64 (ParseUint (if frac.length < maxLen then
          frac ++ List.replicate (maxLen - frac.length) 48 else frac)).1).drop 3).take 5 =
          b.drop 5) := by
  have hhi : (b.take 5).length = 5 := by rw [List.length_take, hlen]; rfl
  have hlo : (b.drop 5).length = 5 := by rw [List.length_drop, hlen]
  have hbhi : ∀ x ∈ b.take 5, x < 256 := fun x hx => hbytes x (List.mem_of_mem_take hx)
  have hblo : ∀ x ∈ b.drop 5, x < 256 := fun x hx => hbytes x (List.mem_of_mem_drop hx)
  have hiv : beValue (b.take 5) < 10 ^ 20 := by
    have := beValue_lt _ hbhi
    rw [hhi] at this
    norm_num at this ⊢
    omega
  have hdv : beValue (b.drop 5) < 10 ^ 20 := by
    have := beValue_lt _ hblo
    rw [hlo] at this
    norm_num at this ⊢
    omega
  obtain ⟨intStr, hint, hine, hid, hival⟩ : ∃ intStr : List Nat,
      (if beValue (b.take 5) = 0 then [48] else FormatUint (beValue (b.take 5))) = intStr ∧
      intStr ≠ [] ∧ (∀ c ∈ intStr, 48 ≤ c ∧ c ≤ 57) ∧
      digitsValue intStr = beValue (b.take 5) := by
    by_cases h0 : beValue (b.take 5) = 0
    · refine ⟨[48], by rw [if_pos h0], by simp, ?_, ?_⟩
      · intro c hc
        simp only [List.mem_singleton] at hc
        omega
      · rw [h0]
        rfl
    · obtain ⟨h1, h2, h3⟩ := FormatUint_spec _ hiv
      exact ⟨_, by rw [if_neg h0], h1, h2, h3⟩
  have hienc := encode_digits intStr (b.take 5) hine hid hival hhi hbhi
  rw [bytesToPrice_shape maxLen b hlen, hint] at hret
  refine ⟨intStr, hine, hid, hienc, ?_, ?_⟩
  · intro h0
    rw [if_pos h0] at hret
    exact (Outcome.returned.inj hret).symm
  · intro h0
    rw [if_neg h0] at hret
    by_cases hpanic : (FormatUint (beValue (b.drop 5))).length > maxLen
    · rw [if_pos hpanic] at hret
      cases hret
    rw [if_neg hpanic] at hret
    have hprice := (Outcome.returned.inj hret).symm
    obtain ⟨hdne, hdd, hdval⟩ := FormatUint_spec _ hdv
    have hdlen : (FormatUint (beValue (b.drop 5))).length ≤ maxLen := by omega
    generalize harr : List.replicate (maxLen - (FormatUint (beValue (b.drop 5))).length) 48 ++
      FormatUint (beValue (b.drop 5)) = arr at hprice
    have harrlen : arr.length = maxLen := by
      rw [← harr, List.length_append, List.length_replicate]
      omega
    have harrd : ∀ c ∈ arr, 48 ≤ c ∧ c ≤ 57 := by
      intro c hc
      rw [← harr] at hc
      rcases List.mem_append.1 hc with hc | hc
      · have := (List.mem_replicate.1 hc).2
        omega
      · exact hdd c hc
    have harrv : digitsValue arr = beValue (b.drop 5) := by
      rw [← harr, digitsValue_zeros_append, hdval]
    have harrne : arr ≠ [] := by
      intro e
      rw [e] at harrv
      exact h0 harrv.symm
    have hsplit := rightTruncate_split arr
    rw [← rightTruncate_take, harrlen] at hsplit
    have hlast := rightTruncate_last arr
    have hne := rightTruncate_ne_nil arr (by rw [harrv]; exact h0)
    rw [harrlen] at hlast hne
    generalize hfrac : arr.take (maxLen - rightTruncate arr) = frac at hsplit hlast hne hprice
    have hfd : ∀ c ∈ frac, 48 ≤ c ∧ c ≤ 57 := by
      intro c hc
      rw [← hfrac] at hc
      exact harrd c (List.mem_of_mem_take hc)
    have hrt : rightTruncate arr = maxLen - frac.length := by
      have := congrArg List.length hsplit
      rw [List.length_append, List.length_replicate, harrlen] at this
      omega
    have hpad : (if frac.length < maxLen then
        frac ++ List.replicate (maxLen - frac.length) 48 else frac) = arr := by
      rw [hrt] at hsplit
      by_cases hlt : frac.length < maxLen
      · rw [if_pos hlt]
        exact hsplit.symm
      · rw [if_neg hlt]
        have hz : maxLen - frac.length = 0 := by omega
        rw [hz] at hsplit
        simpa using hsplit.symm
    have hdenc := encode_digits arr (b.drop 5) harrne harrd harrv hlo hblo
    exact ⟨frac, hprice, hfd, hne, hlast, by rw [hpad]; exact hdenc⟩

/-- A 10-byte price whose decimal value is below `10 ^ priceDecimalMaxLen` does
not make `BytesToPrice` panic. -/
theorem bytesToPrice_returns (maxLen : Nat) (b : List Nat) (hlen : b.length = 10)
    (hdec : beValue (b.drop 5) < 10 ^ maxLen) :
    ∃ price, BytesToPrice maxLen b = Outcome.returned price := by
  rw [bytesToPrice_shape maxLen b hlen]
  by_cases h0 : beValue (b.drop 5) = 0
  · exact ⟨_, by rw [if_pos h0]⟩
  · have hmax : 1 ≤ maxLen := by
      rcases Nat.eq_zero_or_pos maxLen with hz | hz
      · rw [hz] at hdec
        simp at hdec
        exact absurd hdec h0
      · exact hz
    have hdlen : (FormatUint (beValue (b.drop 5))).length ≤ maxLen :=
      digitsFuel_length 20 _ maxLen hdec hmax
    exact ⟨_, by rw [if_neg h0, if_neg (by omega)]⟩

/-- C29: price encoding round trip.  For every 10-byte price `b` (bytes below
256): if the last 5 bytes encode a decimal part smaller than
`10 ^ priceDecimalMaxLen`, `BytesToPrice` returns a string `price` and
`PriceToBytes price = b`; and whatever `BytesToPrice` returns holds no decimal
point when the decimal part is zero, and is otherwise an integer part, one
decimal point and a non-empty fractional part that does not end in the digit
`0`. -/
theorem priceToBytes_bytesToPrice (maxLen : Nat) (b : List Nat) (hlen : b.length = 10)
    (hbytes : ∀ x ∈ b, x < 256) :
    (beValue (b.drop 5) < 10 ^ maxLen →
      ∃ price, BytesToPrice maxLen b = Outcome.returned price ∧
        PriceToBytes maxLen price = b) ∧
    (∀ price, BytesToPrice maxLen b = Outcome.returned price →
      (beValue (b.drop 5) = 0 → 46 ∉ price) ∧
      (beValue (b.drop 5) ≠ 0 → ∃ intStr frac, price = intStr ++ [46] ++ frac ∧
        46 ∉ intStr ∧ 46 ∉ frac ∧ frac ≠ [] ∧ frac.getLast? ≠ some 48)) := by
  have hlo : (b.drop 5).length = 5 := by rw [List.length_drop, hlen]
  constructor
  · intro hdec
    obtain ⟨price, hret⟩ := bytesToPrice_returns maxLen b hlen hdec
    obtain ⟨intStr, hine, hid, hienc, hzero, hfracs⟩ :=
      bytesToPrice_returned maxLen b price hlen hbytes hret
    have hidot := no_dot_of_digits intStr hid
    refine ⟨price, hret, ?_⟩
    by_cases h0 : beValue (b.drop 5) = 0
    · rw [hzero h0, priceToBytes_int maxLen intStr hidot hine, hienc,
        ← beValue_eq_zero _ hlo h0]
      exact List.take_append_drop 5 b
    · obtain ⟨frac, hprice, hfd, hne, _, hdenc⟩ := hfracs h0
      have hp : intStr ++ [46] ++ frac = intStr ++ 46 :: frac := by simp
      rw [hprice, hp, priceToBytes_frac maxLen intStr frac hidot (no_dot_of_digits frac hfd)
        hine hne, hienc, hdenc]
      exact List.take_append_drop 5 b
  · intro price hret
    obtain ⟨intStr, hine, hid, hienc, hzero, hfracs⟩ :=
      bytesToPrice_returned maxLen b price hlen hbytes hret
    have hidot := no_dot_of_digits intStr hid
    constructor
    · intro h0
      rw [hzero h0]
      exact hidot
    · intro h0
      obtain ⟨frac, hprice, hfd, hne, hlast, _⟩ := hfracs h0
      exact ⟨intStr, frac, hprice, hidot, no_dot_of_digits frac hfd, hne, hlast⟩

/-- An instance of C29 at `priceDecimalMaxLen = 2`: the bytes
`0 0 0 0 1 0 0 0 0 50` are returned as the price `1.5`, which is encoded as the
same bytes. -/
theorem priceToBytes_bytesToPrice_witness :
    ([0, 0, 0, 0, 1, 0, 0, 0, 0, 50].length = 10 ∧
      (∀ x ∈ [0, 0, 0, 0, 1, 0, 0, 0, 0, 50], x < 256) ∧
      beValue ([0, 0, 0, 0, 1, 0, 0, 0, 0, 50].drop 5) < 10 ^ 2) ∧
    (∃ price, BytesToPrice 2 [0, 0, 0, 0, 1, 0, 0, 0, 0, 50] = Outcome.returned price ∧
      PriceToBytes 2 price = [0, 0, 0, 0, 1, 0, 0, 0, 0, 50]) ∧
    BytesToPrice 2 [0, 0, 0, 0, 1, 0, 0, 0, 0, 50] = Outcome.returned [49, 46, 53] :=
  ⟨⟨rfl, by decide, by decide⟩,
    (priceToBytes_bytesToPrice 2 [0, 0, 0, 0, 1, 0, 0, 0, 0, 50] rfl (by decide)).1 (by decide),
    by decide⟩

end PriceClaim

end GoVite
